import Mathlib

/-!
Verification of the tic-tac-toe board model and minimax/alpha-beta search
(source: `Search/tictactoe/tictactoe.py`).

The board is a Python list of lists of cells (`X`, `O`, `EMPTY = None`);
we embed it as `List (List Cell)`.  All functions are translated directly
from the source: `player` counts marks, `actions` enumerates empty cells
in row-major order, `result` uses Python list-index semantics (negative
indices in `[-len, 0)` wrap, others raise `IndexError`; an occupied target
raises the source's `Exception('Not a valid action!')`, embedded as
`PyErr.invalidAction`), `winner` scans the 8 lines in the source's order
(row i then column i for i = 0,1,2, then the two diagonals), `terminal`
is the truthiness of `winner(board) or actions(board) == []`, and
`utility` is the dictionary lookup `{X: 1, O: -1}.get(winner(board), 0)`.
-/

namespace TTT

/-- Cell values: `X`, `O`, and `E` for `EMPTY = None`. -/
inductive Cell : Type where
  | X : Cell
  | O : Cell
  | E : Cell
deriving DecidableEq, Repr

/-- A board is a (Python) list of rows of cells. -/
abbrev Board := List (List Cell)

/-- An action is a pair of (Python, hence possibly negative) integer coordinates. -/
abbrev Action := Int × Int

/-- `initial_state()` from the source: the empty 3x3 board. -/
def initial_state : Board :=
  [[Cell.E, Cell.E, Cell.E],
   [Cell.E, Cell.E, Cell.E],
   [Cell.E, Cell.E, Cell.E]]

/-- The per-cell summand of the source's count:
`1 if elem == X else -1 if elem == O else 0`. -/
def cellScore (c : Cell) : Int :=
  if c = Cell.X then 1 else if c = Cell.O then -1 else 0

/-- The mark count of `player`: `sum(... for row in board for elem in row)`. -/
def count (b : Board) : Int :=
  ((b.flatten).map cellScore).sum

/-- `player(board)` from the source: `X if count == 0 else O`. -/
def player (b : Board) : Cell :=
  if count b = 0 then Cell.X else Cell.O

/-- `actions(board)` from the source:
`[(i, j) for i, row in enumerate(board) for j, elem in enumerate(row) if elem == EMPTY]`. -/
def actions (b : Board) : List Action :=
  b.enum.flatMap (fun p =>
    p.2.enum.filterMap (fun q =>
      if q.2 = Cell.E then some ((p.1 : Int), (q.1 : Int)) else none))

/-- Python list read `l[i]`: indices in `[0, len)` read directly, indices in
`[-len, 0)` wrap by adding the length, anything else raises `IndexError`
(modelled as `none`). -/
def pyGet {α : Type} (l : List α) (i : Int) : Option α :=
  if 0 ≤ i then l[i.toNat]?
  else if -(l.length : Int) ≤ i then l[(i + l.length).toNat]?
  else none

/-- Python list write `l[i] = x` for an index already validated by `pyGet`. -/
def pySet {α : Type} (l : List α) (i : Int) (x : α) : List α :=
  if 0 ≤ i then l.set i.toNat x else l.set (i + l.length).toNat x

/-- The two ways the source's `result` can raise: the explicit
`Exception('Not a valid action!')` on an occupied cell, and Python's
`IndexError` on an out-of-range subscript. -/
inductive PyErr : Type where
  | invalidAction : PyErr
  | indexError : PyErr
deriving DecidableEq, Repr

/-- `result(board, action)` from the source: reads `board[i][j]` (Python
index semantics), raises on an occupied cell, and otherwise returns a copy
of the board with the target cell set to `player(board)`. -/
def result (b : Board) (a : Action) : Except PyErr Board :=
  match pyGet b a.1 with
  | none => .error .indexError
  | some row =>
    match pyGet row a.2 with
    | none => .error .indexError
    | some c =>
      if c = Cell.E then .ok (pySet b a.1 (pySet row a.2 (player b)))
      else .error .invalidAction

instance {ε α : Type} [DecidableEq ε] [DecidableEq α] : DecidableEq (Except ε α) := fun x y =>
  match x, y with
  | .ok a, .ok b => decidable_of_iff (a = b) (by simp)
  | .ok _, .error _ => .isFalse (fun h => by cases h)
  | .error _, .ok _ => .isFalse (fun h => by cases h)
  | .error e, .error f => decidable_of_iff (e = f) (by simp)

/-- Total wrapper for `result`, used on the search path where every action
comes from `actions board` and `result` provably succeeds (the `b` default
is never reached there). -/
def resultOk (b : Board) (a : Action) : Board :=
  match result b a with
  | .ok b' => b'
  | .error _ => b

/-- `board[i][j]` for the non-negative in-range reads of `winner`
(total via defaults; on 3x3 boards it is exactly the source's read). -/
def cell (b : Board) (i j : Nat) : Cell :=
  (b.getD i []).getD j Cell.E

/-- `winner(board)` from the source: the 8 line checks in source order
(row `i` then column `i` for `i = 0, 1, 2`, then the two diagonals). -/
def winner (b : Board) : Option Cell :=
  if cell b 0 0 = cell b 0 1 ∧ cell b 0 1 = cell b 0 2 ∧ cell b 0 0 ≠ Cell.E then some (cell b 0 0)
  else if cell b 0 0 = cell b 1 0 ∧ cell b 1 0 = cell b 2 0 ∧ cell b 0 0 ≠ Cell.E then some (cell b 0 0)
  else if cell b 1 0 = cell b 1 1 ∧ cell b 1 1 = cell b 1 2 ∧ cell b 1 0 ≠ Cell.E then some (cell b 1 0)
  else if cell b 0 1 = cell b 1 1 ∧ cell b 1 1 = cell b 2 1 ∧ cell b 0 1 ≠ Cell.E then some (cell b 0 1)
  else if cell b 2 0 = cell b 2 1 ∧ cell b 2 1 = cell b 2 2 ∧ cell b 2 0 ≠ Cell.E then some (cell b 2 0)
  else if cell b 0 2 = cell b 1 2 ∧ cell b 1 2 = cell b 2 2 ∧ cell b 0 2 ≠ Cell.E then some (cell b 0 2)
  else if cell b 0 0 = cell b 1 1 ∧ cell b 1 1 = cell b 2 2 ∧ cell b 0 0 ≠ Cell.E then some (cell b 0 0)
  else if cell b 0 2 = cell b 1 1 ∧ cell b 1 1 = cell b 2 0 ∧ cell b 0 2 ≠ Cell.E then some (cell b 0 2)
  else none

/-- `terminal(board)` from the source: the truthiness of
`winner(board) or actions(board) == []`. -/
def terminal (b : Board) : Bool :=
  (winner b).isSome || (actions b).isEmpty

/-- `utility(board)` from the source: `{X: 1, O: -1}.get(winner(board), 0)`. -/
def utility (b : Board) : Int :=
  match winner b with
  | some Cell.X => 1
  | some Cell.O => -1
  | _ => 0

/-- Well-formed board: exactly 3 rows of exactly 3 cells (the data-model
invariant; the source never resizes a board). -/
def Wf (b : Board) : Prop :=
  b.length = 3 ∧ ∀ r ∈ b, r.length = 3

instance : DecidablePred Wf := fun b => by
  unfold Wf; infer_instance

/-! ### Basic facts about the board model -/

/-- Number of empty cells in a row. -/
def cntE : List Cell → Nat
  | [] => 0
  | c :: cs => (if c = Cell.E then 1 else 0) + cntE cs

/-- The wrapped index Python uses for a valid subscript of a length-`L` list. -/
def wrapIdx (L : Nat) (i : Int) : Nat :=
  (if i < 0 then i + L else i).toNat

theorem wrapIdx_natCast (L n : Nat) : wrapIdx L (n : Int) = n := by
  unfold wrapIdx
  rw [if_neg (by omega)]
  omega

theorem pyGet_eq_some {α : Type} (l : List α) (i : Int) (d : α)
    (h1 : -(l.length : Int) ≤ i) (h2 : i < l.length) :
    pyGet l i = some (l.getD (wrapIdx l.length i) d) := by
  unfold pyGet wrapIdx
  by_cases h0 : 0 ≤ i
  · rw [if_pos h0, if_neg (by omega)]
    have hlt : i.toNat < l.length := by omega
    rw [List.getElem?_eq_getElem hlt, List.getD_eq_getElem l d hlt]
  · rw [if_neg h0, if_pos (by omega), if_pos (by omega)]
    have hlt : (i + l.length).toNat < l.length := by omega
    rw [List.getElem?_eq_getElem hlt, List.getD_eq_getElem l d hlt]

theorem pyGet_eq_none {α : Type} (l : List α) (i : Int)
    (h : i < -(l.length : Int) ∨ (l.length : Int) ≤ i) :
    pyGet l i = none := by
  unfold pyGet
  rcases h with h | h
  · rw [if_neg (by omega), if_neg (by omega)]
  · rw [if_pos (by omega)]
    exact List.getElem?_eq_none (by omega)

theorem pySet_eq {α : Type} (l : List α) (i : Int) (x : α)
    (_h1 : -(l.length : Int) ≤ i) (_h2 : i < l.length) :
    pySet l i x = l.set (wrapIdx l.length i) x := by
  unfold pySet wrapIdx
  by_cases h0 : 0 ≤ i
  · rw [if_pos h0, if_neg (by omega)]
  · rw [if_neg h0, if_pos (by omega)]

/-- Membership in the inner (row) comprehension of `actions`. -/
theorem row_mem (r : List Cell) (j0 : Nat) (i : Int) (x : Action) :
    x ∈ (List.enumFrom j0 r).filterMap
        (fun q => if q.2 = Cell.E then some (i, (q.1 : Int)) else none)
    ↔ ∃ j : Nat, j < r.length ∧ r.getD j Cell.E = Cell.E ∧ x = (i, ((j0 + j : Nat) : Int)) := by
  induction r generalizing j0 with
  | nil => simp
  | cons c cs ih =>
    rw [show List.enumFrom j0 (c :: cs) = (j0, c) :: List.enumFrom (j0 + 1) cs from rfl,
      List.filterMap_cons]
    simp only [List.length_cons]
    by_cases hc : c = Cell.E
    · rw [if_pos hc]
      simp only [List.mem_cons, ih]
      constructor
      · rintro (rfl | ⟨j, hj, he, rfl⟩)
        · exact ⟨0, by omega, by simpa using hc, by simp⟩
        · exact ⟨j + 1, by omega, by simpa using he, by rw [show j0 + 1 + j = j0 + (j + 1) by omega]⟩
      · rintro ⟨j, hj, he, rfl⟩
        cases j with
        | zero => left; simp
        | succ j' =>
          right
          exact ⟨j', by omega, by simpa using he, by rw [show j0 + (j' + 1) = j0 + 1 + j' by omega]⟩
    · rw [if_neg hc]
      simp only [ih]
      constructor
      · rintro ⟨j, hj, he, rfl⟩
        exact ⟨j + 1, by omega, by simpa using he, by rw [show j0 + 1 + j = j0 + (j + 1) by omega]⟩
      · rintro ⟨j, hj, he, rfl⟩
        cases j with
        | zero => exact absurd (by simpa using he) hc
        | succ j' =>
          exact ⟨j', by omega, by simpa using he, by rw [show j0 + (j' + 1) = j0 + 1 + j' by omega]⟩

/-- Membership in `actions`: exactly the in-range empty cells, with
non-negative coordinates. -/
theorem mem_actions (b : Board) (x : Action) :
    x ∈ actions b ↔ ∃ i j : Nat, i < b.length ∧ j < (b.getD i []).length ∧
      (b.getD i []).getD j Cell.E = Cell.E ∧ x = ((i : Int), (j : Int)) := by
  have key : ∀ (rs : Board) (i0 : Nat),
      x ∈ (List.enumFrom i0 rs).flatMap (fun p =>
          p.2.enum.filterMap (fun q =>
            if q.2 = Cell.E then some ((p.1 : Int), (q.1 : Int)) else none))
      ↔ ∃ i j : Nat, i < rs.length ∧ j < (rs.getD i []).length ∧
          (rs.getD i []).getD j Cell.E = Cell.E ∧ x = (((i0 + i : Nat) : Int), (j : Int)) := by
    intro rs
    induction rs with
    | nil => simp
    | cons r rs' ih =>
      intro i0
      rw [show List.enumFrom i0 (r :: rs') = (i0, r) :: List.enumFrom (i0 + 1) rs' from rfl,
        List.flatMap_cons, List.mem_append]
      rw [show (r.enum : List (Nat × Cell)) = List.enumFrom 0 r from rfl]
      rw [row_mem r 0 (i0 : Int) x, ih (i0 + 1)]
      simp only [List.length_cons]
      constructor
      · rintro (⟨j, hj, he, rfl⟩ | ⟨i, j, hi, hj, he, rfl⟩)
        · exact ⟨0, j, by omega, by simpa using hj, by simpa using he, by simp⟩
        · refine ⟨i + 1, j, by omega, by simpa using hj, by simpa using he, ?_⟩
          rw [show i0 + 1 + i = i0 + (i + 1) by omega]
      · rintro ⟨i, j, hi, hj, he, rfl⟩
        cases i with
        | zero =>
          left
          exact ⟨j, by simpa using hj, by simpa using he, by simp⟩
        | succ i' =>
          right
          refine ⟨i', j, by omega, by simpa using hj, by simpa using he, ?_⟩
          rw [show i0 + (i' + 1) = i0 + 1 + i' by omega]
  have h0 := key b 0
  simp only [Nat.zero_add] at h0
  exact h0

/-- The length of the inner comprehension of `actions` is the number of
empty cells in the row, independently of the enumeration offset. -/
theorem row_len (r : List Cell) (j0 : Nat) (i : Int) :
    ((List.enumFrom j0 r).filterMap
      (fun q => if q.2 = Cell.E then some (i, (q.1 : Int)) else none)).length = cntE r := by
  induction r generalizing j0 with
  | nil => rfl
  | cons c cs ih =>
    rw [show List.enumFrom j0 (c :: cs) = (j0, c) :: List.enumFrom (j0 + 1) cs from rfl,
      List.filterMap_cons]
    by_cases hc : c = Cell.E
    · rw [if_pos hc]
      simp [cntE, hc, ih]
      omega
    · rw [if_neg hc]
      simp [cntE, hc, ih]

theorem actions_length (b : Board) : (actions b).length = (b.map cntE).sum := by
  have key : ∀ (rs : Board) (i0 : Nat),
      ((List.enumFrom i0 rs).flatMap (fun p =>
          p.2.enum.filterMap (fun q =>
            if q.2 = Cell.E then some ((p.1 : Int), (q.1 : Int)) else none))).length
      = (rs.map cntE).sum := by
    intro rs
    induction rs with
    | nil => intro _; rfl
    | cons r rs' ih =>
      intro i0
      rw [show List.enumFrom i0 (r :: rs') = (i0, r) :: List.enumFrom (i0 + 1) rs' from rfl,
        List.flatMap_cons, List.length_append]
      rw [show (r.enum : List (Nat × Cell)) = List.enumFrom 0 r from rfl]
      rw [row_len r 0 (i0 : Int), ih (i0 + 1)]
      simp
  exact key b 0

theorem cntE_set (r : List Cell) (j : Nat) (x : Cell)
    (hj : j < r.length) (he : r.getD j Cell.E = Cell.E) (hx : x ≠ Cell.E) :
    cntE (r.set j x) + 1 = cntE r := by
  induction r generalizing j with
  | nil => simp at hj
  | cons c cs ih =>
    cases j with
    | zero =>
      simp only [List.getD_cons_zero] at he
      simp [List.set_cons_zero, cntE, he, hx]
      omega
    | succ j' =>
      simp only [List.getD_cons_succ] at he
      have := ih j' (by simpa using hj) he
      simp only [List.set_cons_succ, cntE]
      omega

theorem sum_cntE_set (rs : Board) (i : Nat) (r' : List Cell)
    (hi : i < rs.length) (h : cntE r' + 1 = cntE (rs.getD i [])) :
    ((rs.set i r').map cntE).sum + 1 = (rs.map cntE).sum := by
  induction rs generalizing i with
  | nil => simp at hi
  | cons r rs' ih =>
    cases i with
    | zero =>
      simp only [List.getD_cons_zero] at h
      simp [List.set_cons_zero, cntE]
      omega
    | succ i' =>
      simp only [List.getD_cons_succ] at h
      have := ih i' (by simpa using hi) h
      simp only [List.set_cons_succ, List.map_cons, List.sum_cons]
      omega

theorem player_ne_E (b : Board) : player b ≠ Cell.E := by
  unfold player
  split <;> simp

/-- `result` on a legal action (an element of `actions board`) succeeds and
sets exactly the targeted cell. -/
theorem result_legal (b : Board) (i j : Nat)
    (hi : i < b.length) (hj : j < (b.getD i []).length)
    (he : (b.getD i []).getD j Cell.E = Cell.E) :
    result b ((i : Int), (j : Int)) =
      .ok (b.set i ((b.getD i []).set j (player b))) := by
  unfold result
  rw [pyGet_eq_some b (i : Int) [] (by omega) (by exact_mod_cast hi)]
  rw [wrapIdx_natCast]
  dsimp only
  rw [pyGet_eq_some (b.getD i []) (j : Int) Cell.E (by omega) (by exact_mod_cast hj)]
  rw [wrapIdx_natCast]
  dsimp only
  rw [if_pos he]
  rw [pySet_eq b (i : Int) _ (by omega) (by exact_mod_cast hi), wrapIdx_natCast]
  rw [pySet_eq (b.getD i []) (j : Int) _ (by omega) (by exact_mod_cast hj), wrapIdx_natCast]

theorem resultOk_legal (b : Board) (i j : Nat)
    (hi : i < b.length) (hj : j < (b.getD i []).length)
    (he : (b.getD i []).getD j Cell.E = Cell.E) :
    resultOk b ((i : Int), (j : Int)) = b.set i ((b.getD i []).set j (player b)) := by
  unfold resultOk
  rw [result_legal b i j hi hj he]

/-- Applying a legal action removes exactly one entry from `actions`. -/
theorem actions_length_result (b : Board) (x : Action) (hx : x ∈ actions b) :
    (actions (resultOk b x)).length + 1 = (actions b).length := by
  rw [mem_actions] at hx
  obtain ⟨i, j, hi, hj, he, rfl⟩ := hx
  rw [resultOk_legal b i j hi hj he]
  rw [actions_length, actions_length]
  exact sum_cntE_set b i _ hi (cntE_set _ j _ hj he (player_ne_E b))

/-- Per-row mark count. -/
def rowScore (r : List Cell) : Int := (r.map cellScore).sum

theorem count_eq_rows (b : Board) : count b = (b.map rowScore).sum := by
  induction b with
  | nil => rfl
  | cons r rs ih =>
    simp only [count, List.flatten_cons, List.map_append, List.sum_append,
      List.map_cons, List.sum_cons] at ih ⊢
    rw [ih]
    rfl

theorem rowScore_set (r : List Cell) (j : Nat) (x : Cell)
    (hj : j < r.length) (he : r.getD j Cell.E = Cell.E) :
    rowScore (r.set j x) = rowScore r + cellScore x := by
  induction r generalizing j with
  | nil => simp at hj
  | cons c cs ih =>
    cases j with
    | zero =>
      simp only [List.getD_cons_zero] at he
      subst he
      simp only [List.set_cons_zero, rowScore, List.map_cons, List.sum_cons]
      simp [cellScore]
      omega
    | succ j' =>
      simp only [List.getD_cons_succ] at he
      have := ih j' (by simpa using hj) he
      simp only [List.set_cons_succ, rowScore, List.map_cons, List.sum_cons] at this ⊢
      omega

theorem sum_rows_set (rs : Board) (i : Nat) (r' : List Cell) (d : Int)
    (hi : i < rs.length) (h : rowScore r' = rowScore (rs.getD i []) + d) :
    ((rs.set i r').map rowScore).sum = (rs.map rowScore).sum + d := by
  induction rs generalizing i with
  | nil => simp at hi
  | cons r rs' ih =>
    cases i with
    | zero =>
      simp only [List.getD_cons_zero] at h
      simp only [List.set_cons_zero, List.map_cons, List.sum_cons]
      omega
    | succ i' =>
      simp only [List.getD_cons_succ] at h
      have := ih i' (by simpa using hi) h
      simp only [List.set_cons_succ, List.map_cons, List.sum_cons]
      omega

/-- Applying a legal action adds the active player's score to the count. -/
theorem count_result (b : Board) (x : Action) (hx : x ∈ actions b) :
    count (resultOk b x) = count b + cellScore (player b) := by
  rw [mem_actions] at hx
  obtain ⟨i, j, hi, hj, he, rfl⟩ := hx
  rw [resultOk_legal b i j hi hj he]
  rw [count_eq_rows, count_eq_rows]
  exact sum_rows_set b i _ _ hi (rowScore_set _ j _ hj he)

/-- `winner` never reports the empty mark. -/
theorem winner_ne_E (b : Board) (w : Cell) (h : winner b = some w) : w ≠ Cell.E := by
  unfold winner at h
  split_ifs at h <;> simp_all

/-! ### Claims C3, C6, C7, C8, C10 -/

theorem wf_shape (b : Board) (h : Wf b) :
    ∃ c00 c01 c02 c10 c11 c12 c20 c21 c22,
      b = [[c00, c01, c02], [c10, c11, c12], [c20, c21, c22]] := by
  obtain ⟨hl, hr⟩ := h
  obtain ⟨r0, r1, r2, rfl⟩ := List.length_eq_three.mp hl
  obtain ⟨a, b', c, rfl⟩ := List.length_eq_three.mp (hr r0 (by simp))
  obtain ⟨d, e, f, rfl⟩ := List.length_eq_three.mp (hr r1 (by simp))
  obtain ⟨g, h', i, rfl⟩ := List.length_eq_three.mp (hr r2 (by simp))
  exact ⟨_, _, _, _, _, _, _, _, _, rfl⟩

/-- C3, counterexample: the action `(-1, -1)` lies outside `0..2 x 0..2`,
yet `result` does not fail: Python's negative indexing wraps it to the cell
`(2, 2)`, which is set to the active player's mark. -/
theorem c3_counterexample :
    (¬ (0 ≤ (-1 : Int) ∧ 0 ≤ (-1 : Int))) ∧
    result initial_state (-1, -1) =
      .ok [[Cell.E, Cell.E, Cell.E], [Cell.E, Cell.E, Cell.E], [Cell.E, Cell.E, Cell.X]] := by
  decide

/-- C3, amended: on a well-formed board, `result` fails with `indexError`
exactly when a coordinate is outside Python's valid range `-3..2`, fails
with `invalidAction` exactly when the (wrapped) target cell is occupied,
and otherwise sets the (wrapped) target cell to the active player's mark. -/
theorem c3_result_characterization (b : Board) (hwf : Wf b) (i j : Int) :
    result b (i, j) =
      if -3 ≤ i ∧ i < 3 ∧ -3 ≤ j ∧ j < 3 then
        (if cell b (wrapIdx 3 i) (wrapIdx 3 j) = Cell.E
         then Except.ok (b.set (wrapIdx 3 i) ((b.getD (wrapIdx 3 i) []).set (wrapIdx 3 j) (player b)))
         else Except.error PyErr.invalidAction)
      else Except.error PyErr.indexError := by
  obtain ⟨c00, c01, c02, c10, c11, c12, c20, c21, c22, rfl⟩ := wf_shape b hwf
  set b := [[c00, c01, c02], [c10, c11, c12], [c20, c21, c22]] with hb
  have hlb : b.length = 3 := rfl
  by_cases hi : -3 ≤ i ∧ i < 3
  · have hk : wrapIdx 3 i < 3 := by unfold wrapIdx; omega
    have hrow : (b.getD (wrapIdx 3 i) []).length = 3 := by
      set k := wrapIdx 3 i with hkdef
      interval_cases k <;> rfl
    by_cases hj : -3 ≤ j ∧ j < 3
    · rw [if_pos ⟨hi.1, hi.2, hj.1, hj.2⟩]
      unfold result
      rw [show pyGet b i = some (b.getD (wrapIdx 3 i) []) from
        pyGet_eq_some b i [] (by rw [hlb]; exact hi.1) (by rw [hlb]; exact hi.2)]
      dsimp only
      rw [show pyGet (b.getD (wrapIdx 3 i) []) j
            = some ((b.getD (wrapIdx 3 i) []).getD (wrapIdx 3 j) Cell.E) by
        rw [pyGet_eq_some (b.getD (wrapIdx 3 i) []) j Cell.E
          (by rw [hrow]; exact hj.1) (by rw [hrow]; exact hj.2), hrow]]
      dsimp only
      rw [show pySet b i = b.set (wrapIdx 3 i) from by
        funext x
        rw [pySet_eq b i x (by rw [hlb]; exact hi.1) (by rw [hlb]; exact hi.2)]
        rfl]
      rw [show pySet (b.getD (wrapIdx 3 i) []) j
            = (b.getD (wrapIdx 3 i) []).set (wrapIdx 3 j) from by
        funext x
        rw [pySet_eq (b.getD (wrapIdx 3 i) []) j x
          (by rw [hrow]; exact hj.1) (by rw [hrow]; exact hj.2), hrow]]
      rfl
    · rw [if_neg (by tauto)]
      unfold result
      rw [show pyGet b i = some (b.getD (wrapIdx 3 i) []) from
        pyGet_eq_some b i [] (by rw [hlb]; exact hi.1) (by rw [hlb]; exact hi.2)]
      dsimp only
      rw [pyGet_eq_none (b.getD (wrapIdx 3 i) []) j (by rw [hrow]; omega)]
  · rw [if_neg (by tauto)]
    unfold result
    rw [pyGet_eq_none b i (by rw [hlb]; omega)]

/-- Witness for the amended C3 at a concrete input: the in-range negative
index pair `(1, -2)` targets cell `(1, 1)` of the empty board. -/
theorem c3_result_characterization_witness :
    Wf initial_state ∧
    result initial_state (1, -2) =
      (if -3 ≤ (1 : Int) ∧ (1 : Int) < 3 ∧ -3 ≤ (-2 : Int) ∧ (-2 : Int) < 3 then
        (if cell initial_state (wrapIdx 3 1) (wrapIdx 3 (-2)) = Cell.E
         then Except.ok (initial_state.set (wrapIdx 3 1)
            ((initial_state.getD (wrapIdx 3 1) []).set (wrapIdx 3 (-2)) (player initial_state)))
         else Except.error PyErr.invalidAction)
      else Except.error PyErr.indexError) :=
  ⟨by decide, c3_result_characterization initial_state (by decide) 1 (-2)⟩

/-- C6: for terminal boards, the winner scan and `utility` agree:
X wins iff utility is `1`, O wins iff `-1`, no winner iff `0`. -/
theorem c6_outcome_utility_agree (b : Board) (_ht : terminal b = true) :
    (winner b = some Cell.X ↔ utility b = 1) ∧
    (winner b = some Cell.O ↔ utility b = -1) ∧
    (winner b = none ↔ utility b = 0) := by
  rcases hw : winner b with _ | w
  · simp [utility, hw]
  · have hne := winner_ne_E b w hw
    cases w
    · simp [utility, hw]
    · simp [utility, hw]
    · exact absurd rfl hne

theorem c6_outcome_utility_agree_witness :
    terminal [[Cell.X, Cell.X, Cell.X], [Cell.O, Cell.O, Cell.E], [Cell.E, Cell.E, Cell.E]] = true ∧
    ((winner [[Cell.X, Cell.X, Cell.X], [Cell.O, Cell.O, Cell.E], [Cell.E, Cell.E, Cell.E]] = some Cell.X ↔
      utility [[Cell.X, Cell.X, Cell.X], [Cell.O, Cell.O, Cell.E], [Cell.E, Cell.E, Cell.E]] = 1) ∧
     (winner [[Cell.X, Cell.X, Cell.X], [Cell.O, Cell.O, Cell.E], [Cell.E, Cell.E, Cell.E]] = some Cell.O ↔
      utility [[Cell.X, Cell.X, Cell.X], [Cell.O, Cell.O, Cell.E], [Cell.E, Cell.E, Cell.E]] = -1) ∧
     (winner [[Cell.X, Cell.X, Cell.X], [Cell.O, Cell.O, Cell.E], [Cell.E, Cell.E, Cell.E]] = none ↔
      utility [[Cell.X, Cell.X, Cell.X], [Cell.O, Cell.O, Cell.E], [Cell.E, Cell.E, Cell.E]] = 0)) :=
  ⟨by decide, c6_outcome_utility_agree _ (by decide)⟩

/-- C7, counterexample: on the (unreachable, but well-formed) board with two
X marks and no O marks, it is O's turn both before and after the legal move
`(0, 2)`: applying a legal action does not flip the player on all boards. -/
theorem c7_counterexample :
    ((0 : Int), (2 : Int)) ∈ actions [[Cell.X, Cell.X, Cell.E], [Cell.E, Cell.E, Cell.E], [Cell.E, Cell.E, Cell.E]] ∧
    player [[Cell.X, Cell.X, Cell.E], [Cell.E, Cell.E, Cell.E], [Cell.E, Cell.E, Cell.E]] = Cell.O ∧
    player (resultOk [[Cell.X, Cell.X, Cell.E], [Cell.E, Cell.E, Cell.E], [Cell.E, Cell.E, Cell.E]] (0, 2)) = Cell.O := by
  refine ⟨?_, by decide, by decide⟩
  decide

/-- C7, amended: on boards whose mark count is `0` or `1` — which includes
every board reachable from the initial state, where First moves first and
the counts differ by at most one — applying a legal action flips the active
player. -/
theorem c7_player_flips (b : Board) (x : Action)
    (hc : count b = 0 ∨ count b = 1) (hx : x ∈ actions b) :
    player (resultOk b x) ≠ player b := by
  have hcr := count_result b x hx
  rcases hc with h0 | h1
  · have hpb : player b = Cell.X := by simp [player, h0]
    rw [hpb] at hcr ⊢
    have : count (resultOk b x) = 1 := by rw [hcr, h0]; rfl
    simp [player, this]
  · have hpb : player b = Cell.O := by simp [player, h1]
    rw [hpb] at hcr ⊢
    have : count (resultOk b x) = 0 := by rw [hcr, h1]; rfl
    simp [player, this]

theorem c7_player_flips_witness :
    (count initial_state = 0 ∨ count initial_state = 1) ∧
    ((0 : Int), (0 : Int)) ∈ actions initial_state ∧
    player (resultOk initial_state (0, 0)) ≠ player initial_state :=
  ⟨Or.inl (by decide), by decide, c7_player_flips initial_state (0, 0) (Or.inl (by decide)) (by decide)⟩

/-- C8: `terminal` is true exactly when the winner scan finds a winner or
no legal action remains. -/
theorem c8_terminal_iff (b : Board) :
    terminal b = true ↔ (winner b ≠ none ∨ actions b = []) := by
  simp [terminal, Option.isSome_iff_ne_none, List.isEmpty_iff]

/-- C10: `utility` is total and returns `0` on every board without a
three-in-a-row winner, terminal or not. -/
theorem c10_utility_no_winner (b : Board) (h : winner b = none) : utility b = 0 := by
  simp [utility, h]

theorem c10_utility_no_winner_witness :
    winner [[Cell.X, Cell.E, Cell.E], [Cell.E, Cell.E, Cell.E], [Cell.E, Cell.E, Cell.E]] = none ∧
    utility [[Cell.X, Cell.E, Cell.E], [Cell.E, Cell.E, Cell.E], [Cell.E, Cell.E, Cell.E]] = 0 :=
  ⟨by decide, c10_utility_no_winner _ (by decide)⟩

/-! ### The search engine

The source's values are Python floats drawn from `{-inf} ∪ int ∪ {+inf}`
(utilities are integers; `v`, `alpha`, `beta` start at `float('-inf')` /
`float('inf')`).  We embed them as an extended-integer type. -/

/-- Extended integers: `float('-inf')`, an integer, `float('inf')`. -/
inductive EInt : Type where
  | bot : EInt
  | num : Int → EInt
  | top : EInt
deriving DecidableEq, Repr

/-- Boolean order on `EInt`. -/
def EInt.ble : EInt → EInt → Bool
  | .bot, _ => true
  | .num _, .bot => false
  | .num m, .num n => decide (m ≤ n)
  | .num _, .top => true
  | .top, .top => true
  | .top, .bot => false
  | .top, .num _ => false

instance : LinearOrder EInt where
  le a b := EInt.ble a b = true
  le_refl a := by cases a <;> simp [EInt.ble]
  le_trans a b c hab hbc := by
    cases a <;> cases b <;> cases c <;> simp_all [EInt.ble] <;> omega
  le_antisymm a b hab hba := by
    cases a <;> cases b <;> simp_all [EInt.ble]
    omega
  le_total a b := by cases a <;> cases b <;> simp [EInt.ble] <;> omega
  decidableLE a b := inferInstanceAs (Decidable (EInt.ble a b = true))

instance : DecidableRel ((· ≤ ·) : EInt → EInt → Prop) := fun a b =>
  inferInstanceAs (Decidable (EInt.ble a b = true))

instance : DecidableRel ((· < ·) : EInt → EInt → Prop) := fun a b =>
  decidable_of_iff _ (lt_iff_le_not_le (a := a) (b := b)).symm

/-- Boolean strict order, `a < b` as the source's float comparison. -/
def EInt.blt (a b : EInt) : Bool := ! EInt.ble b a

/-- `max` on extended integers (Python's `max`). -/
def EInt.emax (a b : EInt) : EInt := if EInt.ble a b then b else a

/-- `min` on extended integers (Python's `min`). -/
def EInt.emin (a b : EInt) : EInt := if EInt.ble a b then a else b

theorem EInt.ble_iff (a b : EInt) : EInt.ble a b = true ↔ a ≤ b := Iff.rfl

theorem EInt.blt_iff (a b : EInt) : EInt.blt a b = true ↔ a < b := by
  unfold EInt.blt
  rw [lt_iff_not_ge]
  constructor
  · intro h hge
    rw [show EInt.ble b a = true from hge] at h
    cases h
  · intro h
    rcases hb : EInt.ble b a with _ | _
    · rfl
    · exact absurd hb h

theorem EInt.emax_eq (a b : EInt) : EInt.emax a b = max a b := by
  unfold EInt.emax
  rcases hab : EInt.ble a b with _ | _
  · have h : ¬ a ≤ b := fun hc => by rw [show EInt.ble a b = true from hc] at hab; cases hab
    rw [if_neg (by simp [hab]), max_eq_left (le_of_not_le h)]
  · rw [if_pos rfl, max_eq_right hab]

theorem EInt.emin_eq (a b : EInt) : EInt.emin a b = min a b := by
  unfold EInt.emin
  rcases hab : EInt.ble a b with _ | _
  · have h : ¬ a ≤ b := fun hc => by rw [show EInt.ble a b = true from hc] at hab; cases hab
    rw [if_neg (by simp [hab]), min_eq_right (le_of_not_le h)]
  · rw [if_pos rfl, min_eq_left hab]

theorem EInt.bot_le (a : EInt) : EInt.bot ≤ a := by
  show EInt.ble .bot a = true
  rfl

theorem EInt.le_top (a : EInt) : a ≤ EInt.top := by
  show EInt.ble a .top = true
  cases a <;> rfl

@[simp] theorem EInt.num_le_num (m n : Int) : (EInt.num m ≤ EInt.num n) ↔ m ≤ n := by
  show EInt.ble _ _ = true ↔ _
  simp [EInt.ble]

@[simp] theorem EInt.num_lt_num (m n : Int) : (EInt.num m < EInt.num n) ↔ m < n := by
  rw [lt_iff_le_not_le]
  simp only [EInt.num_le_num]
  omega

theorem EInt.bot_lt_num (n : Int) : EInt.bot < EInt.num n := by
  rw [lt_iff_le_not_le]
  exact ⟨EInt.bot_le _, by show ¬ EInt.ble _ _ = true; simp [EInt.ble]⟩

theorem EInt.num_lt_top (n : Int) : EInt.num n < EInt.top := by
  rw [lt_iff_le_not_le]
  exact ⟨EInt.le_top _, by show ¬ EInt.ble _ _ = true; simp [EInt.ble]⟩

theorem EInt.bot_lt_top : EInt.bot < EInt.top := by
  rw [lt_iff_le_not_le]
  exact ⟨EInt.bot_le _, by show ¬ EInt.ble _ _ = true; simp [EInt.ble]⟩

theorem EInt.not_top_le_num (n : Int) : ¬ (EInt.top ≤ EInt.num n) := by
  show ¬ EInt.ble _ _ = true
  simp [EInt.ble]

theorem EInt.not_num_le_bot (n : Int) : ¬ (EInt.num n ≤ EInt.bot) := by
  show ¬ EInt.ble _ _ = true
  simp [EInt.ble]

/-- The per-call action shuffle of the source (`random.shuffle`), embedded
as an oracle: for each call site — identified by the path of moves leading
to it, since each node of the dynamic call tree is reached by exactly one
move sequence — it yields some permutation of the enumerated action list.
Quantifying over all `Shuffler`s covers every possible run of the
randomized source. -/
structure Shuffler where
  shuffle : List Action → List Action → List Action
  isPerm : ∀ (path l : List Action), (shuffle path l).Perm l

/-- The shuffler that keeps the enumeration order. -/
def idShuffler : Shuffler :=
  ⟨fun _ l => l, fun _ l => List.Perm.refl l⟩

/-- The `for action in available_actions` loop of `maxValue`: updates
`v`/`best_action` on strictly greater scores, raises `alpha`, and breaks
once `beta <= alpha`.  The child evaluation receives the current `alpha`. -/
def maxLoop (child : Action → EInt → EInt) :
    List Action → EInt → Option Action → EInt → EInt → EInt × Option Action
  | [], v, best, _, _ => (v, best)
  | a :: rest, v, best, alpha, beta =>
    let score : EInt := child a alpha
    let vb : EInt × Option Action := if EInt.blt v score then (score, some a) else (v, best)
    let alpha' : EInt := EInt.emax alpha vb.1
    if EInt.ble beta alpha' then vb
    else maxLoop child rest vb.1 vb.2 alpha' beta

/-- The loop of `minValue`: updates on strictly smaller scores, lowers
`beta`, breaks once `beta <= alpha`.  The child receives the current `beta`. -/
def minLoop (child : Action → EInt → EInt) :
    List Action → EInt → Option Action → EInt → EInt → EInt × Option Action
  | [], v, best, _, _ => (v, best)
  | a :: rest, v, best, alpha, beta =>
    let score : EInt := child a beta
    let vb : EInt × Option Action := if EInt.blt score v then (score, some a) else (v, best)
    let beta' : EInt := EInt.emin beta vb.1
    if EInt.ble beta' alpha then vb
    else minLoop child rest vb.1 vb.2 alpha beta'

/-- The mutually recursive `maxValue` (mode `true`) and `minValue` (mode
`false`) of the source, embedded as one fuel-indexed function so that the
recursion is structural.  The fuel is a termination device absent from the
source: every recursive call is on a board with one fewer empty cell, so a
fuel exceeding the number of empty cells is never exhausted (the fuel-zero
base returns the same `(utility board, None)` as the source's base case).
`depth` is the source's depth budget, an honest `Int` tested by `depth < 0`. -/
def valueF (s : Shuffler) :
    Bool → Nat → List Action → Board → Int → EInt → EInt → EInt × Option Action
  | _, 0, _, b, _, _, _ => (EInt.num (utility b), none)
  | true, fuel + 1, path, b, depth, alpha, beta =>
    if depth < 0 ∨ terminal b = true then (EInt.num (utility b), none)
    else
      maxLoop (fun a al => (valueF s false fuel (path ++ [a]) (resultOk b a) (depth - 1) al beta).1)
        (s.shuffle path (actions b)) EInt.bot none alpha beta
  | false, fuel + 1, path, b, depth, alpha, beta =>
    if depth < 0 ∨ terminal b = true then (EInt.num (utility b), none)
    else
      minLoop (fun a bt => (valueF s true fuel (path ++ [a]) (resultOk b a) (depth - 1) alpha bt).1)
        (s.shuffle path (actions b)) EInt.top none alpha beta

/-- `maxValue(board, depth, alpha, beta)` from the source. -/
def maxValue (s : Shuffler) (fuel : Nat) (path : List Action) (b : Board)
    (depth : Int) (alpha beta : EInt) : EInt × Option Action :=
  valueF s true fuel path b depth alpha beta

/-- `minValue(board, depth, alpha, beta)` from the source. -/
def minValue (s : Shuffler) (fuel : Nat) (path : List Action) (b : Board)
    (depth : Int) (alpha beta : EInt) : EInt × Option Action :=
  valueF s false fuel path b depth alpha beta

/-- `ACCURACY = 999999` from the source. -/
def ACCURACY : Int := 999999

/-- `minimax(board)` from the source: the `(0, 0)` shortcut on the initial
board, then dispatch on the active player with `alpha = -inf`,
`beta = +inf`, returning the action component.  The fuel
`(actions board).length + 1` strictly exceeds the recursion depth, so it is
never exhausted. -/
def minimax (s : Shuffler) (b : Board) : Option Action :=
  if b = initial_state then some ((0 : Int), (0 : Int))
  else if player b = Cell.X then
    (maxValue s ((actions b).length + 1) [] b ACCURACY EInt.bot EInt.top).2
  else
    (minValue s ((actions b).length + 1) [] b ACCURACY EInt.bot EInt.top).2

/-- Modelled from the spec: the plain full-depth minimax value of a board
(mode `true`: the maximizing player to move; mode `false`: the minimizing
player), the reference against which the alpha-beta search is verified. -/
def specF : Bool → Nat → Board → Int
  | _, 0, b => utility b
  | true, fuel + 1, b =>
    if terminal b = true then utility b
    else
      match (actions b).map (fun a => specF false fuel (resultOk b a)) with
      | [] => utility b
      | v :: vs => vs.foldl max v
  | false, fuel + 1, b =>
    if terminal b = true then utility b
    else
      match (actions b).map (fun a => specF true fuel (resultOk b a)) with
      | [] => utility b
      | v :: vs => vs.foldl min v

/-- The spec-side optimal value with the maximizer to move. -/
def maxSpec (b : Board) : Int := specF true ((actions b).length + 1) b

/-- The spec-side optimal value with the minimizer to move. -/
def minSpec (b : Board) : Int := specF false ((actions b).length + 1) b

/-- The `maxValue` loop with the `beta <= alpha` break removed (`alpha`,
`beta` are then dead variables): the pruning-disabled search of C2. -/
def maxLoopNP (child : Action → EInt → EInt) :
    List Action → EInt → Option Action → EInt → EInt → EInt × Option Action
  | [], v, best, _, _ => (v, best)
  | a :: rest, v, best, alpha, beta =>
    let score : EInt := child a alpha
    let vb : EInt × Option Action := if EInt.blt v score then (score, some a) else (v, best)
    let alpha' : EInt := EInt.emax alpha vb.1
    maxLoopNP child rest vb.1 vb.2 alpha' beta

/-- The `minValue` loop with the break removed. -/
def minLoopNP (child : Action → EInt → EInt) :
    List Action → EInt → Option Action → EInt → EInt → EInt × Option Action
  | [], v, best, _, _ => (v, best)
  | a :: rest, v, best, alpha, beta =>
    let score : EInt := child a beta
    let vb : EInt × Option Action := if EInt.blt score v then (score, some a) else (v, best)
    let beta' : EInt := EInt.emin beta vb.1
    minLoopNP child rest vb.1 vb.2 alpha beta'

/-- The search of `valueF` with every break removed (pruning disabled). -/
def valueNP (s : Shuffler) :
    Bool → Nat → List Action → Board → Int → EInt → EInt → EInt × Option Action
  | _, 0, _, b, _, _, _ => (EInt.num (utility b), none)
  | true, fuel + 1, path, b, depth, alpha, beta =>
    if depth < 0 ∨ terminal b = true then (EInt.num (utility b), none)
    else
      maxLoopNP (fun a al => (valueNP s false fuel (path ++ [a]) (resultOk b a) (depth - 1) al beta).1)
        (s.shuffle path (actions b)) EInt.bot none alpha beta
  | false, fuel + 1, path, b, depth, alpha, beta =>
    if depth < 0 ∨ terminal b = true then (EInt.num (utility b), none)
    else
      minLoopNP (fun a bt => (valueNP s true fuel (path ++ [a]) (resultOk b a) (depth - 1) alpha bt).1)
        (s.shuffle path (actions b)) EInt.top none alpha beta

/-- `maxValue` with pruning disabled. -/
def maxValueNP (s : Shuffler) (fuel : Nat) (path : List Action) (b : Board)
    (depth : Int) (alpha beta : EInt) : EInt × Option Action :=
  valueNP s true fuel path b depth alpha beta

/-- `minValue` with pruning disabled. -/
def minValueNP (s : Shuffler) (fuel : Nat) (path : List Action) (b : Board)
    (depth : Int) (alpha beta : EInt) : EInt × Option Action :=
  valueNP s false fuel path b depth alpha beta

/-- Boards reachable from the initial state by legal moves. -/
inductive Reachable : Board → Prop where
  | init : Reachable initial_state
  | step : ∀ (b : Board) (a : Action), Reachable b → a ∈ actions b → Reachable (resultOk b a)

theorem reachable_actions_le_nine (b : Board) (h : Reachable b) :
    (actions b).length ≤ 9 := by
  induction h with
  | init => decide
  | step b' a _ ha ih =>
    have := actions_length_result b' a ha
    omega

/-! ### Claim C5 -/

/-- C5: called on a terminal board, the search returns no action (the
source's `maxValue`/`minValue` base case yields `(utility(board), None)`,
so `minimax` returns `None`). -/
theorem c5_terminal_returns_none (s : Shuffler) (b : Board) (ht : terminal b = true) :
    minimax s b = none := by
  have hne : b ≠ initial_state := by
    rintro rfl
    exact absurd ht (by decide)
  unfold minimax
  rw [if_neg hne]
  by_cases hp : player b = Cell.X
  · rw [if_pos hp]
    show (valueF s true ((actions b).length + 1) [] b ACCURACY .bot .top).2 = none
    rw [show valueF s true ((actions b).length + 1) [] b ACCURACY .bot .top
        = (EInt.num (utility b), none) from by
      simp [valueF, ht]]
  · rw [if_neg hp]
    show (valueF s false ((actions b).length + 1) [] b ACCURACY .bot .top).2 = none
    rw [show valueF s false ((actions b).length + 1) [] b ACCURACY .bot .top
        = (EInt.num (utility b), none) from by
      simp [valueF, ht]]

theorem c5_terminal_returns_none_witness :
    terminal [[Cell.X, Cell.X, Cell.X], [Cell.O, Cell.O, Cell.E], [Cell.E, Cell.E, Cell.E]] = true ∧
    minimax idShuffler [[Cell.X, Cell.X, Cell.X], [Cell.O, Cell.O, Cell.E], [Cell.E, Cell.E, Cell.E]] = none :=
  ⟨by decide, c5_terminal_returns_none idShuffler _ (by decide)⟩

/-! ### Facts about utilities, the spec value, and folded maxima/minima -/

theorem utility_bounds (b : Board) : -1 ≤ utility b ∧ utility b ≤ 1 := by
  unfold utility
  rcases h : winner b with _ | w
  · decide
  · cases w <;> decide

theorem actions_ne_nil (b : Board) (hnt : terminal b = false) : actions b ≠ [] := by
  intro h
  unfold terminal at hnt
  rw [h] at hnt
  simp at hnt

theorem terminal_of_winner (b : Board) (w : Cell) (h : winner b = some w) :
    terminal b = true := by
  unfold terminal
  rw [h]
  rfl

theorem specF_terminal (m : Bool) (k : Nat) (b : Board) (ht : terminal b = true) :
    specF m (k + 1) b = utility b := by
  cases m <;> simp [specF, ht]

theorem maxSpec_terminal (b : Board) (ht : terminal b = true) : maxSpec b = utility b :=
  specF_terminal true _ b ht

theorem minSpec_terminal (b : Board) (ht : terminal b = true) : minSpec b = utility b :=
  specF_terminal false _ b ht

/-- The spec value does not depend on the fuel once the fuel exceeds the
number of empty cells. -/
theorem specF_stable (n : Nat) :
    ∀ (m : Bool) (b : Board) (k1 k2 : Nat), (actions b).length < n →
      (actions b).length < k1 → (actions b).length < k2 → specF m k1 b = specF m k2 b := by
  induction n with
  | zero => intro m b k1 k2 h _ _; omega
  | succ n ih =>
    intro m b k1 k2 hn h1 h2
    cases k1 with
    | zero => omega
    | succ k1' =>
      cases k2 with
      | zero => omega
      | succ k2' =>
        have hmap : ∀ m' : Bool,
            (actions b).map (fun a => specF m' k1' (resultOk b a))
              = (actions b).map (fun a => specF m' k2' (resultOk b a)) := by
          intro m'
          apply List.map_congr_left
          intro a ha
          have hlen := actions_length_result b a ha
          exact ih m' (resultOk b a) k1' k2' (by omega) (by omega) (by omega)
        cases m
        · simp only [specF]
          rw [hmap true]
        · simp only [specF]
          rw [hmap false]

theorem maxSpec_children (b : Board) (hnt : terminal b = false) :
    maxSpec b = match (actions b).map (fun a => minSpec (resultOk b a)) with
      | [] => utility b
      | v :: vs => vs.foldl max v := by
  show specF true ((actions b).length + 1) b = _
  simp only [specF, hnt, Bool.false_eq_true, if_false]
  rw [show (actions b).map (fun a => specF false ((actions b).length) (resultOk b a))
      = (actions b).map (fun a => minSpec (resultOk b a)) from by
    apply List.map_congr_left
    intro a ha
    have hlen := actions_length_result b a ha
    exact specF_stable ((actions b).length) false (resultOk b a) _ _ (by omega) (by omega) (by omega)]

theorem minSpec_children (b : Board) (hnt : terminal b = false) :
    minSpec b = match (actions b).map (fun a => maxSpec (resultOk b a)) with
      | [] => utility b
      | v :: vs => vs.foldl min v := by
  show specF false ((actions b).length + 1) b = _
  simp only [specF, hnt, Bool.false_eq_true, if_false]
  rw [show (actions b).map (fun a => specF true ((actions b).length) (resultOk b a))
      = (actions b).map (fun a => maxSpec (resultOk b a)) from by
    apply List.map_congr_left
    intro a ha
    have hlen := actions_length_result b a ha
    exact specF_stable ((actions b).length) true (resultOk b a) _ _ (by omega) (by omega) (by omega)]

theorem foldl_max_bounds :
    ∀ (vs : List Int) (v : Int), -1 ≤ v → v ≤ 1 → (∀ x ∈ vs, -1 ≤ x ∧ x ≤ 1) →
      -1 ≤ vs.foldl max v ∧ vs.foldl max v ≤ 1 := by
  intro vs
  induction vs with
  | nil => intro v h1 h2 _; exact ⟨h1, h2⟩
  | cons x xs ih =>
    intro v h1 h2 hm
    rw [List.foldl_cons]
    have hx := hm x (List.mem_cons_self x xs)
    exact ih (max v x) (le_trans h1 (le_max_left v x)) (max_le h2 hx.2)
      (fun y hy => hm y (List.mem_cons_of_mem x hy))

theorem foldl_min_bounds :
    ∀ (vs : List Int) (v : Int), -1 ≤ v → v ≤ 1 → (∀ x ∈ vs, -1 ≤ x ∧ x ≤ 1) →
      -1 ≤ vs.foldl min v ∧ vs.foldl min v ≤ 1 := by
  intro vs
  induction vs with
  | nil => intro v h1 h2 _; exact ⟨h1, h2⟩
  | cons x xs ih =>
    intro v h1 h2 hm
    rw [List.foldl_cons]
    have hx := hm x (List.mem_cons_self x xs)
    exact ih (min v x) (le_min h1 hx.1) (le_trans (min_le_left v x) h2)
      (fun y hy => hm y (List.mem_cons_of_mem x hy))

theorem specF_bounds : ∀ (k : Nat) (m : Bool) (b : Board), -1 ≤ specF m k b ∧ specF m k b ≤ 1 := by
  intro k
  induction k with
  | zero => intro m b; cases m <;> exact utility_bounds b
  | succ k ih =>
    intro m b
    have hmem : ∀ (m' : Bool) (x : Int), x ∈ (actions b).map (fun a => specF m' k (resultOk b a)) →
        -1 ≤ x ∧ x ≤ 1 := by
      intro m' x hx
      rcases List.mem_map.mp hx with ⟨a, _, rfl⟩
      exact ih m' (resultOk b a)
    cases m
    · simp only [specF]
      split
      · exact utility_bounds b
      · split
        · exact utility_bounds b
        · next v vs hm =>
          have hv : v ∈ (actions b).map (fun a => specF true k (resultOk b a)) := by
            rw [hm]; exact List.mem_cons_self v vs
          have hvs : ∀ x ∈ vs, -1 ≤ x ∧ x ≤ 1 := by
            intro x hx
            exact hmem true x (by rw [hm]; exact List.mem_cons_of_mem v hx)
          have hvb := hmem true v hv
          exact foldl_min_bounds vs v hvb.1 hvb.2 hvs
    · simp only [specF]
      split
      · exact utility_bounds b
      · split
        · exact utility_bounds b
        · next v vs hm =>
          have hv : v ∈ (actions b).map (fun a => specF false k (resultOk b a)) := by
            rw [hm]; exact List.mem_cons_self v vs
          have hvs : ∀ x ∈ vs, -1 ≤ x ∧ x ≤ 1 := by
            intro x hx
            exact hmem false x (by rw [hm]; exact List.mem_cons_of_mem v hx)
          have hvb := hmem false v hv
          exact foldl_max_bounds vs v hvb.1 hvb.2 hvs

theorem maxSpec_bounds (b : Board) : -1 ≤ maxSpec b ∧ maxSpec b ≤ 1 :=
  specF_bounds _ true b

theorem minSpec_bounds (b : Board) : -1 ≤ minSpec b ∧ minSpec b ≤ 1 :=
  specF_bounds _ false b

theorem EInt.num_max (a b : Int) : EInt.num (max a b) = max (EInt.num a) (EInt.num b) := by
  rcases le_total a b with h | h
  · rw [max_eq_right h, max_eq_right ((EInt.num_le_num a b).mpr h)]
  · rw [max_eq_left h, max_eq_left ((EInt.num_le_num b a).mpr h)]

theorem EInt.num_min (a b : Int) : EInt.num (min a b) = min (EInt.num a) (EInt.num b) := by
  rcases le_total a b with h | h
  · rw [min_eq_left h, min_eq_left ((EInt.num_le_num a b).mpr h)]
  · rw [min_eq_right h, min_eq_right ((EInt.num_le_num b a).mpr h)]

/-- Folded maximum of child values over a list of actions, starting from `v`. -/
def lfmax (m : Action → Int) (v : EInt) (l : List Action) : EInt :=
  l.foldl (fun acc a => max acc (EInt.num (m a))) v

/-- Folded minimum of child values over a list of actions, starting from `v`. -/
def lfmin (m : Action → Int) (v : EInt) (l : List Action) : EInt :=
  l.foldl (fun acc a => min acc (EInt.num (m a))) v

theorem lfmax_cons (m : Action → Int) (v : EInt) (a : Action) (l : List Action) :
    lfmax m v (a :: l) = lfmax m (max v (EInt.num (m a))) l := rfl

theorem lfmin_cons (m : Action → Int) (v : EInt) (a : Action) (l : List Action) :
    lfmin m v (a :: l) = lfmin m (min v (EInt.num (m a))) l := rfl

theorem lfmax_init_le (m : Action → Int) : ∀ (l : List Action) (v : EInt), v ≤ lfmax m v l := by
  intro l
  induction l with
  | nil => intro v; exact le_refl v
  | cons a l ih => intro v; exact le_trans (le_max_left v _) (ih _)

theorem lfmin_le_init (m : Action → Int) : ∀ (l : List Action) (v : EInt), lfmin m v l ≤ v := by
  intro l
  induction l with
  | nil => intro v; exact le_refl v
  | cons a l ih => intro v; exact le_trans (ih _) (min_le_left v _)

theorem mem_le_lfmax (m : Action → Int) :
    ∀ (l : List Action) (v : EInt) (a : Action), a ∈ l → EInt.num (m a) ≤ lfmax m v l := by
  intro l
  induction l with
  | nil => intro v a h; cases h
  | cons x l ih =>
    intro v a h
    rcases List.mem_cons.mp h with rfl | h'
    · exact le_trans (le_max_right v _) (lfmax_init_le m l _)
    · exact ih _ a h'

theorem lfmin_le_mem (m : Action → Int) :
    ∀ (l : List Action) (v : EInt) (a : Action), a ∈ l → lfmin m v l ≤ EInt.num (m a) := by
  intro l
  induction l with
  | nil => intro v a h; cases h
  | cons x l ih =>
    intro v a h
    rcases List.mem_cons.mp h with rfl | h'
    · exact le_trans (lfmin_le_init m l _) (min_le_right v _)
    · exact ih _ a h'

theorem lfmax_extract (m : Action → Int) :
    ∀ (l : List Action) (x y : EInt), lfmax m (max x y) l = max x (lfmax m y l) := by
  intro l
  induction l with
  | nil => intro x y; rfl
  | cons a l ih =>
    intro x y
    rw [lfmax_cons, max_assoc, ih, lfmax_cons]

theorem lfmin_extract (m : Action → Int) :
    ∀ (l : List Action) (x y : EInt), lfmin m (min x y) l = min x (lfmin m y l) := by
  intro l
  induction l with
  | nil => intro x y; rfl
  | cons a l ih =>
    intro x y
    rw [lfmin_cons, min_assoc, ih, lfmin_cons]

theorem lfmax_mono (m : Action → Int) :
    ∀ (l : List Action) (v w : EInt), v ≤ w → lfmax m v l ≤ lfmax m w l := by
  intro l
  induction l with
  | nil => intro v w h; exact h
  | cons a l ih =>
    intro v w h
    exact ih _ _ (max_le_max h (le_refl _))

theorem lfmin_mono (m : Action → Int) :
    ∀ (l : List Action) (v w : EInt), v ≤ w → lfmin m v l ≤ lfmin m w l := by
  intro l
  induction l with
  | nil => intro v w h; exact h
  | cons a l ih =>
    intro v w h
    exact ih _ _ (min_le_min h (le_refl _))

theorem lfmax_choice (m : Action → Int) :
    ∀ (l : List Action) (v : EInt), lfmax m v l = v ∨ ∃ a ∈ l, lfmax m v l = EInt.num (m a) := by
  intro l
  induction l with
  | nil => intro v; exact Or.inl rfl
  | cons a l ih =>
    intro v
    rw [lfmax_cons]
    rcases ih (max v (EInt.num (m a))) with h | ⟨a', ha', h⟩
    · rcases max_choice v (EInt.num (m a)) with hm | hm
      · exact Or.inl (by rw [h, hm])
      · exact Or.inr ⟨a, List.mem_cons_self a l, by rw [h, hm]⟩
    · exact Or.inr ⟨a', List.mem_cons_of_mem a ha', h⟩

theorem lfmin_choice (m : Action → Int) :
    ∀ (l : List Action) (v : EInt), lfmin m v l = v ∨ ∃ a ∈ l, lfmin m v l = EInt.num (m a) := by
  intro l
  induction l with
  | nil => intro v; exact Or.inl rfl
  | cons a l ih =>
    intro v
    rw [lfmin_cons]
    rcases ih (min v (EInt.num (m a))) with h | ⟨a', ha', h⟩
    · rcases min_choice v (EInt.num (m a)) with hm | hm
      · exact Or.inl (by rw [h, hm])
      · exact Or.inr ⟨a, List.mem_cons_self a l, by rw [h, hm]⟩
    · exact Or.inr ⟨a', List.mem_cons_of_mem a ha', h⟩

theorem lfmax_le (m : Action → Int) :
    ∀ (l : List Action) (v x : EInt), v ≤ x → (∀ a ∈ l, EInt.num (m a) ≤ x) →
      lfmax m v l ≤ x := by
  intro l
  induction l with
  | nil => intro v x h _; exact h
  | cons a l ih =>
    intro v x hv hl
    rw [lfmax_cons]
    exact ih _ x (max_le hv (hl a (List.mem_cons_self a l)))
      (fun a' ha' => hl a' (List.mem_cons_of_mem a ha'))

theorem le_lfmin (m : Action → Int) :
    ∀ (l : List Action) (v x : EInt), x ≤ v → (∀ a ∈ l, x ≤ EInt.num (m a)) →
      x ≤ lfmin m v l := by
  intro l
  induction l with
  | nil => intro v x h _; exact h
  | cons a l ih =>
    intro v x hv hl
    rw [lfmin_cons]
    exact ih _ x (le_min hv (hl a (List.mem_cons_self a l)))
      (fun a' ha' => hl a' (List.mem_cons_of_mem a ha'))

theorem max_swap2 {α : Type} [LinearOrder α] (v a b : α) :
    max (max v a) b = max (max v b) a := by
  rw [max_assoc, max_comm a b, ← max_assoc]

theorem min_swap2 {α : Type} [LinearOrder α] (v a b : α) :
    min (min v a) b = min (min v b) a := by
  rw [min_assoc, min_comm a b, ← min_assoc]

theorem lfmax_perm (m : Action → Int) {l l' : List Action} (h : l.Perm l') :
    ∀ v, lfmax m v l = lfmax m v l' := by
  induction h with
  | nil => intro v; rfl
  | cons x _ ih => intro v; rw [lfmax_cons, lfmax_cons, ih]
  | swap x y l => intro v; rw [lfmax_cons, lfmax_cons, lfmax_cons, lfmax_cons, max_swap2]
  | trans _ _ ih1 ih2 => intro v; rw [ih1, ih2]

theorem lfmin_perm (m : Action → Int) {l l' : List Action} (h : l.Perm l') :
    ∀ v, lfmin m v l = lfmin m v l' := by
  induction h with
  | nil => intro v; rfl
  | cons x _ ih => intro v; rw [lfmin_cons, lfmin_cons, ih]
  | swap x y l => intro v; rw [lfmin_cons, lfmin_cons, lfmin_cons, lfmin_cons, min_swap2]
  | trans _ _ ih1 ih2 => intro v; rw [ih1, ih2]

theorem num_foldl_max : ∀ (l : List Action) (m : Action → Int) (v : Int),
    EInt.num ((l.map m).foldl max v) = lfmax m (EInt.num v) l := by
  intro l
  induction l with
  | nil => intro m v; rfl
  | cons a l ih =>
    intro m v
    rw [List.map_cons, List.foldl_cons, lfmax_cons, ← EInt.num_max, ih]

theorem num_foldl_min : ∀ (l : List Action) (m : Action → Int) (v : Int),
    EInt.num ((l.map m).foldl min v) = lfmin m (EInt.num v) l := by
  intro l
  induction l with
  | nil => intro m v; rfl
  | cons a l ih =>
    intro m v
    rw [List.map_cons, List.foldl_cons, lfmin_cons, ← EInt.num_min, ih]

theorem maxSpecE_eq_lfmax (b : Board) (hnt : terminal b = false) :
    EInt.num (maxSpec b) = lfmax (fun a => minSpec (resultOk b a)) EInt.bot (actions b) := by
  rw [maxSpec_children b hnt]
  rcases hA : actions b with _ | ⟨a, l'⟩
  · exact absurd hA (actions_ne_nil b hnt)
  · rw [List.map_cons]
    show EInt.num ((l'.map fun a => minSpec (resultOk b a)).foldl max (minSpec (resultOk b a)))
        = lfmax (fun a => minSpec (resultOk b a)) EInt.bot (a :: l')
    rw [num_foldl_max, lfmax_cons, max_eq_right (EInt.bot_le _)]

theorem minSpecE_eq_lfmin (b : Board) (hnt : terminal b = false) :
    EInt.num (minSpec b) = lfmin (fun a => maxSpec (resultOk b a)) EInt.top (actions b) := by
  rw [minSpec_children b hnt]
  rcases hA : actions b with _ | ⟨a, l'⟩
  · exact absurd hA (actions_ne_nil b hnt)
  · rw [List.map_cons]
    show EInt.num ((l'.map fun a => maxSpec (resultOk b a)).foldl min (maxSpec (resultOk b a)))
        = lfmin (fun a => maxSpec (resultOk b a)) EInt.top (a :: l')
    rw [num_foldl_min, lfmin_cons, min_eq_right (EInt.le_top _)]

/-! ### The fail-soft alpha-beta specification -/

/-- Value bounds attained by every search result below a non-exhausted node. -/
def inB (r : EInt) : Prop := EInt.num (-1) ≤ r ∧ r ≤ EInt.num 1

/-- The Knuth-Moore fail-soft specification: a result at window
`(alpha, beta)` is an upper bound on the true value when it fails low, a
lower bound when it fails high, and exact strictly inside the window. -/
def ABP (M r alpha beta : EInt) : Prop :=
  (r ≤ alpha → M ≤ r) ∧ (beta ≤ r → r ≤ M) ∧ (alpha < r → r < beta → r = M)

theorem ABP_self (M alpha beta : EInt) : ABP M M alpha beta :=
  ⟨fun _ => le_refl M, fun _ => le_refl M, fun _ _ => rfl⟩

theorem if_true_eq {α : Sort _} (x y : α) : (if (true = true) then x else y) = x := rfl

theorem if_false_eq {α : Sort _} (x y : α) : (if (false = true) then x else y) = y := rfl

theorem maxLoop_cons (child : Action → EInt → EInt) (a : Action) (rest : List Action)
    (v : EInt) (best : Option Action) (alpha beta : EInt) :
    maxLoop child (a :: rest) v best alpha beta =
      (let score : EInt := child a alpha
       let vb : EInt × Option Action := if EInt.blt v score then (score, some a) else (v, best)
       let alpha' : EInt := EInt.emax alpha vb.1
       if EInt.ble beta alpha' then vb
       else maxLoop child rest vb.1 vb.2 alpha' beta) := rfl

theorem minLoop_cons (child : Action → EInt → EInt) (a : Action) (rest : List Action)
    (v : EInt) (best : Option Action) (alpha beta : EInt) :
    minLoop child (a :: rest) v best alpha beta =
      (let score : EInt := child a beta
       let vb : EInt × Option Action := if EInt.blt score v then (score, some a) else (v, best)
       let beta' : EInt := EInt.emin beta vb.1
       if EInt.ble beta' alpha then vb
       else minLoop child rest vb.1 vb.2 alpha beta') := rfl

/-- Fail-soft correctness of the (pruning) `maxValue` loop: given children
meeting the fail-soft spec at every subwindow, the loop meets it for the
running maximum. -/
theorem maxLoop_spec (child : Action → EInt → EInt) (m : Action → Int) (beta : EInt) :
    ∀ (l : List Action) (v : EInt) (best : Option Action) (alpha0 : EInt),
      (∀ a ∈ l, ∀ al : EInt, al < beta →
        inB (child a al) ∧ ABP (EInt.num (m a)) (child a al) al beta) →
      v ≤ alpha0 → alpha0 < beta →
      v ≤ (maxLoop child l v best alpha0 beta).1 ∧
      ((maxLoop child l v best alpha0 beta).1 = v ∨ inB (maxLoop child l v best alpha0 beta).1) ∧
      ABP (lfmax m v l) (maxLoop child l v best alpha0 beta).1 alpha0 beta := by
  intro l
  induction l with
  | nil =>
    intro v best alpha0 _ _ _
    exact ⟨le_refl v, Or.inl rfl, ABP_self v alpha0 beta⟩
  | cons a rest ih =>
    intro v best alpha0 hch hva hab
    obtain ⟨hsB, hG1, hG2, hG3⟩ := hch a (List.mem_cons_self a rest) alpha0 hab
    rw [maxLoop_cons]
    set s := child a alpha0 with hs
    rw [lfmax_cons]
    cases hblt : EInt.blt v s with
    | false =>
      have hsv : s ≤ v := le_of_not_lt (fun hc => by rw [(EInt.blt_iff v s).mpr hc] at hblt; cases hblt)
      have hma : EInt.num (m a) ≤ v := le_trans (hG1 (le_trans hsv hva)) hsv
      have hK : max v (EInt.num (m a)) = v := max_eq_left hma
      simp only [hblt, Bool.false_eq_true, if_false, EInt.emax_eq]
      rw [max_eq_left hva, hK]
      rw [if_neg (fun hc : EInt.ble beta alpha0 = true =>
        absurd ((EInt.ble_iff beta alpha0).mp hc) (not_le_of_lt hab))]
      exact ih v best alpha0 (fun a' ha' => hch a' (List.mem_cons_of_mem a ha')) hva hab
    | true =>
      have hvs : v < s := (EInt.blt_iff v s).mp hblt
      simp only [hblt, if_true, EInt.emax_eq]
      cases hbr : EInt.ble beta (max alpha0 s) with
      | true =>
        have hbms : beta ≤ max alpha0 s := (EInt.ble_iff _ _).mp hbr
        have hbs : beta ≤ s := by
          rcases max_choice alpha0 s with h | h
          · rw [h] at hbms; exact absurd hbms (not_le_of_lt hab)
          · rw [h] at hbms; exact hbms
        rw [if_true_eq]
        refine ⟨le_of_lt hvs, Or.inr hsB, ?_, ?_, ?_⟩
        · intro hc
          exact absurd hc (not_le_of_lt (lt_of_lt_of_le hab hbs))
        · intro _
          exact le_trans (le_trans (hG2 hbs) (le_max_right v _)) (lfmax_init_le m rest _)
        · intro _ hc
          exact absurd hbs (not_le_of_lt hc)
      | false =>
        have hnb : ¬ beta ≤ max alpha0 s := fun hc => by
          rw [(EInt.ble_iff _ _).mpr hc] at hbr; cases hbr
        have hmsb : max alpha0 s < beta := not_le.mp hnb
        have hsb : s < beta := lt_of_le_of_lt (le_max_right alpha0 s) hmsb
        rw [if_false_eq]
        obtain ⟨hi1, hi2, hj1, hj2, hj3⟩ :
            s ≤ (maxLoop child rest s (some a) (max alpha0 s) beta).1 ∧
            ((maxLoop child rest s (some a) (max alpha0 s) beta).1 = s ∨
              inB (maxLoop child rest s (some a) (max alpha0 s) beta).1) ∧
            ABP (lfmax m s rest) (maxLoop child rest s (some a) (max alpha0 s) beta).1
              (max alpha0 s) beta := by
          exact ih s (some a) (max alpha0 s)
            (fun a' ha' => hch a' (List.mem_cons_of_mem a ha'))
            (le_max_right alpha0 s) hmsb
        set r := (maxLoop child rest s (some a) (max alpha0 s) beta).1 with hr
        have hvmax : max v s = s := max_eq_right (le_of_lt hvs)
        refine ⟨le_trans (le_of_lt hvs) hi1, ?_, ?_, ?_, ?_⟩
        · rcases hi2 with h | h
          · exact Or.inr (h ▸ hsB)
          · exact Or.inr h
        · -- fail low
          intro hral
          have hra' : r ≤ max alpha0 s := le_trans hral (le_max_left alpha0 s)
          have hKr := hj1 hra'
          rcases le_or_lt s alpha0 with hcase | hcase
          · have hms : EInt.num (m a) ≤ s := hG1 hcase
            refine le_trans (lfmax_mono m rest _ _ ?_) hKr
            exact max_le (le_of_lt hvs) hms
          · have hseq : s = EInt.num (m a) := hG3 hcase hsb
            rw [← hseq, hvmax]
            exact hKr
        · -- fail high
          intro hbr2
          have hrK := hj2 hbr2
          rcases le_or_lt s alpha0 with hcase | hcase
          · -- s failed low at the child
            rw [show lfmax m s rest = max s (lfmax m EInt.bot rest) from by
              rw [← max_eq_left (EInt.bot_le s), lfmax_extract, max_eq_left (EInt.bot_le s)]] at hrK
            rcases max_choice s (lfmax m EInt.bot rest) with h | h
            · rw [h] at hrK
              exact absurd (lt_of_le_of_lt (le_trans hrK hcase) hab) (not_lt_of_le hbr2)
            · rw [h] at hrK
              rw [show lfmax m (max v (EInt.num (m a))) rest
                  = max (max v (EInt.num (m a))) (lfmax m EInt.bot rest) from by
                rw [← max_eq_left (EInt.bot_le (max v (EInt.num (m a)))), lfmax_extract,
                  max_eq_left (EInt.bot_le _)]]
              exact le_trans hrK (le_max_right _ _)
          · have hseq : s = EInt.num (m a) := hG3 hcase hsb
            rw [← hseq, hvmax]
            exact hrK
        · -- exact window
          intro har hrb
          rcases le_or_lt s alpha0 with hcase | hcase
          · -- s failed low: alpha unchanged
            have hms : EInt.num (m a) ≤ s := hG1 hcase
            have hms' : max alpha0 s = alpha0 := max_eq_left hcase
            have hreq : r = lfmax m s rest := hj3 (by rw [hms']; exact har) hrb
            rw [show lfmax m s rest = max s (lfmax m EInt.bot rest) from by
              rw [← max_eq_left (EInt.bot_le s), lfmax_extract, max_eq_left (EInt.bot_le s)]] at hreq
            have hrF : r = lfmax m EInt.bot rest := by
              rcases max_choice s (lfmax m EInt.bot rest) with h | h
              · rw [h] at hreq
                exact absurd (hreq ▸ har) (not_lt_of_le hcase)
              · rw [h] at hreq
                exact hreq
            rw [show lfmax m (max v (EInt.num (m a))) rest
                = max (max v (EInt.num (m a))) (lfmax m EInt.bot rest) from by
              rw [← max_eq_left (EInt.bot_le (max v (EInt.num (m a)))), lfmax_extract,
                max_eq_left (EInt.bot_le _)]]
            rw [hrF]
            rw [max_eq_right]
            exact le_of_lt (lt_of_le_of_lt (le_trans (max_le (le_of_lt hvs) hms) hcase)
              (hrF ▸ har))
          · -- s exact
            have hseq : s = EInt.num (m a) := hG3 hcase hsb
            rw [← hseq, hvmax]
            rcases le_or_lt r (max alpha0 s) with hrs | hrs
            · have hKr := hj1 hrs
              have hrs' : r ≤ s := by
                rcases max_choice alpha0 s with h | h
                · rw [h] at hrs; exact absurd hrs (not_le_of_lt har)
                · rw [h] at hrs; exact hrs
              exact le_antisymm (le_trans hrs' (lfmax_init_le m rest s)) hKr
            · exact hj3 hrs hrb

/-- Fail-soft correctness of the (pruning) `minValue` loop. -/
theorem minLoop_spec (child : Action → EInt → EInt) (m : Action → Int) (alpha : EInt) :
    ∀ (l : List Action) (v : EInt) (best : Option Action) (beta0 : EInt),
      (∀ a ∈ l, ∀ bt : EInt, alpha < bt →
        inB (child a bt) ∧ ABP (EInt.num (m a)) (child a bt) alpha bt) →
      beta0 ≤ v → alpha < beta0 →
      (minLoop child l v best alpha beta0).1 ≤ v ∧
      ((minLoop child l v best alpha beta0).1 = v ∨ inB (minLoop child l v best alpha beta0).1) ∧
      ABP (lfmin m v l) (minLoop child l v best alpha beta0).1 alpha beta0 := by
  intro l
  induction l with
  | nil =>
    intro v best beta0 _ _ _
    exact ⟨le_refl v, Or.inl rfl, ABP_self v alpha beta0⟩
  | cons a rest ih =>
    intro v best beta0 hch hvb hab
    obtain ⟨hsB, hG1, hG2, hG3⟩ := hch a (List.mem_cons_self a rest) beta0 hab
    rw [minLoop_cons]
    set s := child a beta0 with hs
    rw [lfmin_cons]
    cases hblt : EInt.blt s v with
    | false =>
      have hvs : v ≤ s := le_of_not_lt (fun hc => by rw [(EInt.blt_iff s v).mpr hc] at hblt; cases hblt)
      have hma : v ≤ EInt.num (m a) := le_trans hvs (hG2 (le_trans hvb hvs))
      have hK : min v (EInt.num (m a)) = v := min_eq_left hma
      simp only [hblt, Bool.false_eq_true, if_false, EInt.emin_eq]
      rw [min_eq_left hvb, hK]
      rw [if_neg (fun hc : EInt.ble beta0 alpha = true =>
        absurd ((EInt.ble_iff beta0 alpha).mp hc) (not_le_of_lt hab))]
      exact ih v best beta0 (fun a' ha' => hch a' (List.mem_cons_of_mem a ha')) hvb hab
    | true =>
      have hvs : s < v := (EInt.blt_iff s v).mp hblt
      simp only [hblt, if_true, EInt.emin_eq]
      cases hbr : EInt.ble (min beta0 s) alpha with
      | true =>
        have hbms : min beta0 s ≤ alpha := (EInt.ble_iff _ _).mp hbr
        have hbs : s ≤ alpha := by
          rcases min_choice beta0 s with h | h
          · rw [h] at hbms; exact absurd hbms (not_le_of_lt hab)
          · rw [h] at hbms; exact hbms
        rw [if_true_eq]
        refine ⟨le_of_lt hvs, Or.inr hsB, ?_, ?_, ?_⟩
        · intro _
          exact le_trans (lfmin_le_init m rest _) (le_trans (min_le_right v _) (hG1 hbs))
        · intro hc
          exact absurd hc (not_le_of_lt (lt_of_le_of_lt hbs hab))
        · intro hc _
          exact absurd hbs (not_le_of_lt hc)
      | false =>
        have hnb : ¬ min beta0 s ≤ alpha := fun hc => by
          rw [(EInt.ble_iff _ _).mpr hc] at hbr; cases hbr
        have hmsb : alpha < min beta0 s := not_le.mp hnb
        have hsb : alpha < s := lt_of_lt_of_le hmsb (min_le_right beta0 s)
        rw [if_false_eq]
        obtain ⟨hi1, hi2, hj1, hj2, hj3⟩ :
            (minLoop child rest s (some a) alpha (min beta0 s)).1 ≤ s ∧
            ((minLoop child rest s (some a) alpha (min beta0 s)).1 = s ∨
              inB (minLoop child rest s (some a) alpha (min beta0 s)).1) ∧
            ABP (lfmin m s rest) (minLoop child rest s (some a) alpha (min beta0 s)).1
              alpha (min beta0 s) := by
          exact ih s (some a) (min beta0 s)
            (fun a' ha' => hch a' (List.mem_cons_of_mem a ha'))
            (min_le_right beta0 s) hmsb
        set r := (minLoop child rest s (some a) alpha (min beta0 s)).1 with hr
        have hvmin : min v s = s := min_eq_right (le_of_lt hvs)
        refine ⟨le_trans hi1 (le_of_lt hvs), ?_, ?_, ?_, ?_⟩
        · rcases hi2 with h | h
          · exact Or.inr (h ▸ hsB)
          · exact Or.inr h
        · -- fail low
          intro hral
          have hrK := hj1 hral
          rcases le_or_lt beta0 s with hcase | hcase
          · -- s failed high at the child
            rw [show lfmin m s rest = min s (lfmin m EInt.top rest) from by
              rw [← min_eq_left (EInt.le_top s), lfmin_extract, min_eq_left (EInt.le_top s)]] at hrK
            rcases min_choice s (lfmin m EInt.top rest) with h | h
            · rw [h] at hrK
              exact absurd (lt_of_lt_of_le hab (le_trans hcase hrK)) (not_lt_of_le hral)
            · rw [h] at hrK
              rw [show lfmin m (min v (EInt.num (m a))) rest
                  = min (min v (EInt.num (m a))) (lfmin m EInt.top rest) from by
                rw [← min_eq_left (EInt.le_top (min v (EInt.num (m a)))), lfmin_extract,
                  min_eq_left (EInt.le_top _)]]
              exact le_trans (min_le_right _ _) hrK
          · have hseq : s = EInt.num (m a) := hG3 hsb hcase
            rw [← hseq, hvmin]
            exact hrK
        · -- fail high
          intro hrb
          have hrb' : min beta0 s ≤ r := le_trans (min_le_left beta0 s) hrb
          have hKr := hj2 hrb'
          rcases le_or_lt beta0 s with hcase | hcase
          · have hms : s ≤ EInt.num (m a) := hG2 hcase
            refine le_trans hKr (lfmin_mono m rest _ _ ?_)
            exact le_min (le_of_lt hvs) hms
          · have hseq : s = EInt.num (m a) := hG3 hsb hcase
            rw [← hseq, hvmin]
            exact hKr
        · -- exact window
          intro har hrb
          rcases le_or_lt beta0 s with hcase | hcase
          · -- s failed high: beta unchanged
            have hms : s ≤ EInt.num (m a) := hG2 hcase
            have hms' : min beta0 s = beta0 := min_eq_left hcase
            have hreq : r = lfmin m s rest := hj3 har (by rw [hms']; exact hrb)
            rw [show lfmin m s rest = min s (lfmin m EInt.top rest) from by
              rw [← min_eq_left (EInt.le_top s), lfmin_extract, min_eq_left (EInt.le_top s)]] at hreq
            have hrF : r = lfmin m EInt.top rest := by
              rcases min_choice s (lfmin m EInt.top rest) with h | h
              · rw [h] at hreq
                exact absurd (hreq ▸ hrb) (not_lt_of_le hcase)
              · rw [h] at hreq
                exact hreq
            rw [show lfmin m (min v (EInt.num (m a))) rest
                = min (min v (EInt.num (m a))) (lfmin m EInt.top rest) from by
              rw [← min_eq_left (EInt.le_top (min v (EInt.num (m a)))), lfmin_extract,
                min_eq_left (EInt.le_top _)]]
            rw [hrF]
            rw [min_eq_right]
            exact le_of_lt (lt_of_lt_of_le (hrF ▸ hrb)
              (le_trans hcase (le_min (le_of_lt hvs) hms)))
          · -- s exact
            have hseq : s = EInt.num (m a) := hG3 hsb hcase
            rw [← hseq, hvmin]
            rcases le_or_lt (min beta0 s) r with hrs | hrs
            · have hKr := hj2 hrs
              have hrs' : s ≤ r := by
                rcases min_choice beta0 s with h | h
                · rw [h] at hrs; exact absurd hrs (not_le_of_lt hrb)
                · rw [h] at hrs; exact hrs
              exact le_antisymm hKr (le_trans (lfmin_le_init m rest s) hrs')
            · exact hj3 har hrs

/-- The central alpha-beta correctness theorem: below any node with enough
fuel and depth budget, the search value is within the utility bounds and
meets the fail-soft specification against the spec-side minimax value —
for every shuffler, every window, every board. -/
theorem valueF_ab (s : Shuffler) :
    ∀ (fuel : Nat) (mode : Bool) (path : List Action) (b : Board) (depth : Int)
      (alpha beta : EInt),
      (actions b).length < fuel → ((actions b).length : Int) ≤ depth → alpha < beta →
      inB (valueF s mode fuel path b depth alpha beta).1 ∧
      ABP (EInt.num (if mode then maxSpec b else minSpec b))
        (valueF s mode fuel path b depth alpha beta).1 alpha beta := by
  intro fuel
  induction fuel with
  | zero => intro mode path b depth alpha beta h _ _; omega
  | succ n ih =>
    intro mode path b depth alpha beta hfuel hdepth hab
    have hd0 : ¬ depth < 0 := by omega
    by_cases ht : terminal b = true
    · have hunf : valueF s mode (n + 1) path b depth alpha beta = (EInt.num (utility b), none) := by
        cases mode <;> simp [valueF, ht]
      rw [hunf]
      refine ⟨⟨(EInt.num_le_num _ _).mpr (utility_bounds b).1,
        (EInt.num_le_num _ _).mpr (utility_bounds b).2⟩, ?_⟩
      have hu : (if mode then maxSpec b else minSpec b) = utility b := by
        cases mode
        · exact minSpec_terminal b ht
        · exact maxSpec_terminal b ht
      rw [hu]
      exact ABP_self _ _ _
    · have hnt : terminal b = false := by
        cases h2 : terminal b
        · rfl
        · exact absurd h2 ht
      have hne : s.shuffle path (actions b) ≠ [] := by
        intro h0
        have hlen := (s.isPerm path (actions b)).length_eq
        rw [h0] at hlen
        exact actions_ne_nil b hnt (List.length_eq_zero.mp hlen.symm)
      cases mode
      · -- minValue node
        have hunf : valueF s false (n + 1) path b depth alpha beta
            = minLoop (fun a bt =>
                (valueF s true n (path ++ [a]) (resultOk b a) (depth - 1) alpha bt).1)
                (s.shuffle path (actions b)) EInt.top none alpha beta := by
          simp only [valueF]
          rw [if_neg (fun hc => hc.elim hd0 ht)]
        rw [hunf]
        have hch : ∀ a ∈ s.shuffle path (actions b), ∀ bt : EInt, alpha < bt →
            inB ((valueF s true n (path ++ [a]) (resultOk b a) (depth - 1) alpha bt).1) ∧
            ABP (EInt.num (maxSpec (resultOk b a)))
              ((valueF s true n (path ++ [a]) (resultOk b a) (depth - 1) alpha bt).1) alpha bt := by
          intro a ha bt hbt
          have ha' : a ∈ actions b := (s.isPerm path (actions b)).mem_iff.mp ha
          have hlen := actions_length_result b a ha'
          have := ih true (path ++ [a]) (resultOk b a) (depth - 1) alpha bt
            (by omega) (by omega) hbt
          rw [if_true_eq] at this
          exact this
        have hmain := minLoop_spec
          (fun a bt => (valueF s true n (path ++ [a]) (resultOk b a) (depth - 1) alpha bt).1)
          (fun a => maxSpec (resultOk b a)) alpha
          (s.shuffle path (actions b)) EInt.top none beta hch (EInt.le_top beta) hab
        have hK : lfmin (fun a => maxSpec (resultOk b a)) EInt.top (s.shuffle path (actions b))
            = EInt.num (minSpec b) := by
          rw [lfmin_perm _ (s.isPerm path (actions b)), ← minSpecE_eq_lfmin b hnt]
        constructor
        · rcases hmain.2.1 with h | h
          · exfalso
            obtain ⟨a0, ha0⟩ := List.exists_mem_of_ne_nil _ hne
            have h1 := lfmin_le_mem (fun a => maxSpec (resultOk b a))
              (s.shuffle path (actions b)) EInt.top a0 ha0
            have h2 := hmain.2.2.2.1 (by rw [h]; exact EInt.le_top beta)
            rw [h] at h2
            have h3 : EInt.top ≤ EInt.num (maxSpec (resultOk b a0)) := le_trans h2 h1
            exact EInt.not_top_le_num _ h3
          · exact h
        · rw [if_false_eq]
          have := hmain.2.2
          rw [hK] at this
          exact this
      · -- maxValue node
        have hunf : valueF s true (n + 1) path b depth alpha beta
            = maxLoop (fun a al =>
                (valueF s false n (path ++ [a]) (resultOk b a) (depth - 1) al beta).1)
                (s.shuffle path (actions b)) EInt.bot none alpha beta := by
          simp only [valueF]
          rw [if_neg (fun hc => hc.elim hd0 ht)]
        rw [hunf]
        have hch : ∀ a ∈ s.shuffle path (actions b), ∀ al : EInt, al < beta →
            inB ((valueF s false n (path ++ [a]) (resultOk b a) (depth - 1) al beta).1) ∧
            ABP (EInt.num (minSpec (resultOk b a)))
              ((valueF s false n (path ++ [a]) (resultOk b a) (depth - 1) al beta).1) al beta := by
          intro a ha al hal
          have ha' : a ∈ actions b := (s.isPerm path (actions b)).mem_iff.mp ha
          have hlen := actions_length_result b a ha'
          have := ih false (path ++ [a]) (resultOk b a) (depth - 1) al beta
            (by omega) (by omega) hal
          rw [if_false_eq] at this
          exact this
        have hmain := maxLoop_spec
          (fun a al => (valueF s false n (path ++ [a]) (resultOk b a) (depth - 1) al beta).1)
          (fun a => minSpec (resultOk b a)) beta
          (s.shuffle path (actions b)) EInt.bot none alpha hch (EInt.bot_le alpha) hab
        have hK : lfmax (fun a => minSpec (resultOk b a)) EInt.bot (s.shuffle path (actions b))
            = EInt.num (maxSpec b) := by
          rw [lfmax_perm _ (s.isPerm path (actions b)), ← maxSpecE_eq_lfmax b hnt]
        constructor
        · rcases hmain.2.1 with h | h
          · exfalso
            obtain ⟨a0, ha0⟩ := List.exists_mem_of_ne_nil _ hne
            have h1 := mem_le_lfmax (fun a => minSpec (resultOk b a))
              (s.shuffle path (actions b)) EInt.bot a0 ha0
            have h2 := hmain.2.2.1 (by rw [h]; exact EInt.bot_le alpha)
            rw [h] at h2
            have h3 : EInt.num (minSpec (resultOk b a0)) ≤ EInt.bot := le_trans h1 h2
            exact EInt.not_num_le_bot _ h3
          · exact h
        · rw [if_true_eq]
          have := hmain.2.2
          rw [hK] at this
          exact this

/-- At the full window the search returns exactly the spec-side value. -/
theorem valueF_full_val (s : Shuffler) (mode : Bool) (fuel : Nat) (path : List Action)
    (b : Board) (depth : Int) (hfuel : (actions b).length < fuel)
    (hdepth : ((actions b).length : Int) ≤ depth) :
    (valueF s mode fuel path b depth EInt.bot EInt.top).1
      = EInt.num (if mode then maxSpec b else minSpec b) := by
  obtain ⟨hB, _, _, hG3⟩ := valueF_ab s fuel mode path b depth EInt.bot EInt.top hfuel hdepth
    EInt.bot_lt_top
  exact hG3 (lt_of_lt_of_le (EInt.bot_lt_num (-1)) hB.1)
    (lt_of_le_of_lt hB.2 (EInt.num_lt_top 1))

/-- A search value strictly inside any window determines the spec value:
the aspiration-window principle used to evaluate concrete positions. -/
theorem spec_from_window (s : Shuffler) (mode : Bool) (fuel : Nat) (path : List Action)
    (b : Board) (depth : Int) (x : Int) (alpha beta : EInt)
    (hfuel : (actions b).length < fuel) (hdepth : ((actions b).length : Int) ≤ depth)
    (hab : alpha < beta)
    (hres : (valueF s mode fuel path b depth alpha beta).1 = EInt.num x)
    (h1 : alpha < EInt.num x) (h2 : EInt.num x < beta) :
    (if mode then maxSpec b else minSpec b) = x := by
  obtain ⟨_, _, _, hG3⟩ := valueF_ab s fuel mode path b depth alpha beta hfuel hdepth hab
  have hr := hG3 (by rw [hres]; exact h1) (by rw [hres]; exact h2)
  rw [hres] at hr
  exact (EInt.num.inj hr).symm

/-- The `maxValue` loop at a full-window root (where `alpha` tracks the
running maximum and `beta = +inf` never breaks) returns the exact maximum
and an action attaining it. -/
theorem maxLoop_root (child : Action → EInt → EInt) (m : Action → Int) (Q : Action → Prop) :
    ∀ (l : List Action) (v : EInt) (best : Option Action),
      (∀ a ∈ l, ∀ al : EInt, al < EInt.top →
        inB (child a al) ∧ ABP (EInt.num (m a)) (child a al) al EInt.top) →
      (∀ a ∈ l, Q a) →
      v < EInt.top →
      ((v = EInt.bot ∧ best = none) ∨ ∃ a0, best = some a0 ∧ Q a0 ∧ v = EInt.num (m a0)) →
      (maxLoop child l v best v EInt.top).1 = lfmax m v l ∧
      (((maxLoop child l v best v EInt.top).1 = v ∧ (maxLoop child l v best v EInt.top).2 = best) ∨
        ∃ a0, (maxLoop child l v best v EInt.top).2 = some a0 ∧ Q a0 ∧
          (maxLoop child l v best v EInt.top).1 = EInt.num (m a0)) := by
  intro l
  induction l with
  | nil =>
    intro v best _ _ _ _
    exact ⟨rfl, Or.inl ⟨rfl, rfl⟩⟩
  | cons a rest ih =>
    intro v best hch hQ hvt hinv
    obtain ⟨hsB, hG1, hG2, hG3⟩ := hch a (List.mem_cons_self a rest) v hvt
    rw [maxLoop_cons]
    set s := child a v with hs
    have hst : s < EInt.top := lt_of_le_of_lt hsB.2 (EInt.num_lt_top 1)
    cases hblt : EInt.blt v s with
    | false =>
      have hsv : s ≤ v :=
        le_of_not_lt (fun hc => by rw [(EInt.blt_iff v s).mpr hc] at hblt; cases hblt)
      have hma : EInt.num (m a) ≤ v := le_trans (hG1 hsv) hsv
      simp only [hblt, Bool.false_eq_true, if_false, EInt.emax_eq]
      rw [max_self]
      rw [if_neg (fun hc => absurd ((EInt.ble_iff _ _).mp hc) (not_le_of_lt hvt))]
      have hres := ih v best (fun a' ha' => hch a' (List.mem_cons_of_mem a ha'))
        (fun a' ha' => hQ a' (List.mem_cons_of_mem a ha')) hvt hinv
      refine ⟨?_, hres.2⟩
      rw [hres.1, lfmax_cons, max_eq_left hma]
    | true =>
      have hvs : v < s := (EInt.blt_iff v s).mp hblt
      have hseq : s = EInt.num (m a) := hG3 hvs hst
      simp only [hblt, if_true, EInt.emax_eq]
      rw [max_eq_right (le_of_lt hvs)]
      rw [if_neg (fun hc => absurd ((EInt.ble_iff _ _).mp hc) (not_le_of_lt hst))]
      have hres := ih s (some a) (fun a' ha' => hch a' (List.mem_cons_of_mem a ha'))
        (fun a' ha' => hQ a' (List.mem_cons_of_mem a ha')) hst
        (Or.inr ⟨a, rfl, hQ a (List.mem_cons_self a rest), hseq⟩)
      constructor
      · rw [hres.1, lfmax_cons, ← hseq, max_eq_right (le_of_lt hvs)]
      · rcases hres.2 with ⟨h1, h2⟩ | h
        · exact Or.inr ⟨a, h2, hQ a (List.mem_cons_self a rest), by rw [h1, hseq]⟩
        · exact Or.inr h

/-- The `minValue` loop at a full-window root. -/
theorem minLoop_root (child : Action → EInt → EInt) (m : Action → Int) (Q : Action → Prop) :
    ∀ (l : List Action) (v : EInt) (best : Option Action),
      (∀ a ∈ l, ∀ bt : EInt, EInt.bot < bt →
        inB (child a bt) ∧ ABP (EInt.num (m a)) (child a bt) EInt.bot bt) →
      (∀ a ∈ l, Q a) →
      EInt.bot < v →
      ((v = EInt.top ∧ best = none) ∨ ∃ a0, best = some a0 ∧ Q a0 ∧ v = EInt.num (m a0)) →
      (minLoop child l v best EInt.bot v).1 = lfmin m v l ∧
      (((minLoop child l v best EInt.bot v).1 = v ∧ (minLoop child l v best EInt.bot v).2 = best) ∨
        ∃ a0, (minLoop child l v best EInt.bot v).2 = some a0 ∧ Q a0 ∧
          (minLoop child l v best EInt.bot v).1 = EInt.num (m a0)) := by
  intro l
  induction l with
  | nil =>
    intro v best _ _ _ _
    exact ⟨rfl, Or.inl ⟨rfl, rfl⟩⟩
  | cons a rest ih =>
    intro v best hch hQ hvt hinv
    obtain ⟨hsB, hG1, hG2, hG3⟩ := hch a (List.mem_cons_self a rest) v hvt
    rw [minLoop_cons]
    set s := child a v with hs
    have hst : EInt.bot < s := lt_of_lt_of_le (EInt.bot_lt_num (-1)) hsB.1
    cases hblt : EInt.blt s v with
    | false =>
      have hsv : v ≤ s :=
        le_of_not_lt (fun hc => by rw [(EInt.blt_iff s v).mpr hc] at hblt; cases hblt)
      have hma : v ≤ EInt.num (m a) := le_trans hsv (hG2 hsv)
      simp only [hblt, Bool.false_eq_true, if_false, EInt.emin_eq]
      rw [min_self]
      rw [if_neg (fun hc => absurd ((EInt.ble_iff _ _).mp hc) (not_le_of_lt hvt))]
      have hres := ih v best (fun a' ha' => hch a' (List.mem_cons_of_mem a ha'))
        (fun a' ha' => hQ a' (List.mem_cons_of_mem a ha')) hvt hinv
      refine ⟨?_, hres.2⟩
      rw [hres.1, lfmin_cons, min_eq_left hma]
    | true =>
      have hvs : s < v := (EInt.blt_iff s v).mp hblt
      have hseq : s = EInt.num (m a) := hG3 hst hvs
      simp only [hblt, if_true, EInt.emin_eq]
      rw [min_eq_right (le_of_lt hvs)]
      rw [if_neg (fun hc => absurd ((EInt.ble_iff _ _).mp hc) (not_le_of_lt hst))]
      have hres := ih s (some a) (fun a' ha' => hch a' (List.mem_cons_of_mem a ha'))
        (fun a' ha' => hQ a' (List.mem_cons_of_mem a ha')) hst
        (Or.inr ⟨a, rfl, hQ a (List.mem_cons_self a rest), hseq⟩)
      constructor
      · rw [hres.1, lfmin_cons, ← hseq, min_eq_right (le_of_lt hvs)]
      · rcases hres.2 with ⟨h1, h2⟩ | h
        · exact Or.inr ⟨a, h2, hQ a (List.mem_cons_self a rest), by rw [h1, hseq]⟩
        · exact Or.inr h

/-- A full-window `maxValue` call on a non-terminal board returns an action
attaining the optimal value. -/
theorem valueF_root_max (s : Shuffler) (n : Nat) (path : List Action) (b : Board) (depth : Int)
    (hfuel : (actions b).length < n + 1) (hdepth : ((actions b).length : Int) ≤ depth)
    (hnt : terminal b = false) :
    ∃ a, (valueF s true (n + 1) path b depth EInt.bot EInt.top).2 = some a ∧ a ∈ actions b ∧
      minSpec (resultOk b a) = maxSpec b ∧
      (valueF s true (n + 1) path b depth EInt.bot EInt.top).1 = EInt.num (maxSpec b) := by
  have hd0 : ¬ depth < 0 := by omega
  have ht : ¬ terminal b = true := by rw [hnt]; exact fun hc => by cases hc
  have hunf : valueF s true (n + 1) path b depth EInt.bot EInt.top
      = maxLoop (fun a al =>
          (valueF s false n (path ++ [a]) (resultOk b a) (depth - 1) al EInt.top).1)
          (s.shuffle path (actions b)) EInt.bot none EInt.bot EInt.top := by
    simp only [valueF]
    rw [if_neg (fun hc => hc.elim hd0 ht)]
  rw [hunf]
  have hch : ∀ a ∈ s.shuffle path (actions b), ∀ al : EInt, al < EInt.top →
      inB ((valueF s false n (path ++ [a]) (resultOk b a) (depth - 1) al EInt.top).1) ∧
      ABP (EInt.num (minSpec (resultOk b a)))
        ((valueF s false n (path ++ [a]) (resultOk b a) (depth - 1) al EInt.top).1) al EInt.top := by
    intro a ha al hal
    have ha' : a ∈ actions b := (s.isPerm path (actions b)).mem_iff.mp ha
    have hlen := actions_length_result b a ha'
    have := valueF_ab s n false (path ++ [a]) (resultOk b a) (depth - 1) al EInt.top
      (by omega) (by omega) hal
    rw [if_false_eq] at this
    exact this
  have hQ : ∀ a ∈ s.shuffle path (actions b), a ∈ actions b :=
    fun a ha => (s.isPerm path (actions b)).mem_iff.mp ha
  have hroot := maxLoop_root
    (fun a al => (valueF s false n (path ++ [a]) (resultOk b a) (depth - 1) al EInt.top).1)
    (fun a => minSpec (resultOk b a)) (fun a => a ∈ actions b)
    (s.shuffle path (actions b)) EInt.bot none hch hQ EInt.bot_lt_top (Or.inl ⟨rfl, rfl⟩)
  have hK : lfmax (fun a => minSpec (resultOk b a)) EInt.bot (s.shuffle path (actions b))
      = EInt.num (maxSpec b) := by
    rw [lfmax_perm _ (s.isPerm path (actions b)), ← maxSpecE_eq_lfmax b hnt]
  have hval := hroot.1
  rw [hK] at hval
  rcases hroot.2 with ⟨h1, _⟩ | ⟨a0, hsome, hmem, hv⟩
  · rw [hval] at h1
    cases h1
  · refine ⟨a0, hsome, hmem, ?_, hval⟩
    rw [hval] at hv
    exact (EInt.num.inj hv.symm)

/-- A full-window `minValue` call on a non-terminal board returns an action
attaining the optimal value. -/
theorem valueF_root_min (s : Shuffler) (n : Nat) (path : List Action) (b : Board) (depth : Int)
    (hfuel : (actions b).length < n + 1) (hdepth : ((actions b).length : Int) ≤ depth)
    (hnt : terminal b = false) :
    ∃ a, (valueF s false (n + 1) path b depth EInt.bot EInt.top).2 = some a ∧ a ∈ actions b ∧
      maxSpec (resultOk b a) = minSpec b ∧
      (valueF s false (n + 1) path b depth EInt.bot EInt.top).1 = EInt.num (minSpec b) := by
  have hd0 : ¬ depth < 0 := by omega
  have ht : ¬ terminal b = true := by rw [hnt]; exact fun hc => by cases hc
  have hunf : valueF s false (n + 1) path b depth EInt.bot EInt.top
      = minLoop (fun a bt =>
          (valueF s true n (path ++ [a]) (resultOk b a) (depth - 1) EInt.bot bt).1)
          (s.shuffle path (actions b)) EInt.top none EInt.bot EInt.top := by
    simp only [valueF]
    rw [if_neg (fun hc => hc.elim hd0 ht)]
  rw [hunf]
  have hch : ∀ a ∈ s.shuffle path (actions b), ∀ bt : EInt, EInt.bot < bt →
      inB ((valueF s true n (path ++ [a]) (resultOk b a) (depth - 1) EInt.bot bt).1) ∧
      ABP (EInt.num (maxSpec (resultOk b a)))
        ((valueF s true n (path ++ [a]) (resultOk b a) (depth - 1) EInt.bot bt).1) EInt.bot bt := by
    intro a ha bt hbt
    have ha' : a ∈ actions b := (s.isPerm path (actions b)).mem_iff.mp ha
    have hlen := actions_length_result b a ha'
    have := valueF_ab s n true (path ++ [a]) (resultOk b a) (depth - 1) EInt.bot bt
      (by omega) (by omega) hbt
    rw [if_true_eq] at this
    exact this
  have hQ : ∀ a ∈ s.shuffle path (actions b), a ∈ actions b :=
    fun a ha => (s.isPerm path (actions b)).mem_iff.mp ha
  have hroot := minLoop_root
    (fun a bt => (valueF s true n (path ++ [a]) (resultOk b a) (depth - 1) EInt.bot bt).1)
    (fun a => maxSpec (resultOk b a)) (fun a => a ∈ actions b)
    (s.shuffle path (actions b)) EInt.top none hch hQ EInt.bot_lt_top (Or.inl ⟨rfl, rfl⟩)
  have hK : lfmin (fun a => maxSpec (resultOk b a)) EInt.top (s.shuffle path (actions b))
      = EInt.num (minSpec b) := by
    rw [lfmin_perm _ (s.isPerm path (actions b)), ← minSpecE_eq_lfmin b hnt]
  have hval := hroot.1
  rw [hK] at hval
  rcases hroot.2 with ⟨h1, _⟩ | ⟨a0, hsome, hmem, hv⟩
  · rw [hval] at h1
    cases h1
  · refine ⟨a0, hsome, hmem, ?_, hval⟩
    rw [hval] at hv
    exact (EInt.num.inj hv.symm)

theorem maxLoopNP_cons (child : Action → EInt → EInt) (a : Action) (rest : List Action)
    (v : EInt) (best : Option Action) (alpha beta : EInt) :
    maxLoopNP child (a :: rest) v best alpha beta =
      (let score : EInt := child a alpha
       let vb : EInt × Option Action := if EInt.blt v score then (score, some a) else (v, best)
       maxLoopNP child rest vb.1 vb.2 (EInt.emax alpha vb.1) beta) := rfl

theorem minLoopNP_cons (child : Action → EInt → EInt) (a : Action) (rest : List Action)
    (v : EInt) (best : Option Action) (alpha beta : EInt) :
    minLoopNP child (a :: rest) v best alpha beta =
      (let score : EInt := child a beta
       let vb : EInt × Option Action := if EInt.blt score v then (score, some a) else (v, best)
       minLoopNP child rest vb.1 vb.2 alpha (EInt.emin beta vb.1)) := rfl

/-- Without the break, the `maxValue` loop computes the plain maximum of
the child values (the windows are dead variables). -/
theorem maxLoopNP_val (child : Action → EInt → EInt) (m : Action → Int) :
    ∀ (l : List Action), (∀ a ∈ l, ∀ al : EInt, child a al = EInt.num (m a)) →
      ∀ (v : EInt) (best : Option Action) (alpha beta : EInt),
        (maxLoopNP child l v best alpha beta).1 = lfmax m v l := by
  intro l
  induction l with
  | nil => intro _ v best alpha beta; rfl
  | cons a rest ih =>
    intro hch v best alpha beta
    rw [maxLoopNP_cons]
    rw [show child a alpha = EInt.num (m a) from hch a (List.mem_cons_self a rest) alpha]
    rw [lfmax_cons]
    cases hblt : EInt.blt v (EInt.num (m a)) with
    | false =>
      have hle : EInt.num (m a) ≤ v :=
        le_of_not_lt (fun hc => by rw [(EInt.blt_iff _ _).mpr hc] at hblt; cases hblt)
      simp only [hblt, Bool.false_eq_true, if_false]
      rw [ih (fun a' ha' => hch a' (List.mem_cons_of_mem a ha')), max_eq_left hle]
    | true =>
      have hlt : v < EInt.num (m a) := (EInt.blt_iff _ _).mp hblt
      simp only [hblt, if_true]
      rw [ih (fun a' ha' => hch a' (List.mem_cons_of_mem a ha')), max_eq_right (le_of_lt hlt)]

/-- Without the break, the `minValue` loop computes the plain minimum. -/
theorem minLoopNP_val (child : Action → EInt → EInt) (m : Action → Int) :
    ∀ (l : List Action), (∀ a ∈ l, ∀ bt : EInt, child a bt = EInt.num (m a)) →
      ∀ (v : EInt) (best : Option Action) (alpha beta : EInt),
        (minLoopNP child l v best alpha beta).1 = lfmin m v l := by
  intro l
  induction l with
  | nil => intro _ v best alpha beta; rfl
  | cons a rest ih =>
    intro hch v best alpha beta
    rw [minLoopNP_cons]
    rw [show child a beta = EInt.num (m a) from hch a (List.mem_cons_self a rest) beta]
    rw [lfmin_cons]
    cases hblt : EInt.blt (EInt.num (m a)) v with
    | false =>
      have hle : v ≤ EInt.num (m a) :=
        le_of_not_lt (fun hc => by rw [(EInt.blt_iff _ _).mpr hc] at hblt; cases hblt)
      simp only [hblt, Bool.false_eq_true, if_false]
      rw [ih (fun a' ha' => hch a' (List.mem_cons_of_mem a ha')), min_eq_left hle]
    | true =>
      have hlt : EInt.num (m a) < v := (EInt.blt_iff _ _).mp hblt
      simp only [hblt, if_true]
      rw [ih (fun a' ha' => hch a' (List.mem_cons_of_mem a ha')), min_eq_right (le_of_lt hlt)]

/-- The pruning-disabled search always computes the spec-side value, at
every window. -/
theorem valueNP_val (s : Shuffler) :
    ∀ (fuel : Nat) (mode : Bool) (path : List Action) (b : Board) (depth : Int)
      (alpha beta : EInt),
      (actions b).length < fuel → ((actions b).length : Int) ≤ depth →
      (valueNP s mode fuel path b depth alpha beta).1
        = EInt.num (if mode then maxSpec b else minSpec b) := by
  intro fuel
  induction fuel with
  | zero => intro mode path b depth alpha beta h _; omega
  | succ n ih =>
    intro mode path b depth alpha beta hfuel hdepth
    have hd0 : ¬ depth < 0 := by omega
    by_cases ht : terminal b = true
    · have hu : (if mode then maxSpec b else minSpec b) = utility b := by
        cases mode
        · exact minSpec_terminal b ht
        · exact maxSpec_terminal b ht
      rw [hu]
      cases mode <;> simp [valueNP, ht]
    · have hnt : terminal b = false := by
        cases h2 : terminal b
        · rfl
        · exact absurd h2 ht
      cases mode
      · have hunf : valueNP s false (n + 1) path b depth alpha beta
            = minLoopNP (fun a bt =>
                (valueNP s true n (path ++ [a]) (resultOk b a) (depth - 1) alpha bt).1)
                (s.shuffle path (actions b)) EInt.top none alpha beta := by
          simp only [valueNP]
          rw [if_neg (fun hc => hc.elim hd0 ht)]
        rw [hunf, if_false_eq]
        rw [minLoopNP_val _ (fun a => maxSpec (resultOk b a)) _ ?hch]
        case hch =>
          intro a ha bt
          have ha' : a ∈ actions b := (s.isPerm path (actions b)).mem_iff.mp ha
          have hlen := actions_length_result b a ha'
          have := ih true (path ++ [a]) (resultOk b a) (depth - 1) alpha bt (by omega) (by omega)
          rw [if_true_eq] at this
          exact this
        rw [lfmin_perm _ (s.isPerm path (actions b)), ← minSpecE_eq_lfmin b hnt]
      · have hunf : valueNP s true (n + 1) path b depth alpha beta
            = maxLoopNP (fun a al =>
                (valueNP s false n (path ++ [a]) (resultOk b a) (depth - 1) al beta).1)
                (s.shuffle path (actions b)) EInt.bot none alpha beta := by
          simp only [valueNP]
          rw [if_neg (fun hc => hc.elim hd0 ht)]
        rw [hunf, if_true_eq]
        rw [maxLoopNP_val _ (fun a => minSpec (resultOk b a)) _ ?hch]
        case hch =>
          intro a ha al
          have ha' : a ∈ actions b := (s.isPerm path (actions b)).mem_iff.mp ha
          have hlen := actions_length_result b a ha'
          have := ih false (path ++ [a]) (resultOk b a) (depth - 1) al beta (by omega) (by omega)
          rw [if_false_eq] at this
          exact this
        rw [lfmax_perm _ (s.isPerm path (actions b)), ← maxSpecE_eq_lfmax b hnt]

/-! ### A concrete good-ordering shuffler, used for evaluated instances -/

/-- Remove the first occurrence of `x` from a list. -/
def removeOne (x : Action) : List Action → List Action
  | [] => []
  | y :: ys => if y = x then ys else y :: removeOne x ys

theorem removeOne_perm (x : Action) (l : List Action) (h : x ∈ l) :
    (x :: removeOne x l).Perm l := by
  induction l with
  | nil => cases h
  | cons y ys ih =>
    unfold removeOne
    by_cases hxy : y = x
    · subst hxy
      rw [if_pos rfl]
    · rw [if_neg hxy]
      have hx : x ∈ ys := by
        rcases List.mem_cons.mp h with h' | h'
        · exact absurd h'.symm hxy
        · exact h'
      exact (List.Perm.swap y x (removeOne x ys)).trans ((ih hx).cons y)

/-- Move `x` to the front of a list when present. -/
def promote (x : Action) (l : List Action) : List Action :=
  if x ∈ l then x :: removeOne x l else l

theorem promote_perm (x : Action) (l : List Action) : (promote x l).Perm l := by
  unfold promote
  split
  · exact removeOne_perm x l (by assumption)
  · exact List.Perm.refl l

/-- A strong opening order: centre, then corners. -/
def goodOrder : List Action :=
  [(1, 1), (0, 0), (2, 2), (0, 2), (2, 0)]

/-- A deterministic shuffler that fronts the centre and corners; any
`Shuffler` is a legal model of `random.shuffle`, and this one keeps the
evaluated search instances small. -/
def ordShuffler : Shuffler :=
  ⟨fun _ l => goodOrder.foldr promote l, fun _ l => by
    induction goodOrder with
    | nil => exact List.Perm.refl l
    | cons x xs ih => exact (promote_perm x _).trans ih⟩

/-! ### Claims C1, C2 -/

/-- C2: for every reachable board and every fixed (deterministic) shuffle
oracle, the value returned by `maxValue`/`minValue` at the full window
equals the value of the same search with the `beta <= alpha` break removed. -/
theorem c2_pruning_preserves_value (s : Shuffler) (b : Board) (hr : Reachable b) :
    (maxValue s ((actions b).length + 1) [] b ACCURACY EInt.bot EInt.top).1
      = (maxValueNP s ((actions b).length + 1) [] b ACCURACY EInt.bot EInt.top).1 ∧
    (minValue s ((actions b).length + 1) [] b ACCURACY EInt.bot EInt.top).1
      = (minValueNP s ((actions b).length + 1) [] b ACCURACY EInt.bot EInt.top).1 := by
  have hlen := reachable_actions_le_nine b hr
  have hdepth : ((actions b).length : Int) ≤ ACCURACY := by unfold ACCURACY; omega
  constructor
  · show (valueF s true ((actions b).length + 1) [] b ACCURACY EInt.bot EInt.top).1
      = (valueNP s true ((actions b).length + 1) [] b ACCURACY EInt.bot EInt.top).1
    rw [valueF_full_val s true ((actions b).length + 1) [] b ACCURACY (by omega) hdepth,
      valueNP_val s ((actions b).length + 1) true [] b ACCURACY EInt.bot EInt.top (by omega) hdepth]
  · show (valueF s false ((actions b).length + 1) [] b ACCURACY EInt.bot EInt.top).1
      = (valueNP s false ((actions b).length + 1) [] b ACCURACY EInt.bot EInt.top).1
    rw [valueF_full_val s false ((actions b).length + 1) [] b ACCURACY (by omega) hdepth,
      valueNP_val s ((actions b).length + 1) false [] b ACCURACY EInt.bot EInt.top (by omega) hdepth]

theorem c2_pruning_preserves_value_witness :
    Reachable initial_state ∧
    ((maxValue idShuffler ((actions initial_state).length + 1) [] initial_state ACCURACY EInt.bot EInt.top).1
      = (maxValueNP idShuffler ((actions initial_state).length + 1) [] initial_state ACCURACY EInt.bot EInt.top).1 ∧
    (minValue idShuffler ((actions initial_state).length + 1) [] initial_state ACCURACY EInt.bot EInt.top).1
      = (minValueNP idShuffler ((actions initial_state).length + 1) [] initial_state ACCURACY EInt.bot EInt.top).1) :=
  ⟨Reachable.init, c2_pruning_preserves_value idShuffler initial_state Reachable.init⟩

theorem c1_aux (s : Shuffler) (b : Board) (hr : Reachable b) (hnt : terminal b = false)
    (hmax0 : maxSpec initial_state = 0)
    (hmin0 : minSpec (resultOk initial_state (0, 0)) = 0) :
    ∃ a, minimax s b = some a ∧ a ∈ actions b ∧
      (if player b = Cell.X then minSpec (resultOk b a) = maxSpec b
       else maxSpec (resultOk b a) = minSpec b) := by
  by_cases hb : b = initial_state
  · subst hb
    refine ⟨(0, 0), ?_, by decide, ?_⟩
    · unfold minimax
      rw [if_pos rfl]
    · rw [if_pos (by decide : player initial_state = Cell.X)]
      rw [hmin0, hmax0]
  · have hlen := reachable_actions_le_nine b hr
    have hdepth : ((actions b).length : Int) ≤ ACCURACY := by unfold ACCURACY; omega
    unfold minimax
    rw [if_neg hb]
    by_cases hp : player b = Cell.X
    · rw [if_pos hp]
      obtain ⟨a, h2, hmem, hval, _⟩ := valueF_root_max s ((actions b).length) [] b ACCURACY
        (by omega) hdepth hnt
      refine ⟨a, h2, hmem, ?_⟩
      rw [if_pos hp]
      exact hval
    · rw [if_neg hp]
      obtain ⟨a, h2, hmem, hval, _⟩ := valueF_root_min s ((actions b).length) [] b ACCURACY
        (by omega) hdepth hnt
      refine ⟨a, h2, hmem, ?_⟩
      rw [if_neg hp]
      exact hval


/-! ### Claim C4 -/

/-- The 8 winning lines (each as its three cells, in scan order). -/
def linesL : List ((Nat × Nat) × (Nat × Nat) × (Nat × Nat)) :=
  [((0,0),((0,1),(0,2))), ((1,0),((1,1),(1,2))), ((2,0),((2,1),(2,2))),
   ((0,0),((1,0),(2,0))), ((0,1),((1,1),(2,1))), ((0,2),((1,2),(2,2))),
   ((0,0),((1,1),(2,2))), ((0,2),((1,1),(2,0)))]

/-- The claim's premise: First has two marks in some line whose third cell
is empty. -/
def twoOpenX (b : Board) : Prop :=
  ∃ t ∈ linesL,
    ((cell b t.1.1 t.1.2 = Cell.X ∧ cell b t.2.1.1 t.2.1.2 = Cell.X ∧ cell b t.2.2.1 t.2.2.2 = Cell.E) ∨
     (cell b t.1.1 t.1.2 = Cell.X ∧ cell b t.2.1.1 t.2.1.2 = Cell.E ∧ cell b t.2.2.1 t.2.2.2 = Cell.X) ∨
     (cell b t.1.1 t.1.2 = Cell.E ∧ cell b t.2.1.1 t.2.1.2 = Cell.X ∧ cell b t.2.2.1 t.2.2.2 = Cell.X))

instance : DecidablePred twoOpenX := fun b => by
  unfold twoOpenX; infer_instance

theorem winner_none_expl (c00 c01 c02 c10 c11 c12 c20 c21 c22 : Cell) :
    winner [[c00, c01, c02], [c10, c11, c12], [c20, c21, c22]] = none ↔
      ¬(c00 = c01 ∧ c01 = c02 ∧ c00 ≠ Cell.E) ∧
      ¬(c00 = c10 ∧ c10 = c20 ∧ c00 ≠ Cell.E) ∧
      ¬(c10 = c11 ∧ c11 = c12 ∧ c10 ≠ Cell.E) ∧
      ¬(c01 = c11 ∧ c11 = c21 ∧ c01 ≠ Cell.E) ∧
      ¬(c20 = c21 ∧ c21 = c22 ∧ c20 ≠ Cell.E) ∧
      ¬(c02 = c12 ∧ c12 = c22 ∧ c02 ≠ Cell.E) ∧
      ¬(c00 = c11 ∧ c11 = c22 ∧ c00 ≠ Cell.E) ∧
      ¬(c02 = c11 ∧ c11 = c20 ∧ c02 ≠ Cell.E) := by
  unfold winner
  simp only [cell, List.getD_cons_zero, List.getD_cons_succ]
  split_ifs with h1 h2 h3 h4 h5 h6 h7 h8
  · exact iff_of_false (by simp) (fun hc => hc.1 h1)
  · exact iff_of_false (by simp) (fun hc => hc.2.1 h2)
  · exact iff_of_false (by simp) (fun hc => hc.2.2.1 h3)
  · exact iff_of_false (by simp) (fun hc => hc.2.2.2.1 h4)
  · exact iff_of_false (by simp) (fun hc => hc.2.2.2.2.1 h5)
  · exact iff_of_false (by simp) (fun hc => hc.2.2.2.2.2.1 h6)
  · exact iff_of_false (by simp) (fun hc => hc.2.2.2.2.2.2.1 h7)
  · exact iff_of_false (by simp) (fun hc => hc.2.2.2.2.2.2.2 h8)
  · exact iff_of_true rfl ⟨h1, h2, h3, h4, h5, h6, h7, h8⟩

set_option maxHeartbeats 6400000 in
/-- A two-open line for First, with First to move and no winner yet, yields
an immediately winning legal move. -/
theorem twoOpenX_bridge (b : Board) (hwf : Wf b) (hp : player b = Cell.X)
    (hw : winner b = none) (hto : twoOpenX b) :
    ∃ a, a ∈ actions b ∧ winner (resultOk b a) = some Cell.X := by
  obtain ⟨c00, c01, c02, c10, c11, c12, c20, c21, c22, rfl⟩ := wf_shape b hwf
  have hNC := (winner_none_expl c00 c01 c02 c10 c11 c12 c20 c21 c22).mp hw
  obtain ⟨t, ht, hpat⟩ := hto
  fin_cases ht
  · rcases hpat with ⟨h1, h2, h3⟩ | ⟨h1, h2, h3⟩ | ⟨h1, h2, h3⟩
    ·
      have ex1 : c00 = Cell.X := h1
      have ex2 : c01 = Cell.X := h2
      have ee : c02 = Cell.E := h3
      subst ex1; subst ex2; subst ee
      refine ⟨(((0 : Nat) : Int), ((2 : Nat) : Int)), ?_, ?_⟩
      · exact (mem_actions [[Cell.X, Cell.X, Cell.E], [c10, c11, c12], [c20, c21, c22]] _).mpr
          ⟨0, 2, by show (0:Nat) < 3; omega, by show (2:Nat) < 3; omega, rfl, rfl⟩
      · rw [resultOk_legal [[Cell.X, Cell.X, Cell.E], [c10, c11, c12], [c20, c21, c22]] 0 2
          (by show (0:Nat) < 3; omega) (by show (2:Nat) < 3; omega) rfl, hp]
        unfold winner
        simp only [cell, List.getD_cons_zero, List.getD_cons_succ,
          List.set_cons_zero, List.set_cons_succ]
        split_ifs with g1 g2 g3 g4 g5 g6 g7 g8
        · rfl
        · simp at g1
        · simp at g1
        · simp at g1
        · simp at g1
        · simp at g1
        · simp at g1
        · simp at g1
        · simp at g1
    ·
      have ex1 : c00 = Cell.X := h1
      have ex2 : c02 = Cell.X := h3
      have ee : c01 = Cell.E := h2
      subst ex1; subst ex2; subst ee
      refine ⟨(((0 : Nat) : Int), ((1 : Nat) : Int)), ?_, ?_⟩
      · exact (mem_actions [[Cell.X, Cell.E, Cell.X], [c10, c11, c12], [c20, c21, c22]] _).mpr
          ⟨0, 1, by show (0:Nat) < 3; omega, by show (1:Nat) < 3; omega, rfl, rfl⟩
      · rw [resultOk_legal [[Cell.X, Cell.E, Cell.X], [c10, c11, c12], [c20, c21, c22]] 0 1
          (by show (0:Nat) < 3; omega) (by show (1:Nat) < 3; omega) rfl, hp]
        unfold winner
        simp only [cell, List.getD_cons_zero, List.getD_cons_succ,
          List.set_cons_zero, List.set_cons_succ]
        split_ifs with g1 g2 g3 g4 g5 g6 g7 g8
        · rfl
        · simp at g1
        · simp at g1
        · simp at g1
        · simp at g1
        · simp at g1
        · simp at g1
        · simp at g1
        · simp at g1
    ·
      have ex1 : c01 = Cell.X := h2
      have ex2 : c02 = Cell.X := h3
      have ee : c00 = Cell.E := h1
      subst ex1; subst ex2; subst ee
      refine ⟨(((0 : Nat) : Int), ((0 : Nat) : Int)), ?_, ?_⟩
      · exact (mem_actions [[Cell.E, Cell.X, Cell.X], [c10, c11, c12], [c20, c21, c22]] _).mpr
          ⟨0, 0, by show (0:Nat) < 3; omega, by show (0:Nat) < 3; omega, rfl, rfl⟩
      · rw [resultOk_legal [[Cell.E, Cell.X, Cell.X], [c10, c11, c12], [c20, c21, c22]] 0 0
          (by show (0:Nat) < 3; omega) (by show (0:Nat) < 3; omega) rfl, hp]
        unfold winner
        simp only [cell, List.getD_cons_zero, List.getD_cons_succ,
          List.set_cons_zero, List.set_cons_succ]
        split_ifs with g1 g2 g3 g4 g5 g6 g7 g8
        · rfl
        · simp at g1
        · simp at g1
        · simp at g1
        · simp at g1
        · simp at g1
        · simp at g1
        · simp at g1
        · simp at g1
  · rcases hpat with ⟨h1, h2, h3⟩ | ⟨h1, h2, h3⟩ | ⟨h1, h2, h3⟩
    ·
      have ex1 : c10 = Cell.X := h1
      have ex2 : c11 = Cell.X := h2
      have ee : c12 = Cell.E := h3
      subst ex1; subst ex2; subst ee
      refine ⟨(((1 : Nat) : Int), ((2 : Nat) : Int)), ?_, ?_⟩
      · exact (mem_actions [[c00, c01, c02], [Cell.X, Cell.X, Cell.E], [c20, c21, c22]] _).mpr
          ⟨1, 2, by show (1:Nat) < 3; omega, by show (2:Nat) < 3; omega, rfl, rfl⟩
      · rw [resultOk_legal [[c00, c01, c02], [Cell.X, Cell.X, Cell.E], [c20, c21, c22]] 1 2
          (by show (1:Nat) < 3; omega) (by show (2:Nat) < 3; omega) rfl, hp]
        unfold winner
        simp only [cell, List.getD_cons_zero, List.getD_cons_succ,
          List.set_cons_zero, List.set_cons_succ]
        split_ifs with g1 g2 g3 g4 g5 g6 g7 g8
        · exact absurd g1 hNC.1
        · exact absurd g2 hNC.2.1
        · rfl
        · simp at g3
        · simp at g3
        · simp at g3
        · simp at g3
        · simp at g3
        · simp at g3
    ·
      have ex1 : c10 = Cell.X := h1
      have ex2 : c12 = Cell.X := h3
      have ee : c11 = Cell.E := h2
      subst ex1; subst ex2; subst ee
      refine ⟨(((1 : Nat) : Int), ((1 : Nat) : Int)), ?_, ?_⟩
      · exact (mem_actions [[c00, c01, c02], [Cell.X, Cell.E, Cell.X], [c20, c21, c22]] _).mpr
          ⟨1, 1, by show (1:Nat) < 3; omega, by show (1:Nat) < 3; omega, rfl, rfl⟩
      · rw [resultOk_legal [[c00, c01, c02], [Cell.X, Cell.E, Cell.X], [c20, c21, c22]] 1 1
          (by show (1:Nat) < 3; omega) (by show (1:Nat) < 3; omega) rfl, hp]
        unfold winner
        simp only [cell, List.getD_cons_zero, List.getD_cons_succ,
          List.set_cons_zero, List.set_cons_succ]
        split_ifs with g1 g2 g3 g4 g5 g6 g7 g8
        · exact absurd g1 hNC.1
        · exact absurd g2 hNC.2.1
        · rfl
        · simp at g3
        · simp at g3
        · simp at g3
        · simp at g3
        · simp at g3
        · simp at g3
    ·
      have ex1 : c11 = Cell.X := h2
      have ex2 : c12 = Cell.X := h3
      have ee : c10 = Cell.E := h1
      subst ex1; subst ex2; subst ee
      refine ⟨(((1 : Nat) : Int), ((0 : Nat) : Int)), ?_, ?_⟩
      · exact (mem_actions [[c00, c01, c02], [Cell.E, Cell.X, Cell.X], [c20, c21, c22]] _).mpr
          ⟨1, 0, by show (1:Nat) < 3; omega, by show (0:Nat) < 3; omega, rfl, rfl⟩
      · rw [resultOk_legal [[c00, c01, c02], [Cell.E, Cell.X, Cell.X], [c20, c21, c22]] 1 0
          (by show (1:Nat) < 3; omega) (by show (0:Nat) < 3; omega) rfl, hp]
        unfold winner
        simp only [cell, List.getD_cons_zero, List.getD_cons_succ,
          List.set_cons_zero, List.set_cons_succ]
        split_ifs with g1 g2 g3 g4 g5 g6 g7 g8
        · exact absurd g1 hNC.1
        · rw [g2.1]
        · rfl
        · simp at g3
        · simp at g3
        · simp at g3
        · simp at g3
        · simp at g3
        · simp at g3
  · rcases hpat with ⟨h1, h2, h3⟩ | ⟨h1, h2, h3⟩ | ⟨h1, h2, h3⟩
    ·
      have ex1 : c20 = Cell.X := h1
      have ex2 : c21 = Cell.X := h2
      have ee : c22 = Cell.E := h3
      subst ex1; subst ex2; subst ee
      refine ⟨(((2 : Nat) : Int), ((2 : Nat) : Int)), ?_, ?_⟩
      · exact (mem_actions [[c00, c01, c02], [c10, c11, c12], [Cell.X, Cell.X, Cell.E]] _).mpr
          ⟨2, 2, by show (2:Nat) < 3; omega, by show (2:Nat) < 3; omega, rfl, rfl⟩
      · rw [resultOk_legal [[c00, c01, c02], [c10, c11, c12], [Cell.X, Cell.X, Cell.E]] 2 2
          (by show (2:Nat) < 3; omega) (by show (2:Nat) < 3; omega) rfl, hp]
        unfold winner
        simp only [cell, List.getD_cons_zero, List.getD_cons_succ,
          List.set_cons_zero, List.set_cons_succ]
        split_ifs with g1 g2 g3 g4 g5 g6 g7 g8
        · exact absurd g1 hNC.1
        · exact absurd g2 hNC.2.1
        · exact absurd g3 hNC.2.2.1
        · exact absurd g4 hNC.2.2.2.1
        · rfl
        · simp at g5
        · simp at g5
        · simp at g5
        · simp at g5
    ·
      have ex1 : c20 = Cell.X := h1
      have ex2 : c22 = Cell.X := h3
      have ee : c21 = Cell.E := h2
      subst ex1; subst ex2; subst ee
      refine ⟨(((2 : Nat) : Int), ((1 : Nat) : Int)), ?_, ?_⟩
      · exact (mem_actions [[c00, c01, c02], [c10, c11, c12], [Cell.X, Cell.E, Cell.X]] _).mpr
          ⟨2, 1, by show (2:Nat) < 3; omega, by show (1:Nat) < 3; omega, rfl, rfl⟩
      · rw [resultOk_legal [[c00, c01, c02], [c10, c11, c12], [Cell.X, Cell.E, Cell.X]] 2 1
          (by show (2:Nat) < 3; omega) (by show (1:Nat) < 3; omega) rfl, hp]
        unfold winner
        simp only [cell, List.getD_cons_zero, List.getD_cons_succ,
          List.set_cons_zero, List.set_cons_succ]
        split_ifs with g1 g2 g3 g4 g5 g6 g7 g8
        · exact absurd g1 hNC.1
        · exact absurd g2 hNC.2.1
        · exact absurd g3 hNC.2.2.1
        · rw [g4.1, g4.2.1]
        · rfl
        · simp at g5
        · simp at g5
        · simp at g5
        · simp at g5
    ·
      have ex1 : c21 = Cell.X := h2
      have ex2 : c22 = Cell.X := h3
      have ee : c20 = Cell.E := h1
      subst ex1; subst ex2; subst ee
      refine ⟨(((2 : Nat) : Int), ((0 : Nat) : Int)), ?_, ?_⟩
      · exact (mem_actions [[c00, c01, c02], [c10, c11, c12], [Cell.E, Cell.X, Cell.X]] _).mpr
          ⟨2, 0, by show (2:Nat) < 3; omega, by show (0:Nat) < 3; omega, rfl, rfl⟩
      · rw [resultOk_legal [[c00, c01, c02], [c10, c11, c12], [Cell.E, Cell.X, Cell.X]] 2 0
          (by show (2:Nat) < 3; omega) (by show (0:Nat) < 3; omega) rfl, hp]
        unfold winner
        simp only [cell, List.getD_cons_zero, List.getD_cons_succ,
          List.set_cons_zero, List.set_cons_succ]
        split_ifs with g1 g2 g3 g4 g5 g6 g7 g8
        · exact absurd g1 hNC.1
        · rw [g2.1, g2.2.1]
        · exact absurd g3 hNC.2.2.1
        · exact absurd g4 hNC.2.2.2.1
        · rfl
        · simp at g5
        · simp at g5
        · simp at g5
        · simp at g5
  · rcases hpat with ⟨h1, h2, h3⟩ | ⟨h1, h2, h3⟩ | ⟨h1, h2, h3⟩
    ·
      have ex1 : c00 = Cell.X := h1
      have ex2 : c10 = Cell.X := h2
      have ee : c20 = Cell.E := h3
      subst ex1; subst ex2; subst ee
      refine ⟨(((2 : Nat) : Int), ((0 : Nat) : Int)), ?_, ?_⟩
      · exact (mem_actions [[Cell.X, c01, c02], [Cell.X, c11, c12], [Cell.E, c21, c22]] _).mpr
          ⟨2, 0, by show (2:Nat) < 3; omega, by show (0:Nat) < 3; omega, rfl, rfl⟩
      · rw [resultOk_legal [[Cell.X, c01, c02], [Cell.X, c11, c12], [Cell.E, c21, c22]] 2 0
          (by show (2:Nat) < 3; omega) (by show (0:Nat) < 3; omega) rfl, hp]
        unfold winner
        simp only [cell, List.getD_cons_zero, List.getD_cons_succ,
          List.set_cons_zero, List.set_cons_succ]
        split_ifs with g1 g2 g3 g4 g5 g6 g7 g8
        · exact absurd g1 hNC.1
        · rfl
        · simp at g2
        · simp at g2
        · simp at g2
        · simp at g2
        · simp at g2
        · simp at g2
        · simp at g2
    ·
      have ex1 : c00 = Cell.X := h1
      have ex2 : c20 = Cell.X := h3
      have ee : c10 = Cell.E := h2
      subst ex1; subst ex2; subst ee
      refine ⟨(((1 : Nat) : Int), ((0 : Nat) : Int)), ?_, ?_⟩
      · exact (mem_actions [[Cell.X, c01, c02], [Cell.E, c11, c12], [Cell.X, c21, c22]] _).mpr
          ⟨1, 0, by show (1:Nat) < 3; omega, by show (0:Nat) < 3; omega, rfl, rfl⟩
      · rw [resultOk_legal [[Cell.X, c01, c02], [Cell.E, c11, c12], [Cell.X, c21, c22]] 1 0
          (by show (1:Nat) < 3; omega) (by show (0:Nat) < 3; omega) rfl, hp]
        unfold winner
        simp only [cell, List.getD_cons_zero, List.getD_cons_succ,
          List.set_cons_zero, List.set_cons_succ]
        split_ifs with g1 g2 g3 g4 g5 g6 g7 g8
        · exact absurd g1 hNC.1
        · rfl
        · simp at g2
        · simp at g2
        · simp at g2
        · simp at g2
        · simp at g2
        · simp at g2
        · simp at g2
    ·
      have ex1 : c10 = Cell.X := h2
      have ex2 : c20 = Cell.X := h3
      have ee : c00 = Cell.E := h1
      subst ex1; subst ex2; subst ee
      refine ⟨(((0 : Nat) : Int), ((0 : Nat) : Int)), ?_, ?_⟩
      · exact (mem_actions [[Cell.E, c01, c02], [Cell.X, c11, c12], [Cell.X, c21, c22]] _).mpr
          ⟨0, 0, by show (0:Nat) < 3; omega, by show (0:Nat) < 3; omega, rfl, rfl⟩
      · rw [resultOk_legal [[Cell.E, c01, c02], [Cell.X, c11, c12], [Cell.X, c21, c22]] 0 0
          (by show (0:Nat) < 3; omega) (by show (0:Nat) < 3; omega) rfl, hp]
        unfold winner
        simp only [cell, List.getD_cons_zero, List.getD_cons_succ,
          List.set_cons_zero, List.set_cons_succ]
        split_ifs with g1 g2 g3 g4 g5 g6 g7 g8
        · rfl
        · rfl
        · simp at g2
        · simp at g2
        · simp at g2
        · simp at g2
        · simp at g2
        · simp at g2
        · simp at g2
  · rcases hpat with ⟨h1, h2, h3⟩ | ⟨h1, h2, h3⟩ | ⟨h1, h2, h3⟩
    ·
      have ex1 : c01 = Cell.X := h1
      have ex2 : c11 = Cell.X := h2
      have ee : c21 = Cell.E := h3
      subst ex1; subst ex2; subst ee
      refine ⟨(((2 : Nat) : Int), ((1 : Nat) : Int)), ?_, ?_⟩
      · exact (mem_actions [[c00, Cell.X, c02], [c10, Cell.X, c12], [c20, Cell.E, c22]] _).mpr
          ⟨2, 1, by show (2:Nat) < 3; omega, by show (1:Nat) < 3; omega, rfl, rfl⟩
      · rw [resultOk_legal [[c00, Cell.X, c02], [c10, Cell.X, c12], [c20, Cell.E, c22]] 2 1
          (by show (2:Nat) < 3; omega) (by show (1:Nat) < 3; omega) rfl, hp]
        unfold winner
        simp only [cell, List.getD_cons_zero, List.getD_cons_succ,
          List.set_cons_zero, List.set_cons_succ]
        split_ifs with g1 g2 g3 g4 g5 g6 g7 g8
        · exact absurd g1 hNC.1
        · exact absurd g2 hNC.2.1
        · exact absurd g3 hNC.2.2.1
        · rfl
        · simp at g4
        · simp at g4
        · simp at g4
        · simp at g4
        · simp at g4
    ·
      have ex1 : c01 = Cell.X := h1
      have ex2 : c21 = Cell.X := h3
      have ee : c11 = Cell.E := h2
      subst ex1; subst ex2; subst ee
      refine ⟨(((1 : Nat) : Int), ((1 : Nat) : Int)), ?_, ?_⟩
      · exact (mem_actions [[c00, Cell.X, c02], [c10, Cell.E, c12], [c20, Cell.X, c22]] _).mpr
          ⟨1, 1, by show (1:Nat) < 3; omega, by show (1:Nat) < 3; omega, rfl, rfl⟩
      · rw [resultOk_legal [[c00, Cell.X, c02], [c10, Cell.E, c12], [c20, Cell.X, c22]] 1 1
          (by show (1:Nat) < 3; omega) (by show (1:Nat) < 3; omega) rfl, hp]
        unfold winner
        simp only [cell, List.getD_cons_zero, List.getD_cons_succ,
          List.set_cons_zero, List.set_cons_succ]
        split_ifs with g1 g2 g3 g4 g5 g6 g7 g8
        · exact absurd g1 hNC.1
        · exact absurd g2 hNC.2.1
        · rw [g3.1]
        · rfl
        · simp at g4
        · simp at g4
        · simp at g4
        · simp at g4
        · simp at g4
    ·
      have ex1 : c11 = Cell.X := h2
      have ex2 : c21 = Cell.X := h3
      have ee : c01 = Cell.E := h1
      subst ex1; subst ex2; subst ee
      refine ⟨(((0 : Nat) : Int), ((1 : Nat) : Int)), ?_, ?_⟩
      · exact (mem_actions [[c00, Cell.E, c02], [c10, Cell.X, c12], [c20, Cell.X, c22]] _).mpr
          ⟨0, 1, by show (0:Nat) < 3; omega, by show (1:Nat) < 3; omega, rfl, rfl⟩
      · rw [resultOk_legal [[c00, Cell.E, c02], [c10, Cell.X, c12], [c20, Cell.X, c22]] 0 1
          (by show (0:Nat) < 3; omega) (by show (1:Nat) < 3; omega) rfl, hp]
        unfold winner
        simp only [cell, List.getD_cons_zero, List.getD_cons_succ,
          List.set_cons_zero, List.set_cons_succ]
        split_ifs with g1 g2 g3 g4 g5 g6 g7 g8
        · rw [g1.1]
        · exact absurd g2 hNC.2.1
        · exact absurd g3 hNC.2.2.1
        · rfl
        · simp at g4
        · simp at g4
        · simp at g4
        · simp at g4
        · simp at g4
  · rcases hpat with ⟨h1, h2, h3⟩ | ⟨h1, h2, h3⟩ | ⟨h1, h2, h3⟩
    ·
      have ex1 : c02 = Cell.X := h1
      have ex2 : c12 = Cell.X := h2
      have ee : c22 = Cell.E := h3
      subst ex1; subst ex2; subst ee
      refine ⟨(((2 : Nat) : Int), ((2 : Nat) : Int)), ?_, ?_⟩
      · exact (mem_actions [[c00, c01, Cell.X], [c10, c11, Cell.X], [c20, c21, Cell.E]] _).mpr
          ⟨2, 2, by show (2:Nat) < 3; omega, by show (2:Nat) < 3; omega, rfl, rfl⟩
      · rw [resultOk_legal [[c00, c01, Cell.X], [c10, c11, Cell.X], [c20, c21, Cell.E]] 2 2
          (by show (2:Nat) < 3; omega) (by show (2:Nat) < 3; omega) rfl, hp]
        unfold winner
        simp only [cell, List.getD_cons_zero, List.getD_cons_succ,
          List.set_cons_zero, List.set_cons_succ]
        split_ifs with g1 g2 g3 g4 g5 g6 g7 g8
        · exact absurd g1 hNC.1
        · exact absurd g2 hNC.2.1
        · exact absurd g3 hNC.2.2.1
        · exact absurd g4 hNC.2.2.2.1
        · rw [g5.1, g5.2.1]
        · rfl
        · simp at g6
        · simp at g6
        · simp at g6
    ·
      have ex1 : c02 = Cell.X := h1
      have ex2 : c22 = Cell.X := h3
      have ee : c12 = Cell.E := h2
      subst ex1; subst ex2; subst ee
      refine ⟨(((1 : Nat) : Int), ((2 : Nat) : Int)), ?_, ?_⟩
      · exact (mem_actions [[c00, c01, Cell.X], [c10, c11, Cell.E], [c20, c21, Cell.X]] _).mpr
          ⟨1, 2, by show (1:Nat) < 3; omega, by show (2:Nat) < 3; omega, rfl, rfl⟩
      · rw [resultOk_legal [[c00, c01, Cell.X], [c10, c11, Cell.E], [c20, c21, Cell.X]] 1 2
          (by show (1:Nat) < 3; omega) (by show (2:Nat) < 3; omega) rfl, hp]
        unfold winner
        simp only [cell, List.getD_cons_zero, List.getD_cons_succ,
          List.set_cons_zero, List.set_cons_succ]
        split_ifs with g1 g2 g3 g4 g5 g6 g7 g8
        · exact absurd g1 hNC.1
        · exact absurd g2 hNC.2.1
        · rw [g3.1, g3.2.1]
        · exact absurd g4 hNC.2.2.2.1
        · exact absurd g5 hNC.2.2.2.2.1
        · rfl
        · simp at g6
        · simp at g6
        · simp at g6
    ·
      have ex1 : c12 = Cell.X := h2
      have ex2 : c22 = Cell.X := h3
      have ee : c02 = Cell.E := h1
      subst ex1; subst ex2; subst ee
      refine ⟨(((0 : Nat) : Int), ((2 : Nat) : Int)), ?_, ?_⟩
      · exact (mem_actions [[c00, c01, Cell.E], [c10, c11, Cell.X], [c20, c21, Cell.X]] _).mpr
          ⟨0, 2, by show (0:Nat) < 3; omega, by show (2:Nat) < 3; omega, rfl, rfl⟩
      · rw [resultOk_legal [[c00, c01, Cell.E], [c10, c11, Cell.X], [c20, c21, Cell.X]] 0 2
          (by show (0:Nat) < 3; omega) (by show (2:Nat) < 3; omega) rfl, hp]
        unfold winner
        simp only [cell, List.getD_cons_zero, List.getD_cons_succ,
          List.set_cons_zero, List.set_cons_succ]
        split_ifs with g1 g2 g3 g4 g5 g6 g7 g8
        · rw [g1.1, g1.2.1]
        · exact absurd g2 hNC.2.1
        · exact absurd g3 hNC.2.2.1
        · exact absurd g4 hNC.2.2.2.1
        · exact absurd g5 hNC.2.2.2.2.1
        · rfl
        · simp at g6
        · simp at g6
        · simp at g6
  · rcases hpat with ⟨h1, h2, h3⟩ | ⟨h1, h2, h3⟩ | ⟨h1, h2, h3⟩
    ·
      have ex1 : c00 = Cell.X := h1
      have ex2 : c11 = Cell.X := h2
      have ee : c22 = Cell.E := h3
      subst ex1; subst ex2; subst ee
      refine ⟨(((2 : Nat) : Int), ((2 : Nat) : Int)), ?_, ?_⟩
      · exact (mem_actions [[Cell.X, c01, c02], [c10, Cell.X, c12], [c20, c21, Cell.E]] _).mpr
          ⟨2, 2, by show (2:Nat) < 3; omega, by show (2:Nat) < 3; omega, rfl, rfl⟩
      · rw [resultOk_legal [[Cell.X, c01, c02], [c10, Cell.X, c12], [c20, c21, Cell.E]] 2 2
          (by show (2:Nat) < 3; omega) (by show (2:Nat) < 3; omega) rfl, hp]
        unfold winner
        simp only [cell, List.getD_cons_zero, List.getD_cons_succ,
          List.set_cons_zero, List.set_cons_succ]
        split_ifs with g1 g2 g3 g4 g5 g6 g7 g8
        · exact absurd g1 hNC.1
        · exact absurd g2 hNC.2.1
        · exact absurd g3 hNC.2.2.1
        · exact absurd g4 hNC.2.2.2.1
        · rw [g5.1, g5.2.1]
        · rw [g6.1, g6.2.1]
        · rfl
        · simp at g7
        · simp at g7
    ·
      have ex1 : c00 = Cell.X := h1
      have ex2 : c22 = Cell.X := h3
      have ee : c11 = Cell.E := h2
      subst ex1; subst ex2; subst ee
      refine ⟨(((1 : Nat) : Int), ((1 : Nat) : Int)), ?_, ?_⟩
      · exact (mem_actions [[Cell.X, c01, c02], [c10, Cell.E, c12], [c20, c21, Cell.X]] _).mpr
          ⟨1, 1, by show (1:Nat) < 3; omega, by show (1:Nat) < 3; omega, rfl, rfl⟩
      · rw [resultOk_legal [[Cell.X, c01, c02], [c10, Cell.E, c12], [c20, c21, Cell.X]] 1 1
          (by show (1:Nat) < 3; omega) (by show (1:Nat) < 3; omega) rfl, hp]
        unfold winner
        simp only [cell, List.getD_cons_zero, List.getD_cons_succ,
          List.set_cons_zero, List.set_cons_succ]
        split_ifs with g1 g2 g3 g4 g5 g6 g7 g8
        · exact absurd g1 hNC.1
        · exact absurd g2 hNC.2.1
        · rw [g3.1]
        · rw [g4.1]
        · exact absurd g5 hNC.2.2.2.2.1
        · exact absurd g6 hNC.2.2.2.2.2.1
        · rfl
        · simp at g7
        · simp at g7
    ·
      have ex1 : c11 = Cell.X := h2
      have ex2 : c22 = Cell.X := h3
      have ee : c00 = Cell.E := h1
      subst ex1; subst ex2; subst ee
      refine ⟨(((0 : Nat) : Int), ((0 : Nat) : Int)), ?_, ?_⟩
      · exact (mem_actions [[Cell.E, c01, c02], [c10, Cell.X, c12], [c20, c21, Cell.X]] _).mpr
          ⟨0, 0, by show (0:Nat) < 3; omega, by show (0:Nat) < 3; omega, rfl, rfl⟩
      · rw [resultOk_legal [[Cell.E, c01, c02], [c10, Cell.X, c12], [c20, c21, Cell.X]] 0 0
          (by show (0:Nat) < 3; omega) (by show (0:Nat) < 3; omega) rfl, hp]
        unfold winner
        simp only [cell, List.getD_cons_zero, List.getD_cons_succ,
          List.set_cons_zero, List.set_cons_succ]
        split_ifs with g1 g2 g3 g4 g5 g6 g7 g8
        · rfl
        · rfl
        · exact absurd g3 hNC.2.2.1
        · exact absurd g4 hNC.2.2.2.1
        · exact absurd g5 hNC.2.2.2.2.1
        · exact absurd g6 hNC.2.2.2.2.2.1
        · rfl
        · simp at g7
        · simp at g7
  · rcases hpat with ⟨h1, h2, h3⟩ | ⟨h1, h2, h3⟩ | ⟨h1, h2, h3⟩
    ·
      have ex1 : c02 = Cell.X := h1
      have ex2 : c11 = Cell.X := h2
      have ee : c20 = Cell.E := h3
      subst ex1; subst ex2; subst ee
      refine ⟨(((2 : Nat) : Int), ((0 : Nat) : Int)), ?_, ?_⟩
      · exact (mem_actions [[c00, c01, Cell.X], [c10, Cell.X, c12], [Cell.E, c21, c22]] _).mpr
          ⟨2, 0, by show (2:Nat) < 3; omega, by show (0:Nat) < 3; omega, rfl, rfl⟩
      · rw [resultOk_legal [[c00, c01, Cell.X], [c10, Cell.X, c12], [Cell.E, c21, c22]] 2 0
          (by show (2:Nat) < 3; omega) (by show (0:Nat) < 3; omega) rfl, hp]
        unfold winner
        simp only [cell, List.getD_cons_zero, List.getD_cons_succ,
          List.set_cons_zero, List.set_cons_succ]
        split_ifs with g1 g2 g3 g4 g5 g6 g7 g8
        · exact absurd g1 hNC.1
        · rw [g2.1, g2.2.1]
        · exact absurd g3 hNC.2.2.1
        · exact absurd g4 hNC.2.2.2.1
        · rfl
        · exact absurd g6 hNC.2.2.2.2.2.1
        · exact absurd g7 hNC.2.2.2.2.2.2.1
        · rfl
        · simp at g8
    ·
      have ex1 : c02 = Cell.X := h1
      have ex2 : c20 = Cell.X := h3
      have ee : c11 = Cell.E := h2
      subst ex1; subst ex2; subst ee
      refine ⟨(((1 : Nat) : Int), ((1 : Nat) : Int)), ?_, ?_⟩
      · exact (mem_actions [[c00, c01, Cell.X], [c10, Cell.E, c12], [Cell.X, c21, c22]] _).mpr
          ⟨1, 1, by show (1:Nat) < 3; omega, by show (1:Nat) < 3; omega, rfl, rfl⟩
      · rw [resultOk_legal [[c00, c01, Cell.X], [c10, Cell.E, c12], [Cell.X, c21, c22]] 1 1
          (by show (1:Nat) < 3; omega) (by show (1:Nat) < 3; omega) rfl, hp]
        unfold winner
        simp only [cell, List.getD_cons_zero, List.getD_cons_succ,
          List.set_cons_zero, List.set_cons_succ]
        split_ifs with g1 g2 g3 g4 g5 g6 g7 g8
        · exact absurd g1 hNC.1
        · exact absurd g2 hNC.2.1
        · rw [g3.1]
        · rw [g4.1]
        · exact absurd g5 hNC.2.2.2.2.1
        · exact absurd g6 hNC.2.2.2.2.2.1
        · rw [g7.1]
        · rfl
        · simp at g8
    ·
      have ex1 : c11 = Cell.X := h2
      have ex2 : c20 = Cell.X := h3
      have ee : c02 = Cell.E := h1
      subst ex1; subst ex2; subst ee
      refine ⟨(((0 : Nat) : Int), ((2 : Nat) : Int)), ?_, ?_⟩
      · exact (mem_actions [[c00, c01, Cell.E], [c10, Cell.X, c12], [Cell.X, c21, c22]] _).mpr
          ⟨0, 2, by show (0:Nat) < 3; omega, by show (2:Nat) < 3; omega, rfl, rfl⟩
      · rw [resultOk_legal [[c00, c01, Cell.E], [c10, Cell.X, c12], [Cell.X, c21, c22]] 0 2
          (by show (0:Nat) < 3; omega) (by show (2:Nat) < 3; omega) rfl, hp]
        unfold winner
        simp only [cell, List.getD_cons_zero, List.getD_cons_succ,
          List.set_cons_zero, List.set_cons_succ]
        split_ifs with g1 g2 g3 g4 g5 g6 g7 g8
        · rw [g1.1, g1.2.1]
        · exact absurd g2 hNC.2.1
        · exact absurd g3 hNC.2.2.1
        · exact absurd g4 hNC.2.2.2.1
        · exact absurd g5 hNC.2.2.2.2.1
        · rfl
        · exact absurd g7 hNC.2.2.2.2.2.2.1
        · rfl
        · simp at g8


theorem cntE_le_length (r : List Cell) : cntE r ≤ r.length := by
  induction r with
  | nil => exact Nat.le_refl 0
  | cons c cs ih =>
    unfold cntE
    simp only [List.length_cons]
    split_ifs <;> omega

/-- A well-formed (3x3) board has at most nine legal actions. -/
theorem wf_actions_le_nine (b : Board) (hwf : Wf b) : (actions b).length ≤ 9 := by
  obtain ⟨c00, c01, c02, c10, c11, c12, c20, c21, c22, rfl⟩ := wf_shape b hwf
  rw [actions_length]
  simp only [List.map_cons, List.map_nil, List.sum_cons, List.sum_nil]
  have h0 := cntE_le_length [c00, c01, c02]
  have h1 := cntE_le_length [c10, c11, c12]
  have h2 := cntE_le_length [c20, c21, c22]
  simp only [List.length_cons, List.length_nil] at h0 h1 h2
  omega

theorem winner_none_of_nonterminal (b : Board) (hnt : terminal b = false) :
    winner b = none := by
  unfold terminal at hnt
  cases hw : winner b with
  | none => rfl
  | some w => rw [hw] at hnt; simp at hnt

theorem utility_winner_X (b : Board) (h : winner b = some Cell.X) : utility b = 1 := by
  unfold utility
  rw [h]

/-- C4, counterexample: on the board `[[X,X,E],[O,E,E],[E,E,O]]` it is
First's turn and First has two in a row with the third cell `(0, 2)` open,
yet under the shuffle order that fronts the centre, `minimax` returns
`(1, 1)`, which does not complete any line: the resulting board has no
winner.  The search is indifferent between a win in one move and a win in
several, so it need not pick the immediately winning completion. -/
theorem c4_counterexample :
    player [[Cell.X, Cell.X, Cell.E], [Cell.O, Cell.E, Cell.E], [Cell.E, Cell.E, Cell.O]] = Cell.X ∧
    twoOpenX [[Cell.X, Cell.X, Cell.E], [Cell.O, Cell.E, Cell.E], [Cell.E, Cell.E, Cell.O]] ∧
    terminal [[Cell.X, Cell.X, Cell.E], [Cell.O, Cell.E, Cell.E], [Cell.E, Cell.E, Cell.O]] = false ∧
    minimax ordShuffler [[Cell.X, Cell.X, Cell.E], [Cell.O, Cell.E, Cell.E], [Cell.E, Cell.E, Cell.O]]
      = some (1, 1) ∧
    winner (resultOk [[Cell.X, Cell.X, Cell.E], [Cell.O, Cell.E, Cell.E], [Cell.E, Cell.E, Cell.O]]
      (1, 1)) = none := by
  refine ⟨by decide, by decide, by decide, by decide, by decide⟩

/-- C4, amended: for every well-formed board where it is First's turn, the
game is not over, and First has two marks in some line whose third cell is
empty, `minimax` (under every shuffle order) returns a legal action whose
full-depth value is a forced win (+1) for First; the returned move need not
itself complete a line. -/
theorem c4_forced_win (s : Shuffler) (b : Board) (hwf : Wf b) (hp : player b = Cell.X)
    (hnt : terminal b = false) (hto : twoOpenX b) :
    ∃ a, minimax s b = some a ∧ a ∈ actions b ∧ minSpec (resultOk b a) = 1 := by
  have hw : winner b = none := winner_none_of_nonterminal b hnt
  obtain ⟨aw, hawm, haww⟩ := twoOpenX_bridge b hwf hp hw hto
  have h1 : minSpec (resultOk b aw) = 1 := by
    rw [minSpec_terminal _ (terminal_of_winner _ _ haww), utility_winner_X _ haww]
  have hle : EInt.num (minSpec (resultOk b aw)) ≤ EInt.num (maxSpec b) := by
    rw [maxSpecE_eq_lfmax b hnt]
    exact mem_le_lfmax (fun a => minSpec (resultOk b a)) (actions b) EInt.bot aw hawm
  have hmax1 : maxSpec b = 1 := by
    have hle2 := (EInt.num_le_num _ _).mp hle
    have h2 := (maxSpec_bounds b).2
    rw [h1] at hle2
    omega
  have hbne : b ≠ initial_state := by
    intro hb
    subst hb
    exact absurd hto (by decide)
  have hlen := wf_actions_le_nine b hwf
  have hdepth : ((actions b).length : Int) ≤ ACCURACY := by unfold ACCURACY; omega
  unfold minimax
  rw [if_neg hbne, if_pos hp]
  obtain ⟨a, h2, hmem, hval, _⟩ := valueF_root_max s (actions b).length [] b ACCURACY
    (by omega) hdepth hnt
  exact ⟨a, h2, hmem, by rw [hval, hmax1]⟩

theorem c4_forced_win_witness :
    (Wf [[Cell.X, Cell.X, Cell.E], [Cell.O, Cell.O, Cell.E], [Cell.E, Cell.E, Cell.E]] ∧
     player [[Cell.X, Cell.X, Cell.E], [Cell.O, Cell.O, Cell.E], [Cell.E, Cell.E, Cell.E]] = Cell.X ∧
     terminal [[Cell.X, Cell.X, Cell.E], [Cell.O, Cell.O, Cell.E], [Cell.E, Cell.E, Cell.E]] = false ∧
     twoOpenX [[Cell.X, Cell.X, Cell.E], [Cell.O, Cell.O, Cell.E], [Cell.E, Cell.E, Cell.E]]) ∧
    ∃ a, minimax idShuffler [[Cell.X, Cell.X, Cell.E], [Cell.O, Cell.O, Cell.E], [Cell.E, Cell.E, Cell.E]]
        = some a ∧
      a ∈ actions [[Cell.X, Cell.X, Cell.E], [Cell.O, Cell.O, Cell.E], [Cell.E, Cell.E, Cell.E]] ∧
      minSpec (resultOk [[Cell.X, Cell.X, Cell.E], [Cell.O, Cell.O, Cell.E], [Cell.E, Cell.E, Cell.E]] a)
        = 1 :=
  ⟨⟨by decide, by decide, by decide, by decide⟩,
   c4_forced_win idShuffler _ (by decide) (by decide) (by decide) (by decide)⟩

/-! ### Concrete optimal values, via per-position null-window searches
Each bound on a position's optimal value is certified either by one small
fail-soft alpha-beta run on a null window (a leaf fact, checked by kernel
evaluation) or by combining the bounds of its child positions. -/

/-- A fail-low null-window `minValue` run bounds the minimizer value above. -/
theorem minSpec_le_of_low (fuel : Nat) (b : Board) (depth lo hi : Int)
    (hfuel : (actions b).length < fuel) (hdepth : ((actions b).length : Int) ≤ depth)
    (hlh : lo < hi)
    (hle : (valueF ordShuffler false fuel [] b depth (EInt.num lo) (EInt.num hi)).1 ≤ EInt.num lo) :
    minSpec b ≤ lo := by
  have h := (valueF_ab ordShuffler fuel false [] b depth (EInt.num lo) (EInt.num hi)
      hfuel hdepth ((EInt.num_lt_num lo hi).mpr hlh)).2.1 hle
  rw [if_false_eq] at h
  exact (EInt.num_le_num _ _).mp (le_trans h hle)

/-- A fail-high null-window `minValue` run bounds the minimizer value below. -/
theorem le_minSpec_of_high (fuel : Nat) (b : Board) (depth lo hi : Int)
    (hfuel : (actions b).length < fuel) (hdepth : ((actions b).length : Int) ≤ depth)
    (hlh : lo < hi)
    (hge : EInt.num hi ≤ (valueF ordShuffler false fuel [] b depth (EInt.num lo) (EInt.num hi)).1) :
    hi ≤ minSpec b := by
  have h := (valueF_ab ordShuffler fuel false [] b depth (EInt.num lo) (EInt.num hi)
      hfuel hdepth ((EInt.num_lt_num lo hi).mpr hlh)).2.2.1 hge
  rw [if_false_eq] at h
  exact (EInt.num_le_num _ _).mp (le_trans hge h)

/-- A fail-low null-window `maxValue` run bounds the maximizer value above. -/
theorem maxSpec_le_of_low (fuel : Nat) (b : Board) (depth lo hi : Int)
    (hfuel : (actions b).length < fuel) (hdepth : ((actions b).length : Int) ≤ depth)
    (hlh : lo < hi)
    (hle : (valueF ordShuffler true fuel [] b depth (EInt.num lo) (EInt.num hi)).1 ≤ EInt.num lo) :
    maxSpec b ≤ lo := by
  have h := (valueF_ab ordShuffler fuel true [] b depth (EInt.num lo) (EInt.num hi)
      hfuel hdepth ((EInt.num_lt_num lo hi).mpr hlh)).2.1 hle
  rw [if_true_eq] at h
  exact (EInt.num_le_num _ _).mp (le_trans h hle)

/-- A fail-high null-window `maxValue` run bounds the maximizer value below. -/
theorem le_maxSpec_of_high (fuel : Nat) (b : Board) (depth lo hi : Int)
    (hfuel : (actions b).length < fuel) (hdepth : ((actions b).length : Int) ≤ depth)
    (hlh : lo < hi)
    (hge : EInt.num hi ≤ (valueF ordShuffler true fuel [] b depth (EInt.num lo) (EInt.num hi)).1) :
    hi ≤ maxSpec b := by
  have h := (valueF_ab ordShuffler fuel true [] b depth (EInt.num lo) (EInt.num hi)
      hfuel hdepth ((EInt.num_lt_num lo hi).mpr hlh)).2.2.1 hge
  rw [if_true_eq] at h
  exact (EInt.num_le_num _ _).mp (le_trans hge h)

set_option maxRecDepth 1000000 in
set_option maxHeartbeats 0 in
theorem vb_le_XXEEOEEEE : minSpec [[Cell.X, Cell.X, Cell.E], [Cell.E, Cell.O, Cell.E], [Cell.E, Cell.E, Cell.E]] ≤ 0 :=
  minSpec_le_of_low 7 [[Cell.X, Cell.X, Cell.E], [Cell.E, Cell.O, Cell.E], [Cell.E, Cell.E, Cell.E]] 6 0 1 (by decide) (by decide) (by decide) (by decide)

set_option maxRecDepth 1000000 in
set_option maxHeartbeats 0 in
theorem vb_le_XEXEOEEEE : minSpec [[Cell.X, Cell.E, Cell.X], [Cell.E, Cell.O, Cell.E], [Cell.E, Cell.E, Cell.E]] ≤ 0 :=
  minSpec_le_of_low 7 [[Cell.X, Cell.E, Cell.X], [Cell.E, Cell.O, Cell.E], [Cell.E, Cell.E, Cell.E]] 6 0 1 (by decide) (by decide) (by decide) (by decide)

set_option maxRecDepth 1000000 in
set_option maxHeartbeats 0 in
theorem vb_le_XEEXOEEEE : minSpec [[Cell.X, Cell.E, Cell.E], [Cell.X, Cell.O, Cell.E], [Cell.E, Cell.E, Cell.E]] ≤ 0 :=
  minSpec_le_of_low 7 [[Cell.X, Cell.E, Cell.E], [Cell.X, Cell.O, Cell.E], [Cell.E, Cell.E, Cell.E]] 6 0 1 (by decide) (by decide) (by decide) (by decide)

set_option maxRecDepth 1000000 in
set_option maxHeartbeats 0 in
theorem vb_le_XEEEOXEEE : minSpec [[Cell.X, Cell.E, Cell.E], [Cell.E, Cell.O, Cell.X], [Cell.E, Cell.E, Cell.E]] ≤ 0 :=
  minSpec_le_of_low 7 [[Cell.X, Cell.E, Cell.E], [Cell.E, Cell.O, Cell.X], [Cell.E, Cell.E, Cell.E]] 6 0 1 (by decide) (by decide) (by decide) (by decide)

set_option maxRecDepth 1000000 in
set_option maxHeartbeats 0 in
theorem vb_le_XEEEOEXEE : minSpec [[Cell.X, Cell.E, Cell.E], [Cell.E, Cell.O, Cell.E], [Cell.X, Cell.E, Cell.E]] ≤ 0 :=
  minSpec_le_of_low 7 [[Cell.X, Cell.E, Cell.E], [Cell.E, Cell.O, Cell.E], [Cell.X, Cell.E, Cell.E]] 6 0 1 (by decide) (by decide) (by decide) (by decide)

set_option maxRecDepth 1000000 in
set_option maxHeartbeats 0 in
theorem vb_le_XEEEOEEXE : minSpec [[Cell.X, Cell.E, Cell.E], [Cell.E, Cell.O, Cell.E], [Cell.E, Cell.X, Cell.E]] ≤ 0 :=
  minSpec_le_of_low 7 [[Cell.X, Cell.E, Cell.E], [Cell.E, Cell.O, Cell.E], [Cell.E, Cell.X, Cell.E]] 6 0 1 (by decide) (by decide) (by decide) (by decide)

set_option maxRecDepth 1000000 in
set_option maxHeartbeats 0 in
theorem vb_le_XEEEOEEEX : minSpec [[Cell.X, Cell.E, Cell.E], [Cell.E, Cell.O, Cell.E], [Cell.E, Cell.E, Cell.X]] ≤ 0 :=
  minSpec_le_of_low 7 [[Cell.X, Cell.E, Cell.E], [Cell.E, Cell.O, Cell.E], [Cell.E, Cell.E, Cell.X]] 6 0 1 (by decide) (by decide) (by decide) (by decide)

theorem vb_le_XEEEOEEEE : maxSpec [[Cell.X, Cell.E, Cell.E], [Cell.E, Cell.O, Cell.E], [Cell.E, Cell.E, Cell.E]] ≤ 0 := by
  have h := maxSpecE_eq_lfmax [[Cell.X, Cell.E, Cell.E], [Cell.E, Cell.O, Cell.E], [Cell.E, Cell.E, Cell.E]] (by decide)
  rw [show actions [[Cell.X, Cell.E, Cell.E], [Cell.E, Cell.O, Cell.E], [Cell.E, Cell.E, Cell.E]] = [((0 : Int), (1 : Int)), ((0 : Int), (2 : Int)), ((1 : Int), (0 : Int)), ((1 : Int), (2 : Int)), ((2 : Int), (0 : Int)), ((2 : Int), (1 : Int)), ((2 : Int), (2 : Int))] from by decide] at h
  refine (EInt.num_le_num _ _).mp (le_trans (le_of_eq h) (lfmax_le _ _ _ _ (EInt.bot_le _) ?_))
  intro a ha
  fin_cases ha
  · show EInt.num (minSpec (resultOk [[Cell.X, Cell.E, Cell.E], [Cell.E, Cell.O, Cell.E], [Cell.E, Cell.E, Cell.E]] ((0 : Int), (1 : Int)))) ≤ EInt.num 0
    rw [show resultOk [[Cell.X, Cell.E, Cell.E], [Cell.E, Cell.O, Cell.E], [Cell.E, Cell.E, Cell.E]] ((0 : Int), (1 : Int)) = [[Cell.X, Cell.X, Cell.E], [Cell.E, Cell.O, Cell.E], [Cell.E, Cell.E, Cell.E]] from by decide]
    exact (EInt.num_le_num _ _).mpr vb_le_XXEEOEEEE
  · show EInt.num (minSpec (resultOk [[Cell.X, Cell.E, Cell.E], [Cell.E, Cell.O, Cell.E], [Cell.E, Cell.E, Cell.E]] ((0 : Int), (2 : Int)))) ≤ EInt.num 0
    rw [show resultOk [[Cell.X, Cell.E, Cell.E], [Cell.E, Cell.O, Cell.E], [Cell.E, Cell.E, Cell.E]] ((0 : Int), (2 : Int)) = [[Cell.X, Cell.E, Cell.X], [Cell.E, Cell.O, Cell.E], [Cell.E, Cell.E, Cell.E]] from by decide]
    exact (EInt.num_le_num _ _).mpr vb_le_XEXEOEEEE
  · show EInt.num (minSpec (resultOk [[Cell.X, Cell.E, Cell.E], [Cell.E, Cell.O, Cell.E], [Cell.E, Cell.E, Cell.E]] ((1 : Int), (0 : Int)))) ≤ EInt.num 0
    rw [show resultOk [[Cell.X, Cell.E, Cell.E], [Cell.E, Cell.O, Cell.E], [Cell.E, Cell.E, Cell.E]] ((1 : Int), (0 : Int)) = [[Cell.X, Cell.E, Cell.E], [Cell.X, Cell.O, Cell.E], [Cell.E, Cell.E, Cell.E]] from by decide]
    exact (EInt.num_le_num _ _).mpr vb_le_XEEXOEEEE
  · show EInt.num (minSpec (resultOk [[Cell.X, Cell.E, Cell.E], [Cell.E, Cell.O, Cell.E], [Cell.E, Cell.E, Cell.E]] ((1 : Int), (2 : Int)))) ≤ EInt.num 0
    rw [show resultOk [[Cell.X, Cell.E, Cell.E], [Cell.E, Cell.O, Cell.E], [Cell.E, Cell.E, Cell.E]] ((1 : Int), (2 : Int)) = [[Cell.X, Cell.E, Cell.E], [Cell.E, Cell.O, Cell.X], [Cell.E, Cell.E, Cell.E]] from by decide]
    exact (EInt.num_le_num _ _).mpr vb_le_XEEEOXEEE
  · show EInt.num (minSpec (resultOk [[Cell.X, Cell.E, Cell.E], [Cell.E, Cell.O, Cell.E], [Cell.E, Cell.E, Cell.E]] ((2 : Int), (0 : Int)))) ≤ EInt.num 0
    rw [show resultOk [[Cell.X, Cell.E, Cell.E], [Cell.E, Cell.O, Cell.E], [Cell.E, Cell.E, Cell.E]] ((2 : Int), (0 : Int)) = [[Cell.X, Cell.E, Cell.E], [Cell.E, Cell.O, Cell.E], [Cell.X, Cell.E, Cell.E]] from by decide]
    exact (EInt.num_le_num _ _).mpr vb_le_XEEEOEXEE
  · show EInt.num (minSpec (resultOk [[Cell.X, Cell.E, Cell.E], [Cell.E, Cell.O, Cell.E], [Cell.E, Cell.E, Cell.E]] ((2 : Int), (1 : Int)))) ≤ EInt.num 0
    rw [show resultOk [[Cell.X, Cell.E, Cell.E], [Cell.E, Cell.O, Cell.E], [Cell.E, Cell.E, Cell.E]] ((2 : Int), (1 : Int)) = [[Cell.X, Cell.E, Cell.E], [Cell.E, Cell.O, Cell.E], [Cell.E, Cell.X, Cell.E]] from by decide]
    exact (EInt.num_le_num _ _).mpr vb_le_XEEEOEEXE
  · show EInt.num (minSpec (resultOk [[Cell.X, Cell.E, Cell.E], [Cell.E, Cell.O, Cell.E], [Cell.E, Cell.E, Cell.E]] ((2 : Int), (2 : Int)))) ≤ EInt.num 0
    rw [show resultOk [[Cell.X, Cell.E, Cell.E], [Cell.E, Cell.O, Cell.E], [Cell.E, Cell.E, Cell.E]] ((2 : Int), (2 : Int)) = [[Cell.X, Cell.E, Cell.E], [Cell.E, Cell.O, Cell.E], [Cell.E, Cell.E, Cell.X]] from by decide]
    exact (EInt.num_le_num _ _).mpr vb_le_XEEEOEEEX

theorem vb_le_XEEEEEEEE : minSpec [[Cell.X, Cell.E, Cell.E], [Cell.E, Cell.E, Cell.E], [Cell.E, Cell.E, Cell.E]] ≤ 0 := by
  have h := minSpecE_eq_lfmin [[Cell.X, Cell.E, Cell.E], [Cell.E, Cell.E, Cell.E], [Cell.E, Cell.E, Cell.E]] (by decide)
  have h2 := lfmin_le_mem (fun a => maxSpec (resultOk [[Cell.X, Cell.E, Cell.E], [Cell.E, Cell.E, Cell.E], [Cell.E, Cell.E, Cell.E]] a)) (actions [[Cell.X, Cell.E, Cell.E], [Cell.E, Cell.E, Cell.E], [Cell.E, Cell.E, Cell.E]]) EInt.top
    ((1 : Int), (1 : Int)) (by decide)
  rw [show (fun a => maxSpec (resultOk [[Cell.X, Cell.E, Cell.E], [Cell.E, Cell.E, Cell.E], [Cell.E, Cell.E, Cell.E]] a)) ((1 : Int), (1 : Int))
      = maxSpec [[Cell.X, Cell.E, Cell.E], [Cell.E, Cell.O, Cell.E], [Cell.E, Cell.E, Cell.E]] from congrArg maxSpec (by decide)] at h2
  exact (EInt.num_le_num _ _).mp
    (le_trans (le_of_eq h) (le_trans h2 ((EInt.num_le_num _ _).mpr vb_le_XEEEOEEEE)))

set_option maxRecDepth 1000000 in
set_option maxHeartbeats 0 in
theorem vb_le_EXEEEEEEE : minSpec [[Cell.E, Cell.X, Cell.E], [Cell.E, Cell.E, Cell.E], [Cell.E, Cell.E, Cell.E]] ≤ 0 :=
  minSpec_le_of_low 9 [[Cell.E, Cell.X, Cell.E], [Cell.E, Cell.E, Cell.E], [Cell.E, Cell.E, Cell.E]] 8 0 1 (by decide) (by decide) (by decide) (by decide)

set_option maxRecDepth 1000000 in
set_option maxHeartbeats 0 in
theorem vb_le_EXXEOEEEE : minSpec [[Cell.E, Cell.X, Cell.X], [Cell.E, Cell.O, Cell.E], [Cell.E, Cell.E, Cell.E]] ≤ 0 :=
  minSpec_le_of_low 7 [[Cell.E, Cell.X, Cell.X], [Cell.E, Cell.O, Cell.E], [Cell.E, Cell.E, Cell.E]] 6 0 1 (by decide) (by decide) (by decide) (by decide)

set_option maxRecDepth 1000000 in
set_option maxHeartbeats 0 in
theorem vb_le_EEXXOEEEE : minSpec [[Cell.E, Cell.E, Cell.X], [Cell.X, Cell.O, Cell.E], [Cell.E, Cell.E, Cell.E]] ≤ 0 :=
  minSpec_le_of_low 7 [[Cell.E, Cell.E, Cell.X], [Cell.X, Cell.O, Cell.E], [Cell.E, Cell.E, Cell.E]] 6 0 1 (by decide) (by decide) (by decide) (by decide)

set_option maxRecDepth 1000000 in
set_option maxHeartbeats 0 in
theorem vb_le_EEXEOXEEE : minSpec [[Cell.E, Cell.E, Cell.X], [Cell.E, Cell.O, Cell.X], [Cell.E, Cell.E, Cell.E]] ≤ 0 :=
  minSpec_le_of_low 7 [[Cell.E, Cell.E, Cell.X], [Cell.E, Cell.O, Cell.X], [Cell.E, Cell.E, Cell.E]] 6 0 1 (by decide) (by decide) (by decide) (by decide)

set_option maxRecDepth 1000000 in
set_option maxHeartbeats 0 in
theorem vb_le_EEXEOEXEE : minSpec [[Cell.E, Cell.E, Cell.X], [Cell.E, Cell.O, Cell.E], [Cell.X, Cell.E, Cell.E]] ≤ 0 :=
  minSpec_le_of_low 7 [[Cell.E, Cell.E, Cell.X], [Cell.E, Cell.O, Cell.E], [Cell.X, Cell.E, Cell.E]] 6 0 1 (by decide) (by decide) (by decide) (by decide)

set_option maxRecDepth 1000000 in
set_option maxHeartbeats 0 in
theorem vb_le_EEXEOEEXE : minSpec [[Cell.E, Cell.E, Cell.X], [Cell.E, Cell.O, Cell.E], [Cell.E, Cell.X, Cell.E]] ≤ 0 :=
  minSpec_le_of_low 7 [[Cell.E, Cell.E, Cell.X], [Cell.E, Cell.O, Cell.E], [Cell.E, Cell.X, Cell.E]] 6 0 1 (by decide) (by decide) (by decide) (by decide)

set_option maxRecDepth 1000000 in
set_option maxHeartbeats 0 in
theorem vb_le_EEXEOEEEX : minSpec [[Cell.E, Cell.E, Cell.X], [Cell.E, Cell.O, Cell.E], [Cell.E, Cell.E, Cell.X]] ≤ 0 :=
  minSpec_le_of_low 7 [[Cell.E, Cell.E, Cell.X], [Cell.E, Cell.O, Cell.E], [Cell.E, Cell.E, Cell.X]] 6 0 1 (by decide) (by decide) (by decide) (by decide)

theorem vb_le_EEXEOEEEE : maxSpec [[Cell.E, Cell.E, Cell.X], [Cell.E, Cell.O, Cell.E], [Cell.E, Cell.E, Cell.E]] ≤ 0 := by
  have h := maxSpecE_eq_lfmax [[Cell.E, Cell.E, Cell.X], [Cell.E, Cell.O, Cell.E], [Cell.E, Cell.E, Cell.E]] (by decide)
  rw [show actions [[Cell.E, Cell.E, Cell.X], [Cell.E, Cell.O, Cell.E], [Cell.E, Cell.E, Cell.E]] = [((0 : Int), (0 : Int)), ((0 : Int), (1 : Int)), ((1 : Int), (0 : Int)), ((1 : Int), (2 : Int)), ((2 : Int), (0 : Int)), ((2 : Int), (1 : Int)), ((2 : Int), (2 : Int))] from by decide] at h
  refine (EInt.num_le_num _ _).mp (le_trans (le_of_eq h) (lfmax_le _ _ _ _ (EInt.bot_le _) ?_))
  intro a ha
  fin_cases ha
  · show EInt.num (minSpec (resultOk [[Cell.E, Cell.E, Cell.X], [Cell.E, Cell.O, Cell.E], [Cell.E, Cell.E, Cell.E]] ((0 : Int), (0 : Int)))) ≤ EInt.num 0
    rw [show resultOk [[Cell.E, Cell.E, Cell.X], [Cell.E, Cell.O, Cell.E], [Cell.E, Cell.E, Cell.E]] ((0 : Int), (0 : Int)) = [[Cell.X, Cell.E, Cell.X], [Cell.E, Cell.O, Cell.E], [Cell.E, Cell.E, Cell.E]] from by decide]
    exact (EInt.num_le_num _ _).mpr vb_le_XEXEOEEEE
  · show EInt.num (minSpec (resultOk [[Cell.E, Cell.E, Cell.X], [Cell.E, Cell.O, Cell.E], [Cell.E, Cell.E, Cell.E]] ((0 : Int), (1 : Int)))) ≤ EInt.num 0
    rw [show resultOk [[Cell.E, Cell.E, Cell.X], [Cell.E, Cell.O, Cell.E], [Cell.E, Cell.E, Cell.E]] ((0 : Int), (1 : Int)) = [[Cell.E, Cell.X, Cell.X], [Cell.E, Cell.O, Cell.E], [Cell.E, Cell.E, Cell.E]] from by decide]
    exact (EInt.num_le_num _ _).mpr vb_le_EXXEOEEEE
  · show EInt.num (minSpec (resultOk [[Cell.E, Cell.E, Cell.X], [Cell.E, Cell.O, Cell.E], [Cell.E, Cell.E, Cell.E]] ((1 : Int), (0 : Int)))) ≤ EInt.num 0
    rw [show resultOk [[Cell.E, Cell.E, Cell.X], [Cell.E, Cell.O, Cell.E], [Cell.E, Cell.E, Cell.E]] ((1 : Int), (0 : Int)) = [[Cell.E, Cell.E, Cell.X], [Cell.X, Cell.O, Cell.E], [Cell.E, Cell.E, Cell.E]] from by decide]
    exact (EInt.num_le_num _ _).mpr vb_le_EEXXOEEEE
  · show EInt.num (minSpec (resultOk [[Cell.E, Cell.E, Cell.X], [Cell.E, Cell.O, Cell.E], [Cell.E, Cell.E, Cell.E]] ((1 : Int), (2 : Int)))) ≤ EInt.num 0
    rw [show resultOk [[Cell.E, Cell.E, Cell.X], [Cell.E, Cell.O, Cell.E], [Cell.E, Cell.E, Cell.E]] ((1 : Int), (2 : Int)) = [[Cell.E, Cell.E, Cell.X], [Cell.E, Cell.O, Cell.X], [Cell.E, Cell.E, Cell.E]] from by decide]
    exact (EInt.num_le_num _ _).mpr vb_le_EEXEOXEEE
  · show EInt.num (minSpec (resultOk [[Cell.E, Cell.E, Cell.X], [Cell.E, Cell.O, Cell.E], [Cell.E, Cell.E, Cell.E]] ((2 : Int), (0 : Int)))) ≤ EInt.num 0
    rw [show resultOk [[Cell.E, Cell.E, Cell.X], [Cell.E, Cell.O, Cell.E], [Cell.E, Cell.E, Cell.E]] ((2 : Int), (0 : Int)) = [[Cell.E, Cell.E, Cell.X], [Cell.E, Cell.O, Cell.E], [Cell.X, Cell.E, Cell.E]] from by decide]
    exact (EInt.num_le_num _ _).mpr vb_le_EEXEOEXEE
  · show EInt.num (minSpec (resultOk [[Cell.E, Cell.E, Cell.X], [Cell.E, Cell.O, Cell.E], [Cell.E, Cell.E, Cell.E]] ((2 : Int), (1 : Int)))) ≤ EInt.num 0
    rw [show resultOk [[Cell.E, Cell.E, Cell.X], [Cell.E, Cell.O, Cell.E], [Cell.E, Cell.E, Cell.E]] ((2 : Int), (1 : Int)) = [[Cell.E, Cell.E, Cell.X], [Cell.E, Cell.O, Cell.E], [Cell.E, Cell.X, Cell.E]] from by decide]
    exact (EInt.num_le_num _ _).mpr vb_le_EEXEOEEXE
  · show EInt.num (minSpec (resultOk [[Cell.E, Cell.E, Cell.X], [Cell.E, Cell.O, Cell.E], [Cell.E, Cell.E, Cell.E]] ((2 : Int), (2 : Int)))) ≤ EInt.num 0
    rw [show resultOk [[Cell.E, Cell.E, Cell.X], [Cell.E, Cell.O, Cell.E], [Cell.E, Cell.E, Cell.E]] ((2 : Int), (2 : Int)) = [[Cell.E, Cell.E, Cell.X], [Cell.E, Cell.O, Cell.E], [Cell.E, Cell.E, Cell.X]] from by decide]
    exact (EInt.num_le_num _ _).mpr vb_le_EEXEOEEEX

theorem vb_le_EEXEEEEEE : minSpec [[Cell.E, Cell.E, Cell.X], [Cell.E, Cell.E, Cell.E], [Cell.E, Cell.E, Cell.E]] ≤ 0 := by
  have h := minSpecE_eq_lfmin [[Cell.E, Cell.E, Cell.X], [Cell.E, Cell.E, Cell.E], [Cell.E, Cell.E, Cell.E]] (by decide)
  have h2 := lfmin_le_mem (fun a => maxSpec (resultOk [[Cell.E, Cell.E, Cell.X], [Cell.E, Cell.E, Cell.E], [Cell.E, Cell.E, Cell.E]] a)) (actions [[Cell.E, Cell.E, Cell.X], [Cell.E, Cell.E, Cell.E], [Cell.E, Cell.E, Cell.E]]) EInt.top
    ((1 : Int), (1 : Int)) (by decide)
  rw [show (fun a => maxSpec (resultOk [[Cell.E, Cell.E, Cell.X], [Cell.E, Cell.E, Cell.E], [Cell.E, Cell.E, Cell.E]] a)) ((1 : Int), (1 : Int))
      = maxSpec [[Cell.E, Cell.E, Cell.X], [Cell.E, Cell.O, Cell.E], [Cell.E, Cell.E, Cell.E]] from congrArg maxSpec (by decide)] at h2
  exact (EInt.num_le_num _ _).mp
    (le_trans (le_of_eq h) (le_trans h2 ((EInt.num_le_num _ _).mpr vb_le_EEXEOEEEE)))

set_option maxRecDepth 1000000 in
set_option maxHeartbeats 0 in
theorem vb_le_EEEXEEEEE : minSpec [[Cell.E, Cell.E, Cell.E], [Cell.X, Cell.E, Cell.E], [Cell.E, Cell.E, Cell.E]] ≤ 0 :=
  minSpec_le_of_low 9 [[Cell.E, Cell.E, Cell.E], [Cell.X, Cell.E, Cell.E], [Cell.E, Cell.E, Cell.E]] 8 0 1 (by decide) (by decide) (by decide) (by decide)

set_option maxRecDepth 1000000 in
set_option maxHeartbeats 0 in
theorem vb_le_XEEEXEOEE : minSpec [[Cell.X, Cell.E, Cell.E], [Cell.E, Cell.X, Cell.E], [Cell.O, Cell.E, Cell.E]] ≤ 0 :=
  minSpec_le_of_low 7 [[Cell.X, Cell.E, Cell.E], [Cell.E, Cell.X, Cell.E], [Cell.O, Cell.E, Cell.E]] 6 0 1 (by decide) (by decide) (by decide) (by decide)

set_option maxRecDepth 1000000 in
set_option maxHeartbeats 0 in
theorem vb_le_EXEEXEOEE : minSpec [[Cell.E, Cell.X, Cell.E], [Cell.E, Cell.X, Cell.E], [Cell.O, Cell.E, Cell.E]] ≤ 0 :=
  minSpec_le_of_low 7 [[Cell.E, Cell.X, Cell.E], [Cell.E, Cell.X, Cell.E], [Cell.O, Cell.E, Cell.E]] 6 0 1 (by decide) (by decide) (by decide) (by decide)

set_option maxRecDepth 1000000 in
set_option maxHeartbeats 0 in
theorem vb_le_EEXEXEOEE : minSpec [[Cell.E, Cell.E, Cell.X], [Cell.E, Cell.X, Cell.E], [Cell.O, Cell.E, Cell.E]] ≤ 0 :=
  minSpec_le_of_low 7 [[Cell.E, Cell.E, Cell.X], [Cell.E, Cell.X, Cell.E], [Cell.O, Cell.E, Cell.E]] 6 0 1 (by decide) (by decide) (by decide) (by decide)

set_option maxRecDepth 1000000 in
set_option maxHeartbeats 0 in
theorem vb_le_EEEXXEOEE : minSpec [[Cell.E, Cell.E, Cell.E], [Cell.X, Cell.X, Cell.E], [Cell.O, Cell.E, Cell.E]] ≤ 0 :=
  minSpec_le_of_low 7 [[Cell.E, Cell.E, Cell.E], [Cell.X, Cell.X, Cell.E], [Cell.O, Cell.E, Cell.E]] 6 0 1 (by decide) (by decide) (by decide) (by decide)

set_option maxRecDepth 1000000 in
set_option maxHeartbeats 0 in
theorem vb_le_EEEEXXOEE : minSpec [[Cell.E, Cell.E, Cell.E], [Cell.E, Cell.X, Cell.X], [Cell.O, Cell.E, Cell.E]] ≤ 0 :=
  minSpec_le_of_low 7 [[Cell.E, Cell.E, Cell.E], [Cell.E, Cell.X, Cell.X], [Cell.O, Cell.E, Cell.E]] 6 0 1 (by decide) (by decide) (by decide) (by decide)

set_option maxRecDepth 1000000 in
set_option maxHeartbeats 0 in
theorem vb_le_EEEEXEOXE : minSpec [[Cell.E, Cell.E, Cell.E], [Cell.E, Cell.X, Cell.E], [Cell.O, Cell.X, Cell.E]] ≤ 0 :=
  minSpec_le_of_low 7 [[Cell.E, Cell.E, Cell.E], [Cell.E, Cell.X, Cell.E], [Cell.O, Cell.X, Cell.E]] 6 0 1 (by decide) (by decide) (by decide) (by decide)

set_option maxRecDepth 1000000 in
set_option maxHeartbeats 0 in
theorem vb_le_EEEEXEOEX : minSpec [[Cell.E, Cell.E, Cell.E], [Cell.E, Cell.X, Cell.E], [Cell.O, Cell.E, Cell.X]] ≤ 0 :=
  minSpec_le_of_low 7 [[Cell.E, Cell.E, Cell.E], [Cell.E, Cell.X, Cell.E], [Cell.O, Cell.E, Cell.X]] 6 0 1 (by decide) (by decide) (by decide) (by decide)

theorem vb_le_EEEEXEOEE : maxSpec [[Cell.E, Cell.E, Cell.E], [Cell.E, Cell.X, Cell.E], [Cell.O, Cell.E, Cell.E]] ≤ 0 := by
  have h := maxSpecE_eq_lfmax [[Cell.E, Cell.E, Cell.E], [Cell.E, Cell.X, Cell.E], [Cell.O, Cell.E, Cell.E]] (by decide)
  rw [show actions [[Cell.E, Cell.E, Cell.E], [Cell.E, Cell.X, Cell.E], [Cell.O, Cell.E, Cell.E]] = [((0 : Int), (0 : Int)), ((0 : Int), (1 : Int)), ((0 : Int), (2 : Int)), ((1 : Int), (0 : Int)), ((1 : Int), (2 : Int)), ((2 : Int), (1 : Int)), ((2 : Int), (2 : Int))] from by decide] at h
  refine (EInt.num_le_num _ _).mp (le_trans (le_of_eq h) (lfmax_le _ _ _ _ (EInt.bot_le _) ?_))
  intro a ha
  fin_cases ha
  · show EInt.num (minSpec (resultOk [[Cell.E, Cell.E, Cell.E], [Cell.E, Cell.X, Cell.E], [Cell.O, Cell.E, Cell.E]] ((0 : Int), (0 : Int)))) ≤ EInt.num 0
    rw [show resultOk [[Cell.E, Cell.E, Cell.E], [Cell.E, Cell.X, Cell.E], [Cell.O, Cell.E, Cell.E]] ((0 : Int), (0 : Int)) = [[Cell.X, Cell.E, Cell.E], [Cell.E, Cell.X, Cell.E], [Cell.O, Cell.E, Cell.E]] from by decide]
    exact (EInt.num_le_num _ _).mpr vb_le_XEEEXEOEE
  · show EInt.num (minSpec (resultOk [[Cell.E, Cell.E, Cell.E], [Cell.E, Cell.X, Cell.E], [Cell.O, Cell.E, Cell.E]] ((0 : Int), (1 : Int)))) ≤ EInt.num 0
    rw [show resultOk [[Cell.E, Cell.E, Cell.E], [Cell.E, Cell.X, Cell.E], [Cell.O, Cell.E, Cell.E]] ((0 : Int), (1 : Int)) = [[Cell.E, Cell.X, Cell.E], [Cell.E, Cell.X, Cell.E], [Cell.O, Cell.E, Cell.E]] from by decide]
    exact (EInt.num_le_num _ _).mpr vb_le_EXEEXEOEE
  · show EInt.num (minSpec (resultOk [[Cell.E, Cell.E, Cell.E], [Cell.E, Cell.X, Cell.E], [Cell.O, Cell.E, Cell.E]] ((0 : Int), (2 : Int)))) ≤ EInt.num 0
    rw [show resultOk [[Cell.E, Cell.E, Cell.E], [Cell.E, Cell.X, Cell.E], [Cell.O, Cell.E, Cell.E]] ((0 : Int), (2 : Int)) = [[Cell.E, Cell.E, Cell.X], [Cell.E, Cell.X, Cell.E], [Cell.O, Cell.E, Cell.E]] from by decide]
    exact (EInt.num_le_num _ _).mpr vb_le_EEXEXEOEE
  · show EInt.num (minSpec (resultOk [[Cell.E, Cell.E, Cell.E], [Cell.E, Cell.X, Cell.E], [Cell.O, Cell.E, Cell.E]] ((1 : Int), (0 : Int)))) ≤ EInt.num 0
    rw [show resultOk [[Cell.E, Cell.E, Cell.E], [Cell.E, Cell.X, Cell.E], [Cell.O, Cell.E, Cell.E]] ((1 : Int), (0 : Int)) = [[Cell.E, Cell.E, Cell.E], [Cell.X, Cell.X, Cell.E], [Cell.O, Cell.E, Cell.E]] from by decide]
    exact (EInt.num_le_num _ _).mpr vb_le_EEEXXEOEE
  · show EInt.num (minSpec (resultOk [[Cell.E, Cell.E, Cell.E], [Cell.E, Cell.X, Cell.E], [Cell.O, Cell.E, Cell.E]] ((1 : Int), (2 : Int)))) ≤ EInt.num 0
    rw [show resultOk [[Cell.E, Cell.E, Cell.E], [Cell.E, Cell.X, Cell.E], [Cell.O, Cell.E, Cell.E]] ((1 : Int), (2 : Int)) = [[Cell.E, Cell.E, Cell.E], [Cell.E, Cell.X, Cell.X], [Cell.O, Cell.E, Cell.E]] from by decide]
    exact (EInt.num_le_num _ _).mpr vb_le_EEEEXXOEE
  · show EInt.num (minSpec (resultOk [[Cell.E, Cell.E, Cell.E], [Cell.E, Cell.X, Cell.E], [Cell.O, Cell.E, Cell.E]] ((2 : Int), (1 : Int)))) ≤ EInt.num 0
    rw [show resultOk [[Cell.E, Cell.E, Cell.E], [Cell.E, Cell.X, Cell.E], [Cell.O, Cell.E, Cell.E]] ((2 : Int), (1 : Int)) = [[Cell.E, Cell.E, Cell.E], [Cell.E, Cell.X, Cell.E], [Cell.O, Cell.X, Cell.E]] from by decide]
    exact (EInt.num_le_num _ _).mpr vb_le_EEEEXEOXE
  · show EInt.num (minSpec (resultOk [[Cell.E, Cell.E, Cell.E], [Cell.E, Cell.X, Cell.E], [Cell.O, Cell.E, Cell.E]] ((2 : Int), (2 : Int)))) ≤ EInt.num 0
    rw [show resultOk [[Cell.E, Cell.E, Cell.E], [Cell.E, Cell.X, Cell.E], [Cell.O, Cell.E, Cell.E]] ((2 : Int), (2 : Int)) = [[Cell.E, Cell.E, Cell.E], [Cell.E, Cell.X, Cell.E], [Cell.O, Cell.E, Cell.X]] from by decide]
    exact (EInt.num_le_num _ _).mpr vb_le_EEEEXEOEX

theorem vb_le_EEEEXEEEE : minSpec [[Cell.E, Cell.E, Cell.E], [Cell.E, Cell.X, Cell.E], [Cell.E, Cell.E, Cell.E]] ≤ 0 := by
  have h := minSpecE_eq_lfmin [[Cell.E, Cell.E, Cell.E], [Cell.E, Cell.X, Cell.E], [Cell.E, Cell.E, Cell.E]] (by decide)
  have h2 := lfmin_le_mem (fun a => maxSpec (resultOk [[Cell.E, Cell.E, Cell.E], [Cell.E, Cell.X, Cell.E], [Cell.E, Cell.E, Cell.E]] a)) (actions [[Cell.E, Cell.E, Cell.E], [Cell.E, Cell.X, Cell.E], [Cell.E, Cell.E, Cell.E]]) EInt.top
    ((2 : Int), (0 : Int)) (by decide)
  rw [show (fun a => maxSpec (resultOk [[Cell.E, Cell.E, Cell.E], [Cell.E, Cell.X, Cell.E], [Cell.E, Cell.E, Cell.E]] a)) ((2 : Int), (0 : Int))
      = maxSpec [[Cell.E, Cell.E, Cell.E], [Cell.E, Cell.X, Cell.E], [Cell.O, Cell.E, Cell.E]] from congrArg maxSpec (by decide)] at h2
  exact (EInt.num_le_num _ _).mp
    (le_trans (le_of_eq h) (le_trans h2 ((EInt.num_le_num _ _).mpr vb_le_EEEEXEOEE)))

set_option maxRecDepth 1000000 in
set_option maxHeartbeats 0 in
theorem vb_le_EEEEEXEEE : minSpec [[Cell.E, Cell.E, Cell.E], [Cell.E, Cell.E, Cell.X], [Cell.E, Cell.E, Cell.E]] ≤ 0 :=
  minSpec_le_of_low 9 [[Cell.E, Cell.E, Cell.E], [Cell.E, Cell.E, Cell.X], [Cell.E, Cell.E, Cell.E]] 8 0 1 (by decide) (by decide) (by decide) (by decide)

set_option maxRecDepth 1000000 in
set_option maxHeartbeats 0 in
theorem vb_le_EXEEOEXEE : minSpec [[Cell.E, Cell.X, Cell.E], [Cell.E, Cell.O, Cell.E], [Cell.X, Cell.E, Cell.E]] ≤ 0 :=
  minSpec_le_of_low 7 [[Cell.E, Cell.X, Cell.E], [Cell.E, Cell.O, Cell.E], [Cell.X, Cell.E, Cell.E]] 6 0 1 (by decide) (by decide) (by decide) (by decide)

set_option maxRecDepth 1000000 in
set_option maxHeartbeats 0 in
theorem vb_le_EEEXOEXEE : minSpec [[Cell.E, Cell.E, Cell.E], [Cell.X, Cell.O, Cell.E], [Cell.X, Cell.E, Cell.E]] ≤ 0 :=
  minSpec_le_of_low 7 [[Cell.E, Cell.E, Cell.E], [Cell.X, Cell.O, Cell.E], [Cell.X, Cell.E, Cell.E]] 6 0 1 (by decide) (by decide) (by decide) (by decide)

set_option maxRecDepth 1000000 in
set_option maxHeartbeats 0 in
theorem vb_le_EEEEOXXEE : minSpec [[Cell.E, Cell.E, Cell.E], [Cell.E, Cell.O, Cell.X], [Cell.X, Cell.E, Cell.E]] ≤ 0 :=
  minSpec_le_of_low 7 [[Cell.E, Cell.E, Cell.E], [Cell.E, Cell.O, Cell.X], [Cell.X, Cell.E, Cell.E]] 6 0 1 (by decide) (by decide) (by decide) (by decide)

set_option maxRecDepth 1000000 in
set_option maxHeartbeats 0 in
theorem vb_le_EEEEOEXXE : minSpec [[Cell.E, Cell.E, Cell.E], [Cell.E, Cell.O, Cell.E], [Cell.X, Cell.X, Cell.E]] ≤ 0 :=
  minSpec_le_of_low 7 [[Cell.E, Cell.E, Cell.E], [Cell.E, Cell.O, Cell.E], [Cell.X, Cell.X, Cell.E]] 6 0 1 (by decide) (by decide) (by decide) (by decide)

set_option maxRecDepth 1000000 in
set_option maxHeartbeats 0 in
theorem vb_le_EEEEOEXOX : maxSpec [[Cell.E, Cell.E, Cell.E], [Cell.E, Cell.O, Cell.E], [Cell.X, Cell.O, Cell.X]] ≤ 0 :=
  maxSpec_le_of_low 6 [[Cell.E, Cell.E, Cell.E], [Cell.E, Cell.O, Cell.E], [Cell.X, Cell.O, Cell.X]] 5 0 1 (by decide) (by decide) (by decide) (by decide)

theorem vb_le_EEEEOEXEX : minSpec [[Cell.E, Cell.E, Cell.E], [Cell.E, Cell.O, Cell.E], [Cell.X, Cell.E, Cell.X]] ≤ 0 := by
  have h := minSpecE_eq_lfmin [[Cell.E, Cell.E, Cell.E], [Cell.E, Cell.O, Cell.E], [Cell.X, Cell.E, Cell.X]] (by decide)
  have h2 := lfmin_le_mem (fun a => maxSpec (resultOk [[Cell.E, Cell.E, Cell.E], [Cell.E, Cell.O, Cell.E], [Cell.X, Cell.E, Cell.X]] a)) (actions [[Cell.E, Cell.E, Cell.E], [Cell.E, Cell.O, Cell.E], [Cell.X, Cell.E, Cell.X]]) EInt.top
    ((2 : Int), (1 : Int)) (by decide)
  rw [show (fun a => maxSpec (resultOk [[Cell.E, Cell.E, Cell.E], [Cell.E, Cell.O, Cell.E], [Cell.X, Cell.E, Cell.X]] a)) ((2 : Int), (1 : Int))
      = maxSpec [[Cell.E, Cell.E, Cell.E], [Cell.E, Cell.O, Cell.E], [Cell.X, Cell.O, Cell.X]] from congrArg maxSpec (by decide)] at h2
  exact (EInt.num_le_num _ _).mp
    (le_trans (le_of_eq h) (le_trans h2 ((EInt.num_le_num _ _).mpr vb_le_EEEEOEXOX)))

theorem vb_le_EEEEOEXEE : maxSpec [[Cell.E, Cell.E, Cell.E], [Cell.E, Cell.O, Cell.E], [Cell.X, Cell.E, Cell.E]] ≤ 0 := by
  have h := maxSpecE_eq_lfmax [[Cell.E, Cell.E, Cell.E], [Cell.E, Cell.O, Cell.E], [Cell.X, Cell.E, Cell.E]] (by decide)
  rw [show actions [[Cell.E, Cell.E, Cell.E], [Cell.E, Cell.O, Cell.E], [Cell.X, Cell.E, Cell.E]] = [((0 : Int), (0 : Int)), ((0 : Int), (1 : Int)), ((0 : Int), (2 : Int)), ((1 : Int), (0 : Int)), ((1 : Int), (2 : Int)), ((2 : Int), (1 : Int)), ((2 : Int), (2 : Int))] from by decide] at h
  refine (EInt.num_le_num _ _).mp (le_trans (le_of_eq h) (lfmax_le _ _ _ _ (EInt.bot_le _) ?_))
  intro a ha
  fin_cases ha
  · show EInt.num (minSpec (resultOk [[Cell.E, Cell.E, Cell.E], [Cell.E, Cell.O, Cell.E], [Cell.X, Cell.E, Cell.E]] ((0 : Int), (0 : Int)))) ≤ EInt.num 0
    rw [show resultOk [[Cell.E, Cell.E, Cell.E], [Cell.E, Cell.O, Cell.E], [Cell.X, Cell.E, Cell.E]] ((0 : Int), (0 : Int)) = [[Cell.X, Cell.E, Cell.E], [Cell.E, Cell.O, Cell.E], [Cell.X, Cell.E, Cell.E]] from by decide]
    exact (EInt.num_le_num _ _).mpr vb_le_XEEEOEXEE
  · show EInt.num (minSpec (resultOk [[Cell.E, Cell.E, Cell.E], [Cell.E, Cell.O, Cell.E], [Cell.X, Cell.E, Cell.E]] ((0 : Int), (1 : Int)))) ≤ EInt.num 0
    rw [show resultOk [[Cell.E, Cell.E, Cell.E], [Cell.E, Cell.O, Cell.E], [Cell.X, Cell.E, Cell.E]] ((0 : Int), (1 : Int)) = [[Cell.E, Cell.X, Cell.E], [Cell.E, Cell.O, Cell.E], [Cell.X, Cell.E, Cell.E]] from by decide]
    exact (EInt.num_le_num _ _).mpr vb_le_EXEEOEXEE
  · show EInt.num (minSpec (resultOk [[Cell.E, Cell.E, Cell.E], [Cell.E, Cell.O, Cell.E], [Cell.X, Cell.E, Cell.E]] ((0 : Int), (2 : Int)))) ≤ EInt.num 0
    rw [show resultOk [[Cell.E, Cell.E, Cell.E], [Cell.E, Cell.O, Cell.E], [Cell.X, Cell.E, Cell.E]] ((0 : Int), (2 : Int)) = [[Cell.E, Cell.E, Cell.X], [Cell.E, Cell.O, Cell.E], [Cell.X, Cell.E, Cell.E]] from by decide]
    exact (EInt.num_le_num _ _).mpr vb_le_EEXEOEXEE
  · show EInt.num (minSpec (resultOk [[Cell.E, Cell.E, Cell.E], [Cell.E, Cell.O, Cell.E], [Cell.X, Cell.E, Cell.E]] ((1 : Int), (0 : Int)))) ≤ EInt.num 0
    rw [show resultOk [[Cell.E, Cell.E, Cell.E], [Cell.E, Cell.O, Cell.E], [Cell.X, Cell.E, Cell.E]] ((1 : Int), (0 : Int)) = [[Cell.E, Cell.E, Cell.E], [Cell.X, Cell.O, Cell.E], [Cell.X, Cell.E, Cell.E]] from by decide]
    exact (EInt.num_le_num _ _).mpr vb_le_EEEXOEXEE
  · show EInt.num (minSpec (resultOk [[Cell.E, Cell.E, Cell.E], [Cell.E, Cell.O, Cell.E], [Cell.X, Cell.E, Cell.E]] ((1 : Int), (2 : Int)))) ≤ EInt.num 0
    rw [show resultOk [[Cell.E, Cell.E, Cell.E], [Cell.E, Cell.O, Cell.E], [Cell.X, Cell.E, Cell.E]] ((1 : Int), (2 : Int)) = [[Cell.E, Cell.E, Cell.E], [Cell.E, Cell.O, Cell.X], [Cell.X, Cell.E, Cell.E]] from by decide]
    exact (EInt.num_le_num _ _).mpr vb_le_EEEEOXXEE
  · show EInt.num (minSpec (resultOk [[Cell.E, Cell.E, Cell.E], [Cell.E, Cell.O, Cell.E], [Cell.X, Cell.E, Cell.E]] ((2 : Int), (1 : Int)))) ≤ EInt.num 0
    rw [show resultOk [[Cell.E, Cell.E, Cell.E], [Cell.E, Cell.O, Cell.E], [Cell.X, Cell.E, Cell.E]] ((2 : Int), (1 : Int)) = [[Cell.E, Cell.E, Cell.E], [Cell.E, Cell.O, Cell.E], [Cell.X, Cell.X, Cell.E]] from by decide]
    exact (EInt.num_le_num _ _).mpr vb_le_EEEEOEXXE
  · show EInt.num (minSpec (resultOk [[Cell.E, Cell.E, Cell.E], [Cell.E, Cell.O, Cell.E], [Cell.X, Cell.E, Cell.E]] ((2 : Int), (2 : Int)))) ≤ EInt.num 0
    rw [show resultOk [[Cell.E, Cell.E, Cell.E], [Cell.E, Cell.O, Cell.E], [Cell.X, Cell.E, Cell.E]] ((2 : Int), (2 : Int)) = [[Cell.E, Cell.E, Cell.E], [Cell.E, Cell.O, Cell.E], [Cell.X, Cell.E, Cell.X]] from by decide]
    exact (EInt.num_le_num _ _).mpr vb_le_EEEEOEXEX

theorem vb_le_EEEEEEXEE : minSpec [[Cell.E, Cell.E, Cell.E], [Cell.E, Cell.E, Cell.E], [Cell.X, Cell.E, Cell.E]] ≤ 0 := by
  have h := minSpecE_eq_lfmin [[Cell.E, Cell.E, Cell.E], [Cell.E, Cell.E, Cell.E], [Cell.X, Cell.E, Cell.E]] (by decide)
  have h2 := lfmin_le_mem (fun a => maxSpec (resultOk [[Cell.E, Cell.E, Cell.E], [Cell.E, Cell.E, Cell.E], [Cell.X, Cell.E, Cell.E]] a)) (actions [[Cell.E, Cell.E, Cell.E], [Cell.E, Cell.E, Cell.E], [Cell.X, Cell.E, Cell.E]]) EInt.top
    ((1 : Int), (1 : Int)) (by decide)
  rw [show (fun a => maxSpec (resultOk [[Cell.E, Cell.E, Cell.E], [Cell.E, Cell.E, Cell.E], [Cell.X, Cell.E, Cell.E]] a)) ((1 : Int), (1 : Int))
      = maxSpec [[Cell.E, Cell.E, Cell.E], [Cell.E, Cell.O, Cell.E], [Cell.X, Cell.E, Cell.E]] from congrArg maxSpec (by decide)] at h2
  exact (EInt.num_le_num _ _).mp
    (le_trans (le_of_eq h) (le_trans h2 ((EInt.num_le_num _ _).mpr vb_le_EEEEOEXEE)))

set_option maxRecDepth 1000000 in
set_option maxHeartbeats 0 in
theorem vb_le_EXEEOEEXE : minSpec [[Cell.E, Cell.X, Cell.E], [Cell.E, Cell.O, Cell.E], [Cell.E, Cell.X, Cell.E]] ≤ 0 :=
  minSpec_le_of_low 7 [[Cell.E, Cell.X, Cell.E], [Cell.E, Cell.O, Cell.E], [Cell.E, Cell.X, Cell.E]] 6 0 1 (by decide) (by decide) (by decide) (by decide)

set_option maxRecDepth 1000000 in
set_option maxHeartbeats 0 in
theorem vb_le_EEEXOEEXE : minSpec [[Cell.E, Cell.E, Cell.E], [Cell.X, Cell.O, Cell.E], [Cell.E, Cell.X, Cell.E]] ≤ 0 :=
  minSpec_le_of_low 7 [[Cell.E, Cell.E, Cell.E], [Cell.X, Cell.O, Cell.E], [Cell.E, Cell.X, Cell.E]] 6 0 1 (by decide) (by decide) (by decide) (by decide)

set_option maxRecDepth 1000000 in
set_option maxHeartbeats 0 in
theorem vb_le_EEEEOXEXE : minSpec [[Cell.E, Cell.E, Cell.E], [Cell.E, Cell.O, Cell.X], [Cell.E, Cell.X, Cell.E]] ≤ 0 :=
  minSpec_le_of_low 7 [[Cell.E, Cell.E, Cell.E], [Cell.E, Cell.O, Cell.X], [Cell.E, Cell.X, Cell.E]] 6 0 1 (by decide) (by decide) (by decide) (by decide)

set_option maxRecDepth 1000000 in
set_option maxHeartbeats 0 in
theorem vb_le_EEEEOEEXX : minSpec [[Cell.E, Cell.E, Cell.E], [Cell.E, Cell.O, Cell.E], [Cell.E, Cell.X, Cell.X]] ≤ 0 :=
  minSpec_le_of_low 7 [[Cell.E, Cell.E, Cell.E], [Cell.E, Cell.O, Cell.E], [Cell.E, Cell.X, Cell.X]] 6 0 1 (by decide) (by decide) (by decide) (by decide)

theorem vb_le_EEEEOEEXE : maxSpec [[Cell.E, Cell.E, Cell.E], [Cell.E, Cell.O, Cell.E], [Cell.E, Cell.X, Cell.E]] ≤ 0 := by
  have h := maxSpecE_eq_lfmax [[Cell.E, Cell.E, Cell.E], [Cell.E, Cell.O, Cell.E], [Cell.E, Cell.X, Cell.E]] (by decide)
  rw [show actions [[Cell.E, Cell.E, Cell.E], [Cell.E, Cell.O, Cell.E], [Cell.E, Cell.X, Cell.E]] = [((0 : Int), (0 : Int)), ((0 : Int), (1 : Int)), ((0 : Int), (2 : Int)), ((1 : Int), (0 : Int)), ((1 : Int), (2 : Int)), ((2 : Int), (0 : Int)), ((2 : Int), (2 : Int))] from by decide] at h
  refine (EInt.num_le_num _ _).mp (le_trans (le_of_eq h) (lfmax_le _ _ _ _ (EInt.bot_le _) ?_))
  intro a ha
  fin_cases ha
  · show EInt.num (minSpec (resultOk [[Cell.E, Cell.E, Cell.E], [Cell.E, Cell.O, Cell.E], [Cell.E, Cell.X, Cell.E]] ((0 : Int), (0 : Int)))) ≤ EInt.num 0
    rw [show resultOk [[Cell.E, Cell.E, Cell.E], [Cell.E, Cell.O, Cell.E], [Cell.E, Cell.X, Cell.E]] ((0 : Int), (0 : Int)) = [[Cell.X, Cell.E, Cell.E], [Cell.E, Cell.O, Cell.E], [Cell.E, Cell.X, Cell.E]] from by decide]
    exact (EInt.num_le_num _ _).mpr vb_le_XEEEOEEXE
  · show EInt.num (minSpec (resultOk [[Cell.E, Cell.E, Cell.E], [Cell.E, Cell.O, Cell.E], [Cell.E, Cell.X, Cell.E]] ((0 : Int), (1 : Int)))) ≤ EInt.num 0
    rw [show resultOk [[Cell.E, Cell.E, Cell.E], [Cell.E, Cell.O, Cell.E], [Cell.E, Cell.X, Cell.E]] ((0 : Int), (1 : Int)) = [[Cell.E, Cell.X, Cell.E], [Cell.E, Cell.O, Cell.E], [Cell.E, Cell.X, Cell.E]] from by decide]
    exact (EInt.num_le_num _ _).mpr vb_le_EXEEOEEXE
  · show EInt.num (minSpec (resultOk [[Cell.E, Cell.E, Cell.E], [Cell.E, Cell.O, Cell.E], [Cell.E, Cell.X, Cell.E]] ((0 : Int), (2 : Int)))) ≤ EInt.num 0
    rw [show resultOk [[Cell.E, Cell.E, Cell.E], [Cell.E, Cell.O, Cell.E], [Cell.E, Cell.X, Cell.E]] ((0 : Int), (2 : Int)) = [[Cell.E, Cell.E, Cell.X], [Cell.E, Cell.O, Cell.E], [Cell.E, Cell.X, Cell.E]] from by decide]
    exact (EInt.num_le_num _ _).mpr vb_le_EEXEOEEXE
  · show EInt.num (minSpec (resultOk [[Cell.E, Cell.E, Cell.E], [Cell.E, Cell.O, Cell.E], [Cell.E, Cell.X, Cell.E]] ((1 : Int), (0 : Int)))) ≤ EInt.num 0
    rw [show resultOk [[Cell.E, Cell.E, Cell.E], [Cell.E, Cell.O, Cell.E], [Cell.E, Cell.X, Cell.E]] ((1 : Int), (0 : Int)) = [[Cell.E, Cell.E, Cell.E], [Cell.X, Cell.O, Cell.E], [Cell.E, Cell.X, Cell.E]] from by decide]
    exact (EInt.num_le_num _ _).mpr vb_le_EEEXOEEXE
  · show EInt.num (minSpec (resultOk [[Cell.E, Cell.E, Cell.E], [Cell.E, Cell.O, Cell.E], [Cell.E, Cell.X, Cell.E]] ((1 : Int), (2 : Int)))) ≤ EInt.num 0
    rw [show resultOk [[Cell.E, Cell.E, Cell.E], [Cell.E, Cell.O, Cell.E], [Cell.E, Cell.X, Cell.E]] ((1 : Int), (2 : Int)) = [[Cell.E, Cell.E, Cell.E], [Cell.E, Cell.O, Cell.X], [Cell.E, Cell.X, Cell.E]] from by decide]
    exact (EInt.num_le_num _ _).mpr vb_le_EEEEOXEXE
  · show EInt.num (minSpec (resultOk [[Cell.E, Cell.E, Cell.E], [Cell.E, Cell.O, Cell.E], [Cell.E, Cell.X, Cell.E]] ((2 : Int), (0 : Int)))) ≤ EInt.num 0
    rw [show resultOk [[Cell.E, Cell.E, Cell.E], [Cell.E, Cell.O, Cell.E], [Cell.E, Cell.X, Cell.E]] ((2 : Int), (0 : Int)) = [[Cell.E, Cell.E, Cell.E], [Cell.E, Cell.O, Cell.E], [Cell.X, Cell.X, Cell.E]] from by decide]
    exact (EInt.num_le_num _ _).mpr vb_le_EEEEOEXXE
  · show EInt.num (minSpec (resultOk [[Cell.E, Cell.E, Cell.E], [Cell.E, Cell.O, Cell.E], [Cell.E, Cell.X, Cell.E]] ((2 : Int), (2 : Int)))) ≤ EInt.num 0
    rw [show resultOk [[Cell.E, Cell.E, Cell.E], [Cell.E, Cell.O, Cell.E], [Cell.E, Cell.X, Cell.E]] ((2 : Int), (2 : Int)) = [[Cell.E, Cell.E, Cell.E], [Cell.E, Cell.O, Cell.E], [Cell.E, Cell.X, Cell.X]] from by decide]
    exact (EInt.num_le_num _ _).mpr vb_le_EEEEOEEXX

theorem vb_le_EEEEEEEXE : minSpec [[Cell.E, Cell.E, Cell.E], [Cell.E, Cell.E, Cell.E], [Cell.E, Cell.X, Cell.E]] ≤ 0 := by
  have h := minSpecE_eq_lfmin [[Cell.E, Cell.E, Cell.E], [Cell.E, Cell.E, Cell.E], [Cell.E, Cell.X, Cell.E]] (by decide)
  have h2 := lfmin_le_mem (fun a => maxSpec (resultOk [[Cell.E, Cell.E, Cell.E], [Cell.E, Cell.E, Cell.E], [Cell.E, Cell.X, Cell.E]] a)) (actions [[Cell.E, Cell.E, Cell.E], [Cell.E, Cell.E, Cell.E], [Cell.E, Cell.X, Cell.E]]) EInt.top
    ((1 : Int), (1 : Int)) (by decide)
  rw [show (fun a => maxSpec (resultOk [[Cell.E, Cell.E, Cell.E], [Cell.E, Cell.E, Cell.E], [Cell.E, Cell.X, Cell.E]] a)) ((1 : Int), (1 : Int))
      = maxSpec [[Cell.E, Cell.E, Cell.E], [Cell.E, Cell.O, Cell.E], [Cell.E, Cell.X, Cell.E]] from congrArg maxSpec (by decide)] at h2
  exact (EInt.num_le_num _ _).mp
    (le_trans (le_of_eq h) (le_trans h2 ((EInt.num_le_num _ _).mpr vb_le_EEEEOEEXE)))

set_option maxRecDepth 1000000 in
set_option maxHeartbeats 0 in
theorem vb_le_EXEEOEEEX : minSpec [[Cell.E, Cell.X, Cell.E], [Cell.E, Cell.O, Cell.E], [Cell.E, Cell.E, Cell.X]] ≤ 0 :=
  minSpec_le_of_low 7 [[Cell.E, Cell.X, Cell.E], [Cell.E, Cell.O, Cell.E], [Cell.E, Cell.E, Cell.X]] 6 0 1 (by decide) (by decide) (by decide) (by decide)

set_option maxRecDepth 1000000 in
set_option maxHeartbeats 0 in
theorem vb_le_EEEXOEEEX : minSpec [[Cell.E, Cell.E, Cell.E], [Cell.X, Cell.O, Cell.E], [Cell.E, Cell.E, Cell.X]] ≤ 0 :=
  minSpec_le_of_low 7 [[Cell.E, Cell.E, Cell.E], [Cell.X, Cell.O, Cell.E], [Cell.E, Cell.E, Cell.X]] 6 0 1 (by decide) (by decide) (by decide) (by decide)

set_option maxRecDepth 1000000 in
set_option maxHeartbeats 0 in
theorem vb_le_EEEEOXEEX : minSpec [[Cell.E, Cell.E, Cell.E], [Cell.E, Cell.O, Cell.X], [Cell.E, Cell.E, Cell.X]] ≤ 0 :=
  minSpec_le_of_low 7 [[Cell.E, Cell.E, Cell.E], [Cell.E, Cell.O, Cell.X], [Cell.E, Cell.E, Cell.X]] 6 0 1 (by decide) (by decide) (by decide) (by decide)

theorem vb_le_EEEEOEEEX : maxSpec [[Cell.E, Cell.E, Cell.E], [Cell.E, Cell.O, Cell.E], [Cell.E, Cell.E, Cell.X]] ≤ 0 := by
  have h := maxSpecE_eq_lfmax [[Cell.E, Cell.E, Cell.E], [Cell.E, Cell.O, Cell.E], [Cell.E, Cell.E, Cell.X]] (by decide)
  rw [show actions [[Cell.E, Cell.E, Cell.E], [Cell.E, Cell.O, Cell.E], [Cell.E, Cell.E, Cell.X]] = [((0 : Int), (0 : Int)), ((0 : Int), (1 : Int)), ((0 : Int), (2 : Int)), ((1 : Int), (0 : Int)), ((1 : Int), (2 : Int)), ((2 : Int), (0 : Int)), ((2 : Int), (1 : Int))] from by decide] at h
  refine (EInt.num_le_num _ _).mp (le_trans (le_of_eq h) (lfmax_le _ _ _ _ (EInt.bot_le _) ?_))
  intro a ha
  fin_cases ha
  · show EInt.num (minSpec (resultOk [[Cell.E, Cell.E, Cell.E], [Cell.E, Cell.O, Cell.E], [Cell.E, Cell.E, Cell.X]] ((0 : Int), (0 : Int)))) ≤ EInt.num 0
    rw [show resultOk [[Cell.E, Cell.E, Cell.E], [Cell.E, Cell.O, Cell.E], [Cell.E, Cell.E, Cell.X]] ((0 : Int), (0 : Int)) = [[Cell.X, Cell.E, Cell.E], [Cell.E, Cell.O, Cell.E], [Cell.E, Cell.E, Cell.X]] from by decide]
    exact (EInt.num_le_num _ _).mpr vb_le_XEEEOEEEX
  · show EInt.num (minSpec (resultOk [[Cell.E, Cell.E, Cell.E], [Cell.E, Cell.O, Cell.E], [Cell.E, Cell.E, Cell.X]] ((0 : Int), (1 : Int)))) ≤ EInt.num 0
    rw [show resultOk [[Cell.E, Cell.E, Cell.E], [Cell.E, Cell.O, Cell.E], [Cell.E, Cell.E, Cell.X]] ((0 : Int), (1 : Int)) = [[Cell.E, Cell.X, Cell.E], [Cell.E, Cell.O, Cell.E], [Cell.E, Cell.E, Cell.X]] from by decide]
    exact (EInt.num_le_num _ _).mpr vb_le_EXEEOEEEX
  · show EInt.num (minSpec (resultOk [[Cell.E, Cell.E, Cell.E], [Cell.E, Cell.O, Cell.E], [Cell.E, Cell.E, Cell.X]] ((0 : Int), (2 : Int)))) ≤ EInt.num 0
    rw [show resultOk [[Cell.E, Cell.E, Cell.E], [Cell.E, Cell.O, Cell.E], [Cell.E, Cell.E, Cell.X]] ((0 : Int), (2 : Int)) = [[Cell.E, Cell.E, Cell.X], [Cell.E, Cell.O, Cell.E], [Cell.E, Cell.E, Cell.X]] from by decide]
    exact (EInt.num_le_num _ _).mpr vb_le_EEXEOEEEX
  · show EInt.num (minSpec (resultOk [[Cell.E, Cell.E, Cell.E], [Cell.E, Cell.O, Cell.E], [Cell.E, Cell.E, Cell.X]] ((1 : Int), (0 : Int)))) ≤ EInt.num 0
    rw [show resultOk [[Cell.E, Cell.E, Cell.E], [Cell.E, Cell.O, Cell.E], [Cell.E, Cell.E, Cell.X]] ((1 : Int), (0 : Int)) = [[Cell.E, Cell.E, Cell.E], [Cell.X, Cell.O, Cell.E], [Cell.E, Cell.E, Cell.X]] from by decide]
    exact (EInt.num_le_num _ _).mpr vb_le_EEEXOEEEX
  · show EInt.num (minSpec (resultOk [[Cell.E, Cell.E, Cell.E], [Cell.E, Cell.O, Cell.E], [Cell.E, Cell.E, Cell.X]] ((1 : Int), (2 : Int)))) ≤ EInt.num 0
    rw [show resultOk [[Cell.E, Cell.E, Cell.E], [Cell.E, Cell.O, Cell.E], [Cell.E, Cell.E, Cell.X]] ((1 : Int), (2 : Int)) = [[Cell.E, Cell.E, Cell.E], [Cell.E, Cell.O, Cell.X], [Cell.E, Cell.E, Cell.X]] from by decide]
    exact (EInt.num_le_num _ _).mpr vb_le_EEEEOXEEX
  · show EInt.num (minSpec (resultOk [[Cell.E, Cell.E, Cell.E], [Cell.E, Cell.O, Cell.E], [Cell.E, Cell.E, Cell.X]] ((2 : Int), (0 : Int)))) ≤ EInt.num 0
    rw [show resultOk [[Cell.E, Cell.E, Cell.E], [Cell.E, Cell.O, Cell.E], [Cell.E, Cell.E, Cell.X]] ((2 : Int), (0 : Int)) = [[Cell.E, Cell.E, Cell.E], [Cell.E, Cell.O, Cell.E], [Cell.X, Cell.E, Cell.X]] from by decide]
    exact (EInt.num_le_num _ _).mpr vb_le_EEEEOEXEX
  · show EInt.num (minSpec (resultOk [[Cell.E, Cell.E, Cell.E], [Cell.E, Cell.O, Cell.E], [Cell.E, Cell.E, Cell.X]] ((2 : Int), (1 : Int)))) ≤ EInt.num 0
    rw [show resultOk [[Cell.E, Cell.E, Cell.E], [Cell.E, Cell.O, Cell.E], [Cell.E, Cell.E, Cell.X]] ((2 : Int), (1 : Int)) = [[Cell.E, Cell.E, Cell.E], [Cell.E, Cell.O, Cell.E], [Cell.E, Cell.X, Cell.X]] from by decide]
    exact (EInt.num_le_num _ _).mpr vb_le_EEEEOEEXX

theorem vb_le_EEEEEEEEX : minSpec [[Cell.E, Cell.E, Cell.E], [Cell.E, Cell.E, Cell.E], [Cell.E, Cell.E, Cell.X]] ≤ 0 := by
  have h := minSpecE_eq_lfmin [[Cell.E, Cell.E, Cell.E], [Cell.E, Cell.E, Cell.E], [Cell.E, Cell.E, Cell.X]] (by decide)
  have h2 := lfmin_le_mem (fun a => maxSpec (resultOk [[Cell.E, Cell.E, Cell.E], [Cell.E, Cell.E, Cell.E], [Cell.E, Cell.E, Cell.X]] a)) (actions [[Cell.E, Cell.E, Cell.E], [Cell.E, Cell.E, Cell.E], [Cell.E, Cell.E, Cell.X]]) EInt.top
    ((1 : Int), (1 : Int)) (by decide)
  rw [show (fun a => maxSpec (resultOk [[Cell.E, Cell.E, Cell.E], [Cell.E, Cell.E, Cell.E], [Cell.E, Cell.E, Cell.X]] a)) ((1 : Int), (1 : Int))
      = maxSpec [[Cell.E, Cell.E, Cell.E], [Cell.E, Cell.O, Cell.E], [Cell.E, Cell.E, Cell.X]] from congrArg maxSpec (by decide)] at h2
  exact (EInt.num_le_num _ _).mp
    (le_trans (le_of_eq h) (le_trans h2 ((EInt.num_le_num _ _).mpr vb_le_EEEEOEEEX)))

theorem vb_le_EEEEEEEEE : maxSpec initial_state ≤ 0 := by
  have h := maxSpecE_eq_lfmax initial_state (by decide)
  rw [show actions initial_state = [((0 : Int), (0 : Int)), ((0 : Int), (1 : Int)), ((0 : Int), (2 : Int)), ((1 : Int), (0 : Int)), ((1 : Int), (1 : Int)), ((1 : Int), (2 : Int)), ((2 : Int), (0 : Int)), ((2 : Int), (1 : Int)), ((2 : Int), (2 : Int))] from by decide] at h
  refine (EInt.num_le_num _ _).mp (le_trans (le_of_eq h) (lfmax_le _ _ _ _ (EInt.bot_le _) ?_))
  intro a ha
  fin_cases ha
  · show EInt.num (minSpec (resultOk initial_state ((0 : Int), (0 : Int)))) ≤ EInt.num 0
    rw [show resultOk initial_state ((0 : Int), (0 : Int)) = [[Cell.X, Cell.E, Cell.E], [Cell.E, Cell.E, Cell.E], [Cell.E, Cell.E, Cell.E]] from by decide]
    exact (EInt.num_le_num _ _).mpr vb_le_XEEEEEEEE
  · show EInt.num (minSpec (resultOk initial_state ((0 : Int), (1 : Int)))) ≤ EInt.num 0
    rw [show resultOk initial_state ((0 : Int), (1 : Int)) = [[Cell.E, Cell.X, Cell.E], [Cell.E, Cell.E, Cell.E], [Cell.E, Cell.E, Cell.E]] from by decide]
    exact (EInt.num_le_num _ _).mpr vb_le_EXEEEEEEE
  · show EInt.num (minSpec (resultOk initial_state ((0 : Int), (2 : Int)))) ≤ EInt.num 0
    rw [show resultOk initial_state ((0 : Int), (2 : Int)) = [[Cell.E, Cell.E, Cell.X], [Cell.E, Cell.E, Cell.E], [Cell.E, Cell.E, Cell.E]] from by decide]
    exact (EInt.num_le_num _ _).mpr vb_le_EEXEEEEEE
  · show EInt.num (minSpec (resultOk initial_state ((1 : Int), (0 : Int)))) ≤ EInt.num 0
    rw [show resultOk initial_state ((1 : Int), (0 : Int)) = [[Cell.E, Cell.E, Cell.E], [Cell.X, Cell.E, Cell.E], [Cell.E, Cell.E, Cell.E]] from by decide]
    exact (EInt.num_le_num _ _).mpr vb_le_EEEXEEEEE
  · show EInt.num (minSpec (resultOk initial_state ((1 : Int), (1 : Int)))) ≤ EInt.num 0
    rw [show resultOk initial_state ((1 : Int), (1 : Int)) = [[Cell.E, Cell.E, Cell.E], [Cell.E, Cell.X, Cell.E], [Cell.E, Cell.E, Cell.E]] from by decide]
    exact (EInt.num_le_num _ _).mpr vb_le_EEEEXEEEE
  · show EInt.num (minSpec (resultOk initial_state ((1 : Int), (2 : Int)))) ≤ EInt.num 0
    rw [show resultOk initial_state ((1 : Int), (2 : Int)) = [[Cell.E, Cell.E, Cell.E], [Cell.E, Cell.E, Cell.X], [Cell.E, Cell.E, Cell.E]] from by decide]
    exact (EInt.num_le_num _ _).mpr vb_le_EEEEEXEEE
  · show EInt.num (minSpec (resultOk initial_state ((2 : Int), (0 : Int)))) ≤ EInt.num 0
    rw [show resultOk initial_state ((2 : Int), (0 : Int)) = [[Cell.E, Cell.E, Cell.E], [Cell.E, Cell.E, Cell.E], [Cell.X, Cell.E, Cell.E]] from by decide]
    exact (EInt.num_le_num _ _).mpr vb_le_EEEEEEXEE
  · show EInt.num (minSpec (resultOk initial_state ((2 : Int), (1 : Int)))) ≤ EInt.num 0
    rw [show resultOk initial_state ((2 : Int), (1 : Int)) = [[Cell.E, Cell.E, Cell.E], [Cell.E, Cell.E, Cell.E], [Cell.E, Cell.X, Cell.E]] from by decide]
    exact (EInt.num_le_num _ _).mpr vb_le_EEEEEEEXE
  · show EInt.num (minSpec (resultOk initial_state ((2 : Int), (2 : Int)))) ≤ EInt.num 0
    rw [show resultOk initial_state ((2 : Int), (2 : Int)) = [[Cell.E, Cell.E, Cell.E], [Cell.E, Cell.E, Cell.E], [Cell.E, Cell.E, Cell.X]] from by decide]
    exact (EInt.num_le_num _ _).mpr vb_le_EEEEEEEEX

set_option maxRecDepth 1000000 in
set_option maxHeartbeats 0 in
theorem vb_ge_OEEEEEEEX : 0 ≤ maxSpec [[Cell.O, Cell.E, Cell.E], [Cell.E, Cell.E, Cell.E], [Cell.E, Cell.E, Cell.X]] :=
  le_maxSpec_of_high 8 [[Cell.O, Cell.E, Cell.E], [Cell.E, Cell.E, Cell.E], [Cell.E, Cell.E, Cell.X]] 7 (-1) 0 (by decide) (by decide) (by decide) (by decide)

set_option maxRecDepth 1000000 in
set_option maxHeartbeats 0 in
theorem vb_ge_EOEEEEEEX : 0 ≤ maxSpec [[Cell.E, Cell.O, Cell.E], [Cell.E, Cell.E, Cell.E], [Cell.E, Cell.E, Cell.X]] :=
  le_maxSpec_of_high 8 [[Cell.E, Cell.O, Cell.E], [Cell.E, Cell.E, Cell.E], [Cell.E, Cell.E, Cell.X]] 7 (-1) 0 (by decide) (by decide) (by decide) (by decide)

set_option maxRecDepth 1000000 in
set_option maxHeartbeats 0 in
theorem vb_ge_EEOEEEEEX : 0 ≤ maxSpec [[Cell.E, Cell.E, Cell.O], [Cell.E, Cell.E, Cell.E], [Cell.E, Cell.E, Cell.X]] :=
  le_maxSpec_of_high 8 [[Cell.E, Cell.E, Cell.O], [Cell.E, Cell.E, Cell.E], [Cell.E, Cell.E, Cell.X]] 7 (-1) 0 (by decide) (by decide) (by decide) (by decide)

set_option maxRecDepth 1000000 in
set_option maxHeartbeats 0 in
theorem vb_ge_EEEOEEEEX : 0 ≤ maxSpec [[Cell.E, Cell.E, Cell.E], [Cell.O, Cell.E, Cell.E], [Cell.E, Cell.E, Cell.X]] :=
  le_maxSpec_of_high 8 [[Cell.E, Cell.E, Cell.E], [Cell.O, Cell.E, Cell.E], [Cell.E, Cell.E, Cell.X]] 7 (-1) 0 (by decide) (by decide) (by decide) (by decide)

set_option maxRecDepth 1000000 in
set_option maxHeartbeats 0 in
theorem vb_ge_EEEEOEEEX : 0 ≤ maxSpec [[Cell.E, Cell.E, Cell.E], [Cell.E, Cell.O, Cell.E], [Cell.E, Cell.E, Cell.X]] :=
  le_maxSpec_of_high 8 [[Cell.E, Cell.E, Cell.E], [Cell.E, Cell.O, Cell.E], [Cell.E, Cell.E, Cell.X]] 7 (-1) 0 (by decide) (by decide) (by decide) (by decide)

set_option maxRecDepth 1000000 in
set_option maxHeartbeats 0 in
theorem vb_ge_EEEEEOEEX : 0 ≤ maxSpec [[Cell.E, Cell.E, Cell.E], [Cell.E, Cell.E, Cell.O], [Cell.E, Cell.E, Cell.X]] :=
  le_maxSpec_of_high 8 [[Cell.E, Cell.E, Cell.E], [Cell.E, Cell.E, Cell.O], [Cell.E, Cell.E, Cell.X]] 7 (-1) 0 (by decide) (by decide) (by decide) (by decide)

set_option maxRecDepth 1000000 in
set_option maxHeartbeats 0 in
theorem vb_ge_EEEEEEOEX : 0 ≤ maxSpec [[Cell.E, Cell.E, Cell.E], [Cell.E, Cell.E, Cell.E], [Cell.O, Cell.E, Cell.X]] :=
  le_maxSpec_of_high 8 [[Cell.E, Cell.E, Cell.E], [Cell.E, Cell.E, Cell.E], [Cell.O, Cell.E, Cell.X]] 7 (-1) 0 (by decide) (by decide) (by decide) (by decide)

set_option maxRecDepth 1000000 in
set_option maxHeartbeats 0 in
theorem vb_ge_EEEEEEEOX : 0 ≤ maxSpec [[Cell.E, Cell.E, Cell.E], [Cell.E, Cell.E, Cell.E], [Cell.E, Cell.O, Cell.X]] :=
  le_maxSpec_of_high 8 [[Cell.E, Cell.E, Cell.E], [Cell.E, Cell.E, Cell.E], [Cell.E, Cell.O, Cell.X]] 7 (-1) 0 (by decide) (by decide) (by decide) (by decide)

theorem vb_ge_EEEEEEEEX : 0 ≤ minSpec [[Cell.E, Cell.E, Cell.E], [Cell.E, Cell.E, Cell.E], [Cell.E, Cell.E, Cell.X]] := by
  have h := minSpecE_eq_lfmin [[Cell.E, Cell.E, Cell.E], [Cell.E, Cell.E, Cell.E], [Cell.E, Cell.E, Cell.X]] (by decide)
  rw [show actions [[Cell.E, Cell.E, Cell.E], [Cell.E, Cell.E, Cell.E], [Cell.E, Cell.E, Cell.X]] = [((0 : Int), (0 : Int)), ((0 : Int), (1 : Int)), ((0 : Int), (2 : Int)), ((1 : Int), (0 : Int)), ((1 : Int), (1 : Int)), ((1 : Int), (2 : Int)), ((2 : Int), (0 : Int)), ((2 : Int), (1 : Int))] from by decide] at h
  refine (EInt.num_le_num _ _).mp (le_trans (le_lfmin _ _ _ _ (EInt.le_top _) ?_) (le_of_eq h.symm))
  intro a ha
  fin_cases ha
  · show EInt.num 0 ≤ EInt.num (maxSpec (resultOk [[Cell.E, Cell.E, Cell.E], [Cell.E, Cell.E, Cell.E], [Cell.E, Cell.E, Cell.X]] ((0 : Int), (0 : Int))))
    rw [show resultOk [[Cell.E, Cell.E, Cell.E], [Cell.E, Cell.E, Cell.E], [Cell.E, Cell.E, Cell.X]] ((0 : Int), (0 : Int)) = [[Cell.O, Cell.E, Cell.E], [Cell.E, Cell.E, Cell.E], [Cell.E, Cell.E, Cell.X]] from by decide]
    exact (EInt.num_le_num _ _).mpr vb_ge_OEEEEEEEX
  · show EInt.num 0 ≤ EInt.num (maxSpec (resultOk [[Cell.E, Cell.E, Cell.E], [Cell.E, Cell.E, Cell.E], [Cell.E, Cell.E, Cell.X]] ((0 : Int), (1 : Int))))
    rw [show resultOk [[Cell.E, Cell.E, Cell.E], [Cell.E, Cell.E, Cell.E], [Cell.E, Cell.E, Cell.X]] ((0 : Int), (1 : Int)) = [[Cell.E, Cell.O, Cell.E], [Cell.E, Cell.E, Cell.E], [Cell.E, Cell.E, Cell.X]] from by decide]
    exact (EInt.num_le_num _ _).mpr vb_ge_EOEEEEEEX
  · show EInt.num 0 ≤ EInt.num (maxSpec (resultOk [[Cell.E, Cell.E, Cell.E], [Cell.E, Cell.E, Cell.E], [Cell.E, Cell.E, Cell.X]] ((0 : Int), (2 : Int))))
    rw [show resultOk [[Cell.E, Cell.E, Cell.E], [Cell.E, Cell.E, Cell.E], [Cell.E, Cell.E, Cell.X]] ((0 : Int), (2 : Int)) = [[Cell.E, Cell.E, Cell.O], [Cell.E, Cell.E, Cell.E], [Cell.E, Cell.E, Cell.X]] from by decide]
    exact (EInt.num_le_num _ _).mpr vb_ge_EEOEEEEEX
  · show EInt.num 0 ≤ EInt.num (maxSpec (resultOk [[Cell.E, Cell.E, Cell.E], [Cell.E, Cell.E, Cell.E], [Cell.E, Cell.E, Cell.X]] ((1 : Int), (0 : Int))))
    rw [show resultOk [[Cell.E, Cell.E, Cell.E], [Cell.E, Cell.E, Cell.E], [Cell.E, Cell.E, Cell.X]] ((1 : Int), (0 : Int)) = [[Cell.E, Cell.E, Cell.E], [Cell.O, Cell.E, Cell.E], [Cell.E, Cell.E, Cell.X]] from by decide]
    exact (EInt.num_le_num _ _).mpr vb_ge_EEEOEEEEX
  · show EInt.num 0 ≤ EInt.num (maxSpec (resultOk [[Cell.E, Cell.E, Cell.E], [Cell.E, Cell.E, Cell.E], [Cell.E, Cell.E, Cell.X]] ((1 : Int), (1 : Int))))
    rw [show resultOk [[Cell.E, Cell.E, Cell.E], [Cell.E, Cell.E, Cell.E], [Cell.E, Cell.E, Cell.X]] ((1 : Int), (1 : Int)) = [[Cell.E, Cell.E, Cell.E], [Cell.E, Cell.O, Cell.E], [Cell.E, Cell.E, Cell.X]] from by decide]
    exact (EInt.num_le_num _ _).mpr vb_ge_EEEEOEEEX
  · show EInt.num 0 ≤ EInt.num (maxSpec (resultOk [[Cell.E, Cell.E, Cell.E], [Cell.E, Cell.E, Cell.E], [Cell.E, Cell.E, Cell.X]] ((1 : Int), (2 : Int))))
    rw [show resultOk [[Cell.E, Cell.E, Cell.E], [Cell.E, Cell.E, Cell.E], [Cell.E, Cell.E, Cell.X]] ((1 : Int), (2 : Int)) = [[Cell.E, Cell.E, Cell.E], [Cell.E, Cell.E, Cell.O], [Cell.E, Cell.E, Cell.X]] from by decide]
    exact (EInt.num_le_num _ _).mpr vb_ge_EEEEEOEEX
  · show EInt.num 0 ≤ EInt.num (maxSpec (resultOk [[Cell.E, Cell.E, Cell.E], [Cell.E, Cell.E, Cell.E], [Cell.E, Cell.E, Cell.X]] ((2 : Int), (0 : Int))))
    rw [show resultOk [[Cell.E, Cell.E, Cell.E], [Cell.E, Cell.E, Cell.E], [Cell.E, Cell.E, Cell.X]] ((2 : Int), (0 : Int)) = [[Cell.E, Cell.E, Cell.E], [Cell.E, Cell.E, Cell.E], [Cell.O, Cell.E, Cell.X]] from by decide]
    exact (EInt.num_le_num _ _).mpr vb_ge_EEEEEEOEX
  · show EInt.num 0 ≤ EInt.num (maxSpec (resultOk [[Cell.E, Cell.E, Cell.E], [Cell.E, Cell.E, Cell.E], [Cell.E, Cell.E, Cell.X]] ((2 : Int), (1 : Int))))
    rw [show resultOk [[Cell.E, Cell.E, Cell.E], [Cell.E, Cell.E, Cell.E], [Cell.E, Cell.E, Cell.X]] ((2 : Int), (1 : Int)) = [[Cell.E, Cell.E, Cell.E], [Cell.E, Cell.E, Cell.E], [Cell.E, Cell.O, Cell.X]] from by decide]
    exact (EInt.num_le_num _ _).mpr vb_ge_EEEEEEEOX

theorem vb_ge_EEEEEEEEE : 0 ≤ maxSpec initial_state := by
  have h := maxSpecE_eq_lfmax initial_state (by decide)
  have h2 := mem_le_lfmax (fun a => minSpec (resultOk initial_state a)) (actions initial_state) EInt.bot
    ((2 : Int), (2 : Int)) (by decide)
  rw [show (fun a => minSpec (resultOk initial_state a)) ((2 : Int), (2 : Int))
      = minSpec [[Cell.E, Cell.E, Cell.E], [Cell.E, Cell.E, Cell.E], [Cell.E, Cell.E, Cell.X]] from congrArg minSpec (by decide)] at h2
  exact (EInt.num_le_num _ _).mp
    (le_trans ((EInt.num_le_num _ _).mpr vb_ge_EEEEEEEEX) (le_trans h2 (le_of_eq h.symm)))

set_option maxRecDepth 1000000 in
set_option maxHeartbeats 0 in
theorem vb_ge_XOEEEEEEE : 0 ≤ maxSpec [[Cell.X, Cell.O, Cell.E], [Cell.E, Cell.E, Cell.E], [Cell.E, Cell.E, Cell.E]] :=
  le_maxSpec_of_high 8 [[Cell.X, Cell.O, Cell.E], [Cell.E, Cell.E, Cell.E], [Cell.E, Cell.E, Cell.E]] 7 (-1) 0 (by decide) (by decide) (by decide) (by decide)

set_option maxRecDepth 1000000 in
set_option maxHeartbeats 0 in
theorem vb_ge_XEOEEEEEE : 0 ≤ maxSpec [[Cell.X, Cell.E, Cell.O], [Cell.E, Cell.E, Cell.E], [Cell.E, Cell.E, Cell.E]] :=
  le_maxSpec_of_high 8 [[Cell.X, Cell.E, Cell.O], [Cell.E, Cell.E, Cell.E], [Cell.E, Cell.E, Cell.E]] 7 (-1) 0 (by decide) (by decide) (by decide) (by decide)

set_option maxRecDepth 1000000 in
set_option maxHeartbeats 0 in
theorem vb_ge_XEEOEEEEE : 0 ≤ maxSpec [[Cell.X, Cell.E, Cell.E], [Cell.O, Cell.E, Cell.E], [Cell.E, Cell.E, Cell.E]] :=
  le_maxSpec_of_high 8 [[Cell.X, Cell.E, Cell.E], [Cell.O, Cell.E, Cell.E], [Cell.E, Cell.E, Cell.E]] 7 (-1) 0 (by decide) (by decide) (by decide) (by decide)

set_option maxRecDepth 1000000 in
set_option maxHeartbeats 0 in
theorem vb_ge_XEEEOEEEE : 0 ≤ maxSpec [[Cell.X, Cell.E, Cell.E], [Cell.E, Cell.O, Cell.E], [Cell.E, Cell.E, Cell.E]] :=
  le_maxSpec_of_high 8 [[Cell.X, Cell.E, Cell.E], [Cell.E, Cell.O, Cell.E], [Cell.E, Cell.E, Cell.E]] 7 (-1) 0 (by decide) (by decide) (by decide) (by decide)

set_option maxRecDepth 1000000 in
set_option maxHeartbeats 0 in
theorem vb_ge_XEEEEOEEE : 0 ≤ maxSpec [[Cell.X, Cell.E, Cell.E], [Cell.E, Cell.E, Cell.O], [Cell.E, Cell.E, Cell.E]] :=
  le_maxSpec_of_high 8 [[Cell.X, Cell.E, Cell.E], [Cell.E, Cell.E, Cell.O], [Cell.E, Cell.E, Cell.E]] 7 (-1) 0 (by decide) (by decide) (by decide) (by decide)

set_option maxRecDepth 1000000 in
set_option maxHeartbeats 0 in
theorem vb_ge_XEEEEEOEE : 0 ≤ maxSpec [[Cell.X, Cell.E, Cell.E], [Cell.E, Cell.E, Cell.E], [Cell.O, Cell.E, Cell.E]] :=
  le_maxSpec_of_high 8 [[Cell.X, Cell.E, Cell.E], [Cell.E, Cell.E, Cell.E], [Cell.O, Cell.E, Cell.E]] 7 (-1) 0 (by decide) (by decide) (by decide) (by decide)

set_option maxRecDepth 1000000 in
set_option maxHeartbeats 0 in
theorem vb_ge_XEEEEEEOE : 0 ≤ maxSpec [[Cell.X, Cell.E, Cell.E], [Cell.E, Cell.E, Cell.E], [Cell.E, Cell.O, Cell.E]] :=
  le_maxSpec_of_high 8 [[Cell.X, Cell.E, Cell.E], [Cell.E, Cell.E, Cell.E], [Cell.E, Cell.O, Cell.E]] 7 (-1) 0 (by decide) (by decide) (by decide) (by decide)

set_option maxRecDepth 1000000 in
set_option maxHeartbeats 0 in
theorem vb_ge_XEEEEEEEO : 0 ≤ maxSpec [[Cell.X, Cell.E, Cell.E], [Cell.E, Cell.E, Cell.E], [Cell.E, Cell.E, Cell.O]] :=
  le_maxSpec_of_high 8 [[Cell.X, Cell.E, Cell.E], [Cell.E, Cell.E, Cell.E], [Cell.E, Cell.E, Cell.O]] 7 (-1) 0 (by decide) (by decide) (by decide) (by decide)

theorem vb_ge_XEEEEEEEE : 0 ≤ minSpec [[Cell.X, Cell.E, Cell.E], [Cell.E, Cell.E, Cell.E], [Cell.E, Cell.E, Cell.E]] := by
  have h := minSpecE_eq_lfmin [[Cell.X, Cell.E, Cell.E], [Cell.E, Cell.E, Cell.E], [Cell.E, Cell.E, Cell.E]] (by decide)
  rw [show actions [[Cell.X, Cell.E, Cell.E], [Cell.E, Cell.E, Cell.E], [Cell.E, Cell.E, Cell.E]] = [((0 : Int), (1 : Int)), ((0 : Int), (2 : Int)), ((1 : Int), (0 : Int)), ((1 : Int), (1 : Int)), ((1 : Int), (2 : Int)), ((2 : Int), (0 : Int)), ((2 : Int), (1 : Int)), ((2 : Int), (2 : Int))] from by decide] at h
  refine (EInt.num_le_num _ _).mp (le_trans (le_lfmin _ _ _ _ (EInt.le_top _) ?_) (le_of_eq h.symm))
  intro a ha
  fin_cases ha
  · show EInt.num 0 ≤ EInt.num (maxSpec (resultOk [[Cell.X, Cell.E, Cell.E], [Cell.E, Cell.E, Cell.E], [Cell.E, Cell.E, Cell.E]] ((0 : Int), (1 : Int))))
    rw [show resultOk [[Cell.X, Cell.E, Cell.E], [Cell.E, Cell.E, Cell.E], [Cell.E, Cell.E, Cell.E]] ((0 : Int), (1 : Int)) = [[Cell.X, Cell.O, Cell.E], [Cell.E, Cell.E, Cell.E], [Cell.E, Cell.E, Cell.E]] from by decide]
    exact (EInt.num_le_num _ _).mpr vb_ge_XOEEEEEEE
  · show EInt.num 0 ≤ EInt.num (maxSpec (resultOk [[Cell.X, Cell.E, Cell.E], [Cell.E, Cell.E, Cell.E], [Cell.E, Cell.E, Cell.E]] ((0 : Int), (2 : Int))))
    rw [show resultOk [[Cell.X, Cell.E, Cell.E], [Cell.E, Cell.E, Cell.E], [Cell.E, Cell.E, Cell.E]] ((0 : Int), (2 : Int)) = [[Cell.X, Cell.E, Cell.O], [Cell.E, Cell.E, Cell.E], [Cell.E, Cell.E, Cell.E]] from by decide]
    exact (EInt.num_le_num _ _).mpr vb_ge_XEOEEEEEE
  · show EInt.num 0 ≤ EInt.num (maxSpec (resultOk [[Cell.X, Cell.E, Cell.E], [Cell.E, Cell.E, Cell.E], [Cell.E, Cell.E, Cell.E]] ((1 : Int), (0 : Int))))
    rw [show resultOk [[Cell.X, Cell.E, Cell.E], [Cell.E, Cell.E, Cell.E], [Cell.E, Cell.E, Cell.E]] ((1 : Int), (0 : Int)) = [[Cell.X, Cell.E, Cell.E], [Cell.O, Cell.E, Cell.E], [Cell.E, Cell.E, Cell.E]] from by decide]
    exact (EInt.num_le_num _ _).mpr vb_ge_XEEOEEEEE
  · show EInt.num 0 ≤ EInt.num (maxSpec (resultOk [[Cell.X, Cell.E, Cell.E], [Cell.E, Cell.E, Cell.E], [Cell.E, Cell.E, Cell.E]] ((1 : Int), (1 : Int))))
    rw [show resultOk [[Cell.X, Cell.E, Cell.E], [Cell.E, Cell.E, Cell.E], [Cell.E, Cell.E, Cell.E]] ((1 : Int), (1 : Int)) = [[Cell.X, Cell.E, Cell.E], [Cell.E, Cell.O, Cell.E], [Cell.E, Cell.E, Cell.E]] from by decide]
    exact (EInt.num_le_num _ _).mpr vb_ge_XEEEOEEEE
  · show EInt.num 0 ≤ EInt.num (maxSpec (resultOk [[Cell.X, Cell.E, Cell.E], [Cell.E, Cell.E, Cell.E], [Cell.E, Cell.E, Cell.E]] ((1 : Int), (2 : Int))))
    rw [show resultOk [[Cell.X, Cell.E, Cell.E], [Cell.E, Cell.E, Cell.E], [Cell.E, Cell.E, Cell.E]] ((1 : Int), (2 : Int)) = [[Cell.X, Cell.E, Cell.E], [Cell.E, Cell.E, Cell.O], [Cell.E, Cell.E, Cell.E]] from by decide]
    exact (EInt.num_le_num _ _).mpr vb_ge_XEEEEOEEE
  · show EInt.num 0 ≤ EInt.num (maxSpec (resultOk [[Cell.X, Cell.E, Cell.E], [Cell.E, Cell.E, Cell.E], [Cell.E, Cell.E, Cell.E]] ((2 : Int), (0 : Int))))
    rw [show resultOk [[Cell.X, Cell.E, Cell.E], [Cell.E, Cell.E, Cell.E], [Cell.E, Cell.E, Cell.E]] ((2 : Int), (0 : Int)) = [[Cell.X, Cell.E, Cell.E], [Cell.E, Cell.E, Cell.E], [Cell.O, Cell.E, Cell.E]] from by decide]
    exact (EInt.num_le_num _ _).mpr vb_ge_XEEEEEOEE
  · show EInt.num 0 ≤ EInt.num (maxSpec (resultOk [[Cell.X, Cell.E, Cell.E], [Cell.E, Cell.E, Cell.E], [Cell.E, Cell.E, Cell.E]] ((2 : Int), (1 : Int))))
    rw [show resultOk [[Cell.X, Cell.E, Cell.E], [Cell.E, Cell.E, Cell.E], [Cell.E, Cell.E, Cell.E]] ((2 : Int), (1 : Int)) = [[Cell.X, Cell.E, Cell.E], [Cell.E, Cell.E, Cell.E], [Cell.E, Cell.O, Cell.E]] from by decide]
    exact (EInt.num_le_num _ _).mpr vb_ge_XEEEEEEOE
  · show EInt.num 0 ≤ EInt.num (maxSpec (resultOk [[Cell.X, Cell.E, Cell.E], [Cell.E, Cell.E, Cell.E], [Cell.E, Cell.E, Cell.E]] ((2 : Int), (2 : Int))))
    rw [show resultOk [[Cell.X, Cell.E, Cell.E], [Cell.E, Cell.E, Cell.E], [Cell.E, Cell.E, Cell.E]] ((2 : Int), (2 : Int)) = [[Cell.X, Cell.E, Cell.E], [Cell.E, Cell.E, Cell.E], [Cell.E, Cell.E, Cell.O]] from by decide]
    exact (EInt.num_le_num _ _).mpr vb_ge_XEEEEEEEO

/-- The initial position of tic-tac-toe is a draw under optimal play. -/
theorem maxSpec_initial_eq : maxSpec initial_state = 0 :=
  le_antisymm vb_le_EEEEEEEEE vb_ge_EEEEEEEEE

theorem corner_board_eq : resultOk initial_state ((0 : Int), (0 : Int)) =
    [[Cell.X, Cell.E, Cell.E], [Cell.E, Cell.E, Cell.E], [Cell.E, Cell.E, Cell.E]] := by decide

/-- The corner opening keeps the optimal (draw) value. -/
theorem minSpec_corner_eq :
    minSpec (resultOk initial_state ((0 : Int), (0 : Int))) = 0 := by
  rw [corner_board_eq]
  exact le_antisymm vb_le_XEEEEEEEE vb_ge_XEEEEEEEE

/-- C1: on every reachable non-terminal board and for every shuffle order,
`minimax` returns a member of `actions(board)` realizing the optimal
full-depth minimax value for the active player (on the initial board the
shortcut `(0, 0)` also realizes the optimal value). -/
theorem c1_minimax_optimal (s : Shuffler) (b : Board) (hr : Reachable b)
    (hnt : terminal b = false) :
    ∃ a, minimax s b = some a ∧ a ∈ actions b ∧
      (if player b = Cell.X then minSpec (resultOk b a) = maxSpec b
       else maxSpec (resultOk b a) = minSpec b) :=
  c1_aux s b hr hnt maxSpec_initial_eq minSpec_corner_eq

theorem c1_minimax_optimal_witness :
    (Reachable initial_state ∧ terminal initial_state = false) ∧
    ∃ a, minimax idShuffler initial_state = some a ∧ a ∈ actions initial_state ∧
      (if player initial_state = Cell.X
       then minSpec (resultOk initial_state a) = maxSpec initial_state
       else maxSpec (resultOk initial_state a) = minSpec initial_state) :=
  ⟨⟨Reachable.init, by decide⟩,
   c1_minimax_optimal idShuffler initial_state Reachable.init (by decide)⟩

/-- C9: on the canonical initial board `minimax` short-circuits to the fixed
corner `(0, 0)` without searching; the shortcut is behaviorally equivalent to
the full search, since the full-depth value of the board after `(0, 0)`
equals the optimal value of the initial board. -/
theorem c9_initial_shortcut (s : Shuffler) :
    minimax s initial_state = some ((0 : Int), (0 : Int)) ∧
    ((0 : Int), (0 : Int)) ∈ actions initial_state ∧
    minSpec (resultOk initial_state ((0 : Int), (0 : Int))) = maxSpec initial_state := by
  refine ⟨?_, by decide, ?_⟩
  · unfold minimax
    rw [if_pos rfl]
  · rw [maxSpec_initial_eq, minSpec_corner_eq]

end TTT
